import Mathlib

/-!
# ADDA: scattering quantities and parameter handling

A shallow embedding of parts of `crosssec.c` (rel 0.77), `param.c` (rel 0.75) and
`const.h` (rel 0.76b).  Floating point numbers are idealised as elements of a linearly
ordered field `K` (exact arithmetic); the functions of `math.h` that the code calls
(`cos`, `sin`, `sqrt`, `acos`) and the value of pi are arguments of the definitions, so
that every definition can be evaluated over the rationals, while the theorems instantiate
them with the real functions.  C arrays are index functions `Nat → α`; a pointer `p + k`
is the function `fun i => p (k + i)`.  Memory is idealised as unbounded within the address
space: an allocation fails only when it asks for more than `SIZE_MAX` bytes.
-/

namespace ADDA

/-! ## Results of C functions -/

/-- Outcome of running a C function: a value, an error reported through `LogError` or
`PrintError` (the run stops there), or a read of a slot the code never wrote. -/
inductive Res (α : Type) where
  | ok : α → Res α
  | error : String → Res α
  | undef : Res α
  deriving Repr, DecidableEq

/-- The result is an error report. -/
def Res.isError {α : Type} : Res α → Bool
  | Res.error _ => true
  | _ => false

/-- Sequencing: the second step runs on the value of the first, unless the first stopped. -/
def Res.bind {α β : Type} (r : Res α) (f : α → Res β) : Res β :=
  match r with
  | Res.ok a => f a
  | Res.error e => Res.error e
  | Res.undef => Res.undef

/-- Applying a function to the value of a result. -/
def Res.map {α β : Type} (f : α → β) : Res α → Res β
  | Res.ok a => Res.ok (f a)
  | Res.error e => Res.error e
  | Res.undef => Res.undef

/-! ## Constants of const.h -/

/-- const.h line 52. -/
def MAX_NMAT : Nat := 10

/-- Values of `ScatRelation` (const.h lines 98-99). -/
inductive ScatRel where
  | SQ_DRAINE
  | SQ_SO
  deriving Repr, DecidableEq

/-- Values of `IntRelation` (const.h lines 102-103). -/
inductive IntRel where
  | G_POINT_DIP
  | G_SO
  deriving Repr, DecidableEq

/-- Values of `beamtype` (const.h lines 137-140). -/
inductive BeamType where
  | B_PLANE
  | B_LMINUS
  | B_DAVIS3
  | B_BARTON5
  deriving Repr, DecidableEq

/-- Values of `chp_type` (const.h lines 157-161). -/
inductive ChpType where
  | CHP_NONE
  | CHP_NORMAL
  | CHP_REGULAR
  | CHP_ALWAYS
  deriving Repr, DecidableEq

/-- const.h line 19. -/
def UNDEF : Int := -1

/-! ## Complex numbers and 3-vectors (cmplx.h) -/

/-- The C type `doublecomplex` (`double[2]`), with its slots `RE` and `IM`. -/
structure doublecomplex (K : Type) where
  RE : K
  IM : K
  deriving Repr, DecidableEq

section cmplx
variable {K : Type} [LinearOrderedField K]

/-- Modelled from the spec: `cAbs2` of cmplx.h (absent from the sources), the square of
the absolute value of a complex number, as its use `|P|^2` in `AbsCross` says. -/
def cAbs2 (a : doublecomplex K) : K := a.RE * a.RE + a.IM * a.IM

/-- Modelled from the spec: `cSquare` of cmplx.h (absent from the sources), the square of
a complex number (`m^2` in the comments of `CalcField` and `AbsCross`). -/
def cSquare (a : doublecomplex K) : doublecomplex K :=
  ⟨a.RE * a.RE - a.IM * a.IM, 2 * a.RE * a.IM⟩

/-- Modelled from the spec: `cMultSelf` of cmplx.h (absent from the sources), the product
of two complex numbers, stored in the first. -/
def cMultSelf (a b : doublecomplex K) : doublecomplex K :=
  ⟨a.RE * b.RE - a.IM * b.IM, a.IM * b.RE + a.RE * b.IM⟩

/-- Modelled from the spec: `imExp` of cmplx.h (absent from the sources), `exp(i*arg)`,
as the comment `a=exp(-ikr.n)` on the call `imExp(-kr,a)` says. -/
def imExp (cos sin : K → K) (arg : K) : doublecomplex K := ⟨cos arg, sin arg⟩

/-- Modelled from the spec: `DotProd` of cmplx.h (absent from the sources), the dot
product of two real 3-vectors. -/
def DotProd (a b : Nat → K) : K := a 0 * b 0 + a 1 * b 1 + a 2 * b 2

/-- Modelled from the spec: `crDotProd` of cmplx.h (absent from the sources), the dot
product of a complex and a real 3-vector (`n.sum` in `CalcField`). -/
def crDotProd (a : Nat → doublecomplex K) (b : Nat → K) : doublecomplex K :=
  ⟨(a 0).RE * b 0 + (a 1).RE * b 1 + (a 2).RE * b 2,
   (a 0).IM * b 0 + (a 1).IM * b 1 + (a 2).IM * b 2⟩

/-- Modelled from the spec: `crDotProd_Re` of cmplx.h (absent from the sources), the real
part of the dot product of a complex and a real 3-vector. -/
def crDotProd_Re (a : Nat → doublecomplex K) (b : Nat → K) : K :=
  (a 0).RE * b 0 + (a 1).RE * b 1 + (a 2).RE * b 2

/-- Modelled from the spec: `cDotProd_Im` of cmplx.h (absent from the sources), the
imaginary part of the conjugate dot product `a.b*` of two complex 3-vectors
(`sum{Im(P.E_inc*)}` in `ExtCross`). -/
def cDotProd_Im (a b : Nat → doublecomplex K) : K :=
  (a 0).IM * (b 0).RE - (a 0).RE * (b 0).IM
  + ((a 1).IM * (b 1).RE - (a 1).RE * (b 1).IM)
  + ((a 2).IM * (b 2).RE - (a 2).RE * (b 2).IM)

/-- Modelled from the spec: `cScalMultRVec` of cmplx.h (absent from the sources), the
real 3-vector `a` multiplied by the complex scalar `b` (`n*(n.sum)` in `CalcField`). -/
def cScalMultRVec (a : Nat → K) (b : doublecomplex K) : Nat → doublecomplex K :=
  fun i => ⟨b.RE * a i, b.IM * a i⟩

/-- Modelled from the spec: `cvSubtr` of cmplx.h (absent from the sources), the difference
of two complex 3-vectors. -/
def cvSubtr (a b : Nat → doublecomplex K) : Nat → doublecomplex K :=
  fun i => ⟨(a i).RE - (b i).RE, (a i).IM - (b i).IM⟩

/-- Modelled from the spec: `cvNorm2` of cmplx.h (absent from the sources), the squared
norm of a complex 3-vector. -/
def cvNorm2 (a : Nat → doublecomplex K) : K := cAbs2 (a 0) + cAbs2 (a 1) + cAbs2 (a 2)

/-- Modelled from the spec: `MatrVec` of cmplx.h (absent from the sources), the product of
a real 3x3 matrix and a real 3-vector. -/
def MatrVec (matr : Nat → Nat → K) (vec : Nat → K) : Nat → K :=
  fun i => matr i 0 * vec 0 + matr i 1 * vec 1 + matr i 2 * vec 2

/-- Modelled from the spec: `Deg2Rad` of cmplx.h (absent from the sources), degrees to
radians, with `PI_OVER_180` of const.h line 48 idealised as `PI/180`. -/
def Deg2Rad (PI : K) (deg : K) : K := deg * (PI / 180)

/-- A local table of which the code fills the rows `i < n` only: reading another row
reads a slot that was never written. -/
def filled {α : Type} (n : Nat) (row : Nat → α) (i : Nat) : Res α :=
  if i < n then Res.ok (row i) else Res.undef

end cmplx

/-! ## crosssec.c: AbsCross -/

section AbsCross
variable {K : Type} [LinearOrderedField K]

/-- The main cycle of the Draine branch of `AbsCross` (crosssec.c lines 557-562), after
`dip` rounds: `sum+=(cc_inv_im[mat][i] - dummy)*cAbs2(pvec[index+i])` for `i = 0,1,2`. -/
def AbsCross_cycleDraine (dummy : K) (cc_inv_im : Nat → Res (Nat → K))
    (material : Nat → Nat) (pvec : Nat → doublecomplex K) : Nat → Res K
  | 0 => Res.ok 0
  | dip + 1 =>
    (AbsCross_cycleDraine dummy cc_inv_im material pvec dip).bind fun sum =>
    (cc_inv_im (material dip)).bind fun row =>
      Res.ok (sum + (row 0 - dummy) * cAbs2 (pvec (3 * dip + 0))
                  + (row 1 - dummy) * cAbs2 (pvec (3 * dip + 1))
                  + (row 2 - dummy) * cAbs2 (pvec (3 * dip + 2)))

/-- The main cycle of the second-order branch of `AbsCross` (crosssec.c lines 578-579). -/
def AbsCross_cycleSO (mult_mat : Nat → Res K)
    (material : Nat → Nat) (pvec : Nat → doublecomplex K) : Nat → Res K
  | 0 => Res.ok 0
  | dip + 1 =>
    (AbsCross_cycleSO mult_mat material pvec dip).bind fun sum =>
    (mult_mat (material dip)).bind fun m =>
      Res.ok (sum + m * cvNorm2 (fun i => pvec (3 * dip + i)))

/-- The function `AbsCross` of crosssec.c (lines 540-583) on a single process, where
`MyInnerProduct` leaves `sum` as it is.  `FOUR_PI` is the constant of const.h line 38. -/
def AbsCross (FOUR_PI : K) (ScatRelation : ScatRel) (anisotropy : Bool)
    (WaveNum kd gridspace : K) (Nmat : Nat)
    (cc : Nat → Nat → doublecomplex K) (ref_index : Nat → doublecomplex K)
    (local_nvoid_Ndip : Nat) (material : Nat → Nat) (pvec : Nat → doublecomplex K) :
    Res K :=
  match ScatRelation with
  | ScatRel.SQ_DRAINE =>
    let dummy := 2 * WaveNum * WaveNum * WaveNum / 3
    let cc_inv_im : Nat → Res (Nat → K) :=
      filled Nmat (fun i j => (cc i j).IM / cAbs2 (cc i j))
    (AbsCross_cycleDraine dummy cc_inv_im material pvec local_nvoid_Ndip).bind fun sum =>
      Res.ok (FOUR_PI * WaveNum * sum)
  | ScatRel.SQ_SO =>
    if anisotropy then Res.error "Incompatibility error in AbsCross"
    else
      let temp1 := kd * kd / 6
      let temp2 := FOUR_PI / (gridspace * gridspace * gridspace)
      let mult_mat : Nat → Res K :=
        filled Nmat (fun i =>
          let m := ref_index i
          let m2 : doublecomplex K := ⟨(cSquare m).RE - 1, (cSquare m).IM⟩
          temp2 * m2.IM * (1 + temp1 * m.IM * m.IM) / cAbs2 m2)
      (AbsCross_cycleSO mult_mat material pvec local_nvoid_Ndip).bind fun sum =>
        Res.ok (FOUR_PI * WaveNum * sum)

end AbsCross

/-! ## crosssec.c: CalcField and ExtCross -/

section CalcField
variable {K : Type} [LinearOrderedField K]

/-- The cycle over the dipoles of `CalcField` (crosssec.c lines 482-497): `sum` after the
first `j` dipoles.  `mult_mat` is read in the second-order formulation only. -/
def CalcField_cycle (cos sin : K → K) (ScatRelation : ScatRel)
    (mult_mat : Nat → Res (doublecomplex K)) (WaveNum : K) (DipoleCoord : Nat → K)
    (material : Nat → Nat) (pvec : Nat → doublecomplex K) (n : Nat → K) :
    Nat → Res (Nat → doublecomplex K)
  | 0 => Res.ok (fun _ => ⟨0, 0⟩)
  | j + 1 =>
    (CalcField_cycle cos sin ScatRelation mult_mat WaveNum DipoleCoord material pvec n j).bind
    fun sum =>
      let jjj := 3 * j
      let kr := WaveNum * DotProd (fun i => DipoleCoord (jjj + i)) n
      let a0 := imExp cos sin (-kr)
      (match ScatRelation with
        | ScatRel.SQ_SO => (mult_mat (material j)).bind fun m => Res.ok (cMultSelf a0 m)
        | ScatRel.SQ_DRAINE => Res.ok a0).bind
      fun a =>
        Res.ok (fun i =>
          ⟨(sum i).RE + ((pvec (jjj + i)).RE * a.RE - (pvec (jjj + i)).IM * a.IM),
           (sum i).IM + ((pvec (jjj + i)).RE * a.IM + (pvec (jjj + i)).IM * a.RE)⟩)

/-- The function `CalcField` of crosssec.c (lines 454-510): the scattering amplitude
`ebuff` in the direction `n`. -/
def CalcField (cos sin : K → K) (ScatRelation : ScatRel) (anisotropy : Bool)
    (WaveNum kd : K) (Nmat : Nat) (ref_index : Nat → doublecomplex K)
    (local_nvoid_Ndip : Nat) (DipoleCoord : Nat → K) (material : Nat → Nat)
    (pvec : Nat → doublecomplex K) (prop : Nat → K) (n : Nat → K) :
    Res (Nat → doublecomplex K) :=
  let scat_avg := true
  if ScatRelation = ScatRel.SQ_SO ∧ anisotropy = true then
    Res.error "Incompatibility error in CalcField"
  else
    let na : K := if scat_avg then 0 else DotProd n prop
    let temp := kd * kd / 24
    let mult_mat : Nat → Res (doublecomplex K) :=
      filled Nmat (fun i =>
        let m2 := cSquare (ref_index i)
        ⟨1 - temp * (m2.RE - 2 * na * (ref_index i).RE + 1),
         temp * (2 * na * (ref_index i).IM - m2.IM)⟩)
    (CalcField_cycle cos sin ScatRelation mult_mat WaveNum DipoleCoord material pvec n
        local_nvoid_Ndip).bind
    fun sum =>
      let dpr := crDotProd sum n
      let tbuff := cScalMultRVec n dpr
      let ebuff := cvSubtr sum tbuff
      let kkk := WaveNum * WaveNum * WaveNum
      Res.ok (fun i => ⟨(ebuff i).IM * kkk, -(ebuff i).RE * kkk⟩)

/-- The cycle of the general branch of `ExtCross` (crosssec.c line 531). -/
def ExtCross_cycle (pvec Einc : Nat → doublecomplex K) : Nat → K
  | 0 => 0
  | i + 1 => ExtCross_cycle pvec Einc i
      + cDotProd_Im (fun c => pvec (3 * i + c)) (fun c => Einc (3 * i + c))

/-- The function `ExtCross` of crosssec.c (lines 514-536) on a single process, where
`MyInnerProduct` leaves `sum` as it is. -/
def ExtCross (FOUR_PI : K) (cos sin : K → K) (beamtype : BeamType)
    (ScatRelation : ScatRel) (anisotropy : Bool)
    (WaveNum kd : K) (Nmat : Nat) (ref_index : Nat → doublecomplex K)
    (local_nvoid_Ndip : Nat) (DipoleCoord : Nat → K) (material : Nat → Nat)
    (pvec Einc : Nat → doublecomplex K) (prop : Nat → K) (incPol : Nat → K) : Res K :=
  if beamtype = BeamType.B_PLANE then
    (CalcField cos sin ScatRelation anisotropy WaveNum kd Nmat ref_index
        local_nvoid_Ndip DipoleCoord material pvec prop prop).bind
    fun ebuff => Res.ok (crDotProd_Re ebuff incPol * (FOUR_PI / (WaveNum * WaveNum)))
  else
    Res.ok (ExtCross_cycle pvec Einc local_nvoid_Ndip * (FOUR_PI * WaveNum))

end CalcField

/-! ## crosssec.c: InitRotation -/

section InitRotation
variable {K : Type} [LinearOrderedField K]

/-- The matrix `beta_matr` of `InitRotation` (crosssec.c lines 80-88) from the cosines and
sines of the three Euler angles. -/
def beta_matr (ca sa cb sb cg sg : K) : Nat → Nat → K
  | 0, 0 => ca * cb * cg - sa * sg
  | 0, 1 => sa * cb * cg + ca * sg
  | 0, _ => -sb * cg
  | 1, 0 => -ca * cb * sg - sa * cg
  | 1, 1 => -sa * cb * sg + ca * cg
  | 1, _ => sb * sg
  | _, 0 => ca * sb
  | _, 1 => sa * sb
  | _, _ => cb

/-- The vectors that `InitRotation` writes. -/
structure Rotated (K : Type) where
  prop : Nat → K
  incPolY : Nat → K
  incPolX : Nat → K
  beam_center : Nat → K

/-- The function `InitRotation` of crosssec.c (lines 61-94); `beam_center` is the value
the global has before the call, kept unless `beam_asym` holds. -/
def InitRotation (PI : K) (cos sin : K → K) (alph_deg bet_deg gam_deg : K)
    (prop_0 incPolX_0 incPolY_0 : Nat → K) (beam_asym : Bool)
    (beam_center_0 beam_center : Nat → K) : Rotated K :=
  let alph := Deg2Rad PI alph_deg
  let bet := Deg2Rad PI bet_deg
  let gam := Deg2Rad PI gam_deg
  let m := beta_matr (cos alph) (sin alph) (cos bet) (sin bet) (cos gam) (sin gam)
  { prop := MatrVec m prop_0
    incPolY := MatrVec m incPolY_0
    incPolX := MatrVec m incPolX_0
    beam_center := if beam_asym then MatrVec m beam_center_0 else beam_center }

end InitRotation

/-! ## Machine integers -/

/-- The value of a mathematical integer stored in a 32-bit two's complement `int`. -/
def wrap32 (x : Int) : Int := (x + 2 ^ 31) % 2 ^ 32 - 2 ^ 31

/-- The C expression `a << b` on 32-bit `int`, for a shift count `0 <= b < 32`. -/
def shl32 (a b : Int) : Int := wrap32 (a * 2 ^ b.toNat)

/-- Conversion of an `int` to `size_t` (64 bits). -/
def to_size_t (x : Int) : Nat := (x % 2 ^ 64).toNat

/-- Bounds of `int` (limits.h). -/
def INT_MIN : Int := -(2 ^ 31)

/-- Upper bound of `int` (limits.h). -/
def INT_MAX : Int := 2 ^ 31 - 1

/-! ## crosssec.c: reading integration parameters -/

section ScanIntegrParms
variable {K : Type} [LinearOrderedField K]

/-- Modelled from the spec: the type `angle_set` (its header is absent from the sources):
`min`, `max`, the number of points `N` and the array `val` of `N` values. -/
structure angle_set (K : Type) where
  min : K
  max : K
  N : Nat
  val : Nat → Res K

/-- Modelled from the spec: the type `Parms_1D` (its header is absent from the sources):
the parameters of integration over one angle. -/
structure Parms_1D (K : Type) where
  eps : K
  Jmin : Int
  Jmax : Int
  min : K
  max : K
  Grid_size : Int
  equival : Bool
  periodic : Bool

/-- What the scanning functions find in one block of a parameter file: after each of the
seven keys either a value or nothing that `sscanf` accepts (or no such line at all). -/
structure IntegrBlock (K : Type) where
  min : Option K
  max : Option K
  Jmin : Option Int
  Jmax : Option Int
  eps : Option K
  equiv : Option String
  periodic : Option String

/-- The function `ScanDouble` of crosssec.c (lines 141-149), on what the file holds after
the key `start`. -/
def ScanDouble (found : Option K) (start : String) : Res K :=
  match found with
  | some x => Res.ok x
  | none => Res.error ("Error reading value after " ++ start)

/-- The function `ScanInt` of crosssec.c (lines 153-168). -/
def ScanInt (found : Option Int) (start : String) : Res Int :=
  match found with
  | some x =>
    if x < INT_MIN ∨ x > INT_MAX then
      Res.error ("Value after " ++ start ++ " is out of integer bounds")
    else Res.ok x
  | none => Res.error ("Error reading value after " ++ start)

/-- The function `ScanString` of crosssec.c (lines 172-180). -/
def ScanString (found : Option String) (start : String) : Res String :=
  match found with
  | some x => Res.ok x
  | none => Res.error ("Error reading value after " ++ start)

/-- The scanning part of `ScanIntegrParms` (crosssec.c lines 196-209): the seven values
in the order the code reads them, `equiv` and `periodic` as flags. -/
def ScanIntegrParms_scan (blk : IntegrBlock K) :
    Res (K × K × Int × Int × K × Bool × Bool) :=
  (ScanDouble blk.min "min=").bind fun amin =>
  (ScanDouble blk.max "max=").bind fun amax =>
  (ScanInt blk.Jmin "Jmin=").bind fun Jmin =>
  (ScanInt blk.Jmax "Jmax=").bind fun Jmax =>
  (ScanDouble blk.eps "eps=").bind fun eps =>
  (ScanString blk.equiv "equiv=").bind fun temp =>
  if temp ≠ "true" ∧ temp ≠ "false" then Res.error "Wrong argument of equiv option"
  else
  let equival : Bool := decide (temp = "true")
  (ScanString blk.periodic "periodic=").bind fun temp2 =>
  if temp2 ≠ "true" ∧ temp2 ≠ "false" then Res.error "Wrong argument of periodic option"
  else Res.ok (amin, amax, Jmin, Jmax, eps, equival, decide (temp2 = "true"))

/-- The part of `ScanIntegrParms` that fills `a->N`, `b->Grid_size` and `b->Jmax`
(crosssec.c lines 211-231): the result is `(N, Grid_size, Jmax)`. -/
def ScanIntegrParms_fill (amin amax : K) (Jmin Jmax : Int) (eps : K) (equival : Bool) :
    Res (Nat × Int × Int) :=
  if amin = amax then Res.ok (1, 1, 1)
  else if amin > amax then Res.error "Wrong range (max must be >= min)"
  else if Jmax < Jmin then Res.error "Wrong Jmax; it must be >= Jmin"
  else if Jmin < 1 then Res.error "Wrong Jmin (must be >=1)"
  else if eps < 0 then Res.error "Wrong eps (must be >=0)"
  else if Jmax ≥ 32 then Res.error "Too large Jmax, it will cause integer overflow"
  else
    let Grid_size : Int := wrap32 (shl32 1 Jmax + 1)
    let N : Nat := to_size_t Grid_size
    Res.ok (if equival ∧ N > 1 then N - 1 else N, Grid_size, Jmax)

/-- Modelled from the spec: `Rad2Deg` of cmplx.h (absent from the sources), radians to
degrees, with `INV_PI_180` of const.h line 49 idealised as `180/PI`. -/
def Rad2Deg (PI : K) (rad : K) : K := rad * (180 / PI)

/-- const.h line 171. -/
def ROUND_ERR : K := 1 / 10 ^ 15

/-- The part of `ScanIntegrParms` that initializes the points of integration (crosssec.c
lines 232-260), from the values read and the sizes set before. -/
def ScanIntegrParms_points (PI : K) (cos acos : K → K) (ifcos : Bool)
    (amin amax : K) (Jmin : Int) (eps : K) (equival periodic : Bool)
    (N : Nat) (Grid_size Jmax : Int) : Res (angle_set K × Parms_1D K) :=
  if ifcos then
    if amin < 0 then Res.error "Wrong min (must be >=0 for this angle)"
    else if amax > 180 then Res.error "Wrong max (must be <=180 for this angle)"
    else
      let bmin0 := cos (Deg2Rad PI amax)
      let bmax0 := cos (Deg2Rad PI amin)
      let bmin := if |bmin0| < ROUND_ERR then 0 else bmin0
      let bmax := if |bmax0| < ROUND_ERR then 0 else bmax0
      let unit := (bmax - bmin) / ((Grid_size - 1 : Int) : K)
      let val : Nat → Res K :=
        if Grid_size = 1 then filled 1 (fun _ => amin)
        else filled N (fun i => Rad2Deg PI (acos (bmin + unit * (i : K))))
      Res.ok ({ min := amin, max := amax, N := N, val := val },
              { eps := eps, Jmin := Jmin, Jmax := Jmax, min := bmin, max := bmax,
                Grid_size := Grid_size, equival := equival, periodic := periodic })
  else
    let bmin := Deg2Rad PI amin
    let bmax := Deg2Rad PI amax
    let unit := (amax - amin) / ((Grid_size - 1 : Int) : K)
    let val : Nat → Res K :=
      if Grid_size = 1 then filled 1 (fun _ => amin)
      else filled N (fun i => amin + unit * (i : K))
    Res.ok ({ min := amin, max := amax, N := N, val := val },
            { eps := eps, Jmin := Jmin, Jmax := Jmax, min := bmin, max := bmax,
              Grid_size := Grid_size, equival := equival, periodic := periodic })

/-- Upper bound of `size_t` (stdint.h), 64 bits. -/
def SIZE_MAX : Nat := 2 ^ 64 - 1

/-- Modelled from the spec: `MALLOC_VECTOR` of memory.h (absent from the sources), the
allocation of a vector of `size` elements of `elem` bytes each; the run stops with an error
when the vector cannot be allocated.  Memory is idealised as unbounded within the address
space: the allocation fails exactly when the number of bytes exceeds `SIZE_MAX`, a request
that no allocation can meet. -/
def MALLOC_VECTOR (elem size : Nat) (name : String) : Res Unit :=
  if size * elem > SIZE_MAX then Res.error ("Could not malloc " ++ name) else Res.ok ()

/-- The function `ScanIntegrParms` of crosssec.c (lines 184-261): the scan of the seven
values, the sizes, the allocation of the `a->N` doubles of `a->val` (line 233,
`sizeof(double) = 8`) and the points of integration. -/
def ScanIntegrParms (PI : K) (cos acos : K → K) (blk : IntegrBlock K) (ifcos : Bool) :
    Res (angle_set K × Parms_1D K) :=
  (ScanIntegrParms_scan blk).bind fun r =>
  (ScanIntegrParms_fill r.1 r.2.1 r.2.2.1 r.2.2.2.1 r.2.2.2.2.1 r.2.2.2.2.2.1).bind fun f =>
  (MALLOC_VECTOR 8 f.1 "a->val").bind fun _ =>
  ScanIntegrParms_points PI cos acos ifcos r.1 r.2.1 r.2.2.1 r.2.2.2.2.1 r.2.2.2.2.2.1
    r.2.2.2.2.2.2 f.1 f.2.1 f.2.2

/-- What `ReadAvgParms` finds in the file of orientation averaging parameters: the blocks
after the lines `alpha:`, `beta:` and `gamma:`, each possibly missing. -/
structure AvgFile (K : Type) where
  alpha : Option (IntegrBlock K)
  beta : Option (IntegrBlock K)
  gamma : Option (IntegrBlock K)

/-- The angle sets and parameters that `ReadAvgParms` writes. -/
structure AvgParms (K : Type) where
  alpha_int : angle_set K
  parms_alpha : Parms_1D K
  beta_int : angle_set K
  parms_THETA : Parms_1D K
  gamma_int : angle_set K
  parms_PHI : Parms_1D K

/-- One `ReadLineStart` for a section name followed by `ScanIntegrParms` (crosssec.c
lines 323-328). -/
def ReadAvgParms_section (PI : K) (cos acos : K → K) (blk : Option (IntegrBlock K))
    (start : String) (ifcos : Bool) : Res (angle_set K × Parms_1D K) :=
  match blk with
  | none => Res.error ("String " ++ start ++ " is not found (in correct place)")
  | some b => ScanIntegrParms PI cos acos b ifcos

/-- The function `ReadAvgParms` of crosssec.c (lines 314-341); `file` is `none` when the
file cannot be opened. -/
def ReadAvgParms (PI : K) (cos acos : K → K) (file : Option (AvgFile K)) :
    Res (AvgParms K) :=
  match file with
  | none => Res.error "Failed to open file"
  | some f =>
    (ReadAvgParms_section PI cos acos f.alpha "alpha:" false).bind fun a =>
    (ReadAvgParms_section PI cos acos f.beta "beta:" true).bind fun b =>
    (ReadAvgParms_section PI cos acos f.gamma "gamma:" false).bind fun g =>
      Res.ok { alpha_int := a.1, parms_alpha := a.2, beta_int := b.1, parms_THETA := b.2,
               gamma_int := g.1, parms_PHI := g.2 }

end ScanIntegrParms

/-! ## param.c: VariablesInterconnect -/

section param
variable {K : Type} [LinearOrderedField K]

/-- A real 3-vector `{x, y, z}` as an array. -/
def vec3 (x y z : K) : Nat → K
  | 0 => x
  | 1 => y
  | _ => z

/-- The global variables that `VariablesInterconnect` reads and writes (vars.c, param.c
lines 57-98, crosssec.c lines 43-47). -/
structure Vars (K : Type) where
  lambda : K
  WaveNum : K
  prop_0 : Nat → K
  incPolX_0 : Nat → K
  incPolY_0 : Nat → K
  prop : Nat → K
  incPolX : Nat → K
  incPolY : Nat → K
  beam_center_0 : Nat → K
  beam_center : Nat → K
  beam_asym : Bool
  alph_deg : K
  bet_deg : K
  gam_deg : K
  orient_avg : Bool
  avg_parms : String
  avg : Option (AvgParms K)
  chp_time : Int
  chp_type : ChpType
  IntRelation : IntRel
  reduced_FFT : Bool
  jagged : Int
  boxX : Int
  boxY : Int
  boxZ : Int
  calc_Csca : Bool
  calc_vec : Bool
  all_dir : Bool
  store_scat_grid : Bool
  phi_integr : Bool
  scat_grid : Bool
  yzplane : Int
  NoSymmetry : Bool
  symmetry_enforced : Bool
  avg_inc_pol : Bool

/-- The local variable `temp` of `VariablesInterconnect` (param.c line 1105), by which the
second branch divides. -/
def VariablesInterconnect_temp (sqrt : K → K) (prop_0 : Nat → K) : K :=
  sqrt (1 - prop_0 2 * prop_0 2)

/-- The two incident polarizations that `VariablesInterconnect` derives from `prop_0`
(param.c lines 1097-1112): the pair `(incPolX_0, incPolY_0)`. -/
def VariablesInterconnect_incPol (sqrt : K → K) (prop_0 : Nat → K) :
    (Nat → K) × (Nat → K) :=
  if |prop_0 2| ≥ 1 then
    (vec3 (prop_0 2) 0 0, vec3 0 1 0)
  else
    let temp := VariablesInterconnect_temp sqrt prop_0
    (vec3 (prop_0 0 * prop_0 2 / temp) (prop_0 1 * prop_0 2 / temp) (-temp),
     vec3 (-prop_0 1 / temp) (prop_0 0 / temp) 0)

/-- Modelled from the spec: what `InitBeam` of GenerateB.c (absent from the sources)
leaves behind: the beam variables that crosssec.c declares as initialized there. -/
structure BeamVars (K : Type) where
  beam_asym : Bool
  beam_center_0 : Nat → K
  beam_center : Nat → K

/-- The scaling of a box size by `jagged` (param.c lines 1086-1088), in `int`. -/
def scaleBox (box jagged : Int) : Int :=
  if box ≠ UNDEF then wrap32 (box * jagged) else box

/-- The parameter interconnections of `VariablesInterconnect` that set flags and box
sizes (param.c lines 1083-1095). -/
def VariablesInterconnect_flags (v1 : Vars K) : Vars K :=
  let v2 := if v1.IntRelation = IntRel.G_SO then { v1 with reduced_FFT := false } else v1
  let v3 :=
    if v2.jagged ≠ (1 : Int) then
      { v2 with boxX := scaleBox v2.boxX v2.jagged
                boxY := scaleBox v2.boxY v2.jagged
                boxZ := scaleBox v2.boxZ v2.jagged }
    else v2
  let v4 := if v3.calc_Csca = true ∨ v3.calc_vec = true then { v3 with all_dir := true } else v3
  if v4.store_scat_grid = true ∨ v4.phi_integr = true then
    { v4 with scat_grid := true, yzplane := if v4.yzplane = UNDEF then 0 else v4.yzplane }
  else if v4.yzplane = UNDEF then { v4 with yzplane := 1 }
  else v4

/-- The state in which `VariablesInterconnect` calls `InitBeam` (param.c lines 1078-1112,
the two error checks apart). -/
def VariablesInterconnect_beforeBeam (PI : K) (sqrt : K → K) (v0 : Vars K) : Vars K :=
  let v1 := { v0 with WaveNum := 2 * PI / v0.lambda }
  let v5 := VariablesInterconnect_flags v1
  let pol := VariablesInterconnect_incPol sqrt v5.prop_0
  { v5 with incPolX_0 := pol.1, incPolY_0 := pol.2 }

/-- The end of `VariablesInterconnect` (param.c lines 1115-1125), after `InitBeam`. -/
def VariablesInterconnect_orient (PI : K) (cos sin acos : K → K)
    (files : String → Option (AvgFile K)) (v7 : Vars K) : Res (Vars K) :=
  if v7.orient_avg = true then
    (ReadAvgParms PI cos acos (files v7.avg_parms)).bind fun a =>
      Res.ok { v7 with avg := some a, NoSymmetry := true, avg_inc_pol := true }
  else
    let r := InitRotation PI cos sin v7.alph_deg v7.bet_deg v7.gam_deg
               v7.prop_0 v7.incPolX_0 v7.incPolY_0 v7.beam_asym v7.beam_center_0 v7.beam_center
    let v8 := { v7 with prop := r.prop, incPolY := r.incPolY, incPolX := r.incPolX,
                        beam_center := r.beam_center }
    if v8.prop 2 ≠ (1 : K) then Res.ok { v8 with NoSymmetry := true } else Res.ok v8

/-- The function `VariablesInterconnect` of param.c (lines 1072-1126).  `InitBeam` of
GenerateB.c (absent from the sources) is an argument: it may stop with an error and
otherwise sets the beam variables.  `files` gives what is found in the file of a given
name, for `ReadAvgParms`. -/
def VariablesInterconnect (PI : K) (sqrt cos sin acos : K → K)
    (InitBeam : Vars K → Res (BeamVars K)) (files : String → Option (AvgFile K))
    (v0 : Vars K) : Res (Vars K) :=
  if v0.prop_0 2 ≠ (1 : K) ∧ v0.orient_avg = true then
    Res.error "-prop and -orient avg can not be used together"
  else if v0.chp_time = UNDEF ∧ v0.chp_type ≠ ChpType.CHP_NONE
      ∧ v0.chp_type ≠ ChpType.CHP_ALWAYS then
    Res.error "You must specify time for this checkpoint type"
  else
  let v6 := VariablesInterconnect_beforeBeam PI sqrt v0
  (InitBeam v6).bind fun bv =>
  VariablesInterconnect_orient PI cos sin acos files
    { v6 with beam_asym := bv.beam_asym, beam_center_0 := bv.beam_center_0,
              beam_center := bv.beam_center }

/-- The function `InitVariables` of param.c (lines 959-1021), for the variables of `Vars`;
those it does not assign keep the zero of a C global. -/
def InitVariables (PI : K) : Vars K :=
  { lambda := 2 * PI
    WaveNum := 0
    prop_0 := vec3 0 0 1
    incPolX_0 := fun _ => 0
    incPolY_0 := fun _ => 0
    prop := fun _ => 0
    incPolX := fun _ => 0
    incPolY := fun _ => 0
    beam_center_0 := fun _ => 0
    beam_center := fun _ => 0
    beam_asym := false
    alph_deg := 0
    bet_deg := 0
    gam_deg := 0
    orient_avg := false
    avg_parms := "avg_params.dat"
    avg := none
    chp_time := UNDEF
    chp_type := ChpType.CHP_NONE
    IntRelation := IntRel.G_POINT_DIP
    reduced_FFT := true
    jagged := 1
    boxX := UNDEF
    boxY := UNDEF
    boxZ := UNDEF
    calc_Csca := false
    calc_vec := false
    all_dir := false
    store_scat_grid := false
    phi_integr := false
    scat_grid := false
    yzplane := UNDEF
    NoSymmetry := false
    symmetry_enforced := false
    avg_inc_pol := false }

/-- The parsing function of `-int` (param.c lines 682-687), on its argument `argv[1]`. -/
def parse_int (arg : String) (v : Vars K) : Res (Vars K) :=
  if arg = "poi" then Res.ok { v with IntRelation := IntRel.G_POINT_DIP }
  else if arg = "so" then Res.ok { v with IntRelation := IntRel.G_SO }
  else Res.error ("Interaction term prescription " ++ arg ++ " is not supported")

/-- The parsing function of `-no_reduced_fft` (param.c lines 725-728). -/
def parse_no_reduced_fft (v : Vars K) : Vars K := { v with reduced_FFT := false }

/-- The parsing function of `-sym` (param.c lines 866-871), on its argument `argv[1]`. -/
def parse_sym (arg : String) (v : Vars K) : Res (Vars K) :=
  if arg = "no" then Res.ok { v with NoSymmetry := true }
  else if arg = "enf" then Res.ok { v with symmetry_enforced := true }
  else Res.error ("Symmetry option " ++ arg ++ " is not supported")

/-- Sum of const.h lines 58-59 (`MAX_DIRNAME + MAX_FNAME_SH`, line 71). -/
def MAX_FNAME : Nat := 300 + 100

/-- The branch `avg` of the parsing function of `-orient` (param.c lines 742-750):
`fname` is the optional second argument, the file of averaging parameters. -/
def parse_orient_avg (fname : Option String) (v : Vars K) : Res (Vars K) :=
  match fname with
  | none => Res.ok { v with orient_avg := true }
  | some f =>
    if f.utf8ByteSize ≥ MAX_FNAME then Res.error "Too long argument to -orient avg option"
    else Res.ok { v with orient_avg := true, avg_parms := f }

end param

/-! ## Reading the results as complex numbers -/

/-- A `doublecomplex` over the reals as a complex number. -/
def doublecomplex.toComplex (z : doublecomplex ℝ) : ℂ := ⟨z.RE, z.IM⟩

/-- The value of `sum` that the cycle of `CalcField` reaches in the Draine formulation,
in closed form: component `i` after `N` dipoles. -/
def CalcField_sumDraine {K : Type} [LinearOrderedField K] (cos sin : K → K) (WaveNum : K)
    (DipoleCoord : Nat → K) (pvec : Nat → doublecomplex K) (n : Nat → K) (N : Nat) :
    Nat → doublecomplex K :=
  fun i =>
    ⟨∑ j in Finset.range N,
        ((pvec (3 * j + i)).RE
            * cos (-(WaveNum * DotProd (fun c => DipoleCoord (3 * j + c)) n))
          - (pvec (3 * j + i)).IM
            * sin (-(WaveNum * DotProd (fun c => DipoleCoord (3 * j + c)) n))),
     ∑ j in Finset.range N,
        ((pvec (3 * j + i)).RE
            * sin (-(WaveNum * DotProd (fun c => DipoleCoord (3 * j + c)) n))
          + (pvec (3 * j + i)).IM
            * cos (-(WaveNum * DotProd (fun c => DipoleCoord (3 * j + c)) n)))⟩

/-! ## param.c: parsing functions of options -/

section parse
variable {K : Type} [LinearOrderedField K]

/-- The function `ScanfError` of param.c (lines 469-474): `found` is what `sscanf` with the
format of the call finds in the argument `str`, `none` when the conversion fails. -/
def ScanfError {α : Type} (found : Option α) (str : String) : Res α :=
  match found with
  | some x => Res.ok x
  | none => Res.error ("Non-numeric argument (" ++ str ++ ") is given to option")

/-- Modelled from the spec: `TestPositive` (its definition is absent from the sources), an
error unless the value is positive (`the width must be positive`). -/
def TestPositive (val : K) (name : String) : Res Unit :=
  if val ≤ 0 then Res.error ("Illegal " ++ name ++ ", must be positive") else Res.ok ()

/-- Modelled from the spec: `TestPositive_i` (its definition is absent from the sources),
`TestPositive` for an `int`. -/
def TestPositive_i (val : Int) (name : String) : Res Unit :=
  if val ≤ 0 then Res.error ("Illegal " ++ name ++ ", must be positive") else Res.ok ()

/-- Modelled from the spec: `TestRange_i` (its definition is absent from the sources), an
error unless the `int` lies in `[min,max]` (`an integer from 1 to 31`). -/
def TestRange_i (val : Int) (name : String) (min max : Int) : Res Unit :=
  if val < min ∨ val > max then
    Res.error ("Illegal " ++ name ++ ", must belong to the interval")
  else Res.ok ()

/-- The cycle of the parsing function of `-m` (param.c lines 715-718), after `i` rounds. -/
def parse_m_cycle (sscanf_lf : String → Option K) (argv : Nat → String)
    (ref_index : Nat → doublecomplex K) : Nat → Res (Nat → doublecomplex K)
  | 0 => Res.ok ref_index
  | i + 1 =>
    (parse_m_cycle sscanf_lf argv ref_index i).bind fun r =>
    (ScanfError (sscanf_lf (argv (2 * i + 1))) (argv (2 * i + 1))).bind fun re =>
    (ScanfError (sscanf_lf (argv (2 * i + 2))) (argv (2 * i + 2))).bind fun im =>
      Res.ok (fun k => if k = i then ⟨re, im⟩ else r k)

/-- The parsing function of `-m` (param.c lines 706-719): `Narg` arguments `argv[1..Narg]`;
the result is `(Nmat, ref_index)`.  `sscanf_lf` is `sscanf` with the format `%lf`. -/
def parse_m (sscanf_lf : String → Option K) (Narg : Nat) (argv : Nat → String)
    (ref_index : Nat → doublecomplex K) : Res (Nat × (Nat → doublecomplex K)) :=
  if Narg % 2 ≠ 0 ∨ Narg = 0 then
    Res.error "Illegal number of arguments to -m option (even expected)"
  else
    let Nmat := Narg / 2
    if Nmat > MAX_NMAT then Res.error "Too many materials"
    else (parse_m_cycle sscanf_lf argv ref_index Nmat).bind fun r => Res.ok (Nmat, r)

/-- The parsing function of `-grid` (param.c lines 625-636).  `sscanf_i` is `sscanf` with
the format `%i`. -/
def parse_grid (sscanf_i : String → Option Int) (Narg : Nat) (argv : Nat → String)
    (v : Vars K) : Res (Vars K) :=
  if Narg ≠ 1 ∧ Narg ≠ 3 then
    Res.error "Illegal number of arguments to -grid option (1 or 3 expected)"
  else
    (ScanfError (sscanf_i (argv 1)) (argv 1)).bind fun nx =>
    let v1 := { v with boxX := nx }
    (TestPositive_i v1.boxX "gridX").bind fun _ =>
    if Narg = 3 then
      (ScanfError (sscanf_i (argv 2)) (argv 2)).bind fun ny =>
      let v2 := { v1 with boxY := ny }
      (TestPositive_i v2.boxY "gridY").bind fun _ =>
      (ScanfError (sscanf_i (argv 3)) (argv 3)).bind fun nz =>
      let v3 := { v2 with boxZ := nz }
      (TestPositive_i v3.boxY "gridY").bind fun _ => Res.ok v3
    else Res.ok v1

/-- const.h line 150. -/
def PHI_UNITY : Nat := 1

/-- const.h line 151. -/
def PHI_COS2 : Nat := 2

/-- const.h line 152. -/
def PHI_SIN2 : Nat := 4

/-- const.h line 153. -/
def PHI_COS4 : Nat := 8

/-- const.h line 154. -/
def PHI_SIN4 : Nat := 16

/-- The parsing function of `-phi_integr` (param.c lines 758-763): the result holds the new
`phi_int_type`.  `sscanf_d` is `sscanf` with the format `%d`. -/
def parse_phi_integr (sscanf_d : String → Option Int) (arg : String) (v : Vars K) :
    Res (Vars K × Int) :=
  let v1 := { v with phi_integr := true }
  (ScanfError (sscanf_d arg) arg).bind fun phi_int_type =>
  (TestRange_i phi_int_type "type of integration over phi" 1 31).bind fun _ =>
    Res.ok (v1, phi_int_type)

/-- An entry of a table of suboptions (param.c lines 106-112), for the beams: name, number
of arguments (`UNDEF` when it is not to be checked) and type. -/
structure subopt_struct where
  name : String
  narg : Int
  type : BeamType

/-- The table `beam_opt` of param.c (lines 124-143), without its terminating entry. -/
def beam_opt : List subopt_struct :=
  [⟨"plane", 0, BeamType.B_PLANE⟩, ⟨"lminus", -1, BeamType.B_LMINUS⟩,
   ⟨"davis3", -1, BeamType.B_DAVIS3⟩, ⟨"barton5", -1, BeamType.B_BARTON5⟩]

/-- The variables that the parsing function of `-beam` writes. -/
structure BeamOpts (K : Type) where
  beamtype : BeamType
  beam_Npars : Int
  beam_pars : Nat → K

/-- The cycle `for (j=0;j<Narg;j++) ScanfError(argv[j+2],"%lf",beam_pars+j)` of the parsing
function of `-beam` (param.c line 566), after `j` rounds. -/
def parse_beam_pars (sscanf_lf : String → Option K) (argv : Nat → String)
    (beam_pars : Nat → K) : Nat → Res (Nat → K)
  | 0 => Res.ok beam_pars
  | j + 1 =>
    (parse_beam_pars sscanf_lf argv beam_pars j).bind fun p =>
    (ScanfError (sscanf_lf (argv (j + 2))) (argv (j + 2))).bind fun x =>
      Res.ok (fun k => if k = j then x else p k)

/-- The body of the search cycle of the parsing function of `-beam` for the entry `o` that
matches `argv[1]` (param.c lines 556-567); `Narg` is already decremented. -/
def parse_beam_found (sscanf_lf : String → Option K) (Narg : Int) (argv : Nat → String)
    (b : BeamOpts K) (o : subopt_struct) : Res (BeamOpts K) :=
  let b1 := { b with beamtype := o.type, beam_Npars := Narg }
  if o.narg ≠ UNDEF ∧ Narg ≠ o.narg then
    Res.error "Illegal number of arguments to -beam option"
  else if b1.beamtype ≠ BeamType.B_PLANE ∧ Narg ≠ 1 ∧ Narg ≠ 4 then
    Res.error "Illegal number of arguments to -beam option (1 or 4 expected)"
  else
    (parse_beam_pars sscanf_lf argv b1.beam_pars Narg.toNat).bind fun p =>
    let b2 := { b1 with beam_pars := p }
    if Narg > 0 then (TestPositive (b2.beam_pars 0) "beam width").bind fun _ => Res.ok b2
    else Res.ok b2

/-- The search cycle of the parsing function of `-beam` over the table (param.c lines
555-572). -/
def parse_beam_search (sscanf_lf : String → Option K) (Narg : Int) (argv : Nat → String)
    (b : BeamOpts K) : List subopt_struct → Res (BeamOpts K)
  | [] => Res.error ("Beam type " ++ argv 1 ++ " is not supported")
  | o :: rest =>
    if argv 1 = o.name then parse_beam_found sscanf_lf Narg argv b o
    else parse_beam_search sscanf_lf Narg argv b rest

/-- The parsing function of `-beam` (param.c lines 548-573): `Narg` counts `argv[1]`, the
type, and the arguments after it. -/
def parse_beam (sscanf_lf : String → Option K) (Narg : Int) (argv : Nat → String)
    (b : BeamOpts K) : Res (BeamOpts K) :=
  parse_beam_search sscanf_lf (Narg - 1) argv b beam_opt

/-- The parsing function of `-chp_type` (param.c lines 583-589), on `argv[1]`. -/
def parse_chp_type (arg : String) (v : Vars K) : Res (Vars K) :=
  if arg = "normal" then Res.ok { v with chp_type := ChpType.CHP_NORMAL }
  else if arg = "regular" then Res.ok { v with chp_type := ChpType.CHP_REGULAR }
  else if arg = "always" then Res.ok { v with chp_type := ChpType.CHP_ALWAYS }
  else Res.error ("Checkpoint type " ++ arg ++ " is not supported")

end parse

/-! ## param.c: ScanTime -/

/-- The terminating character of a C string. -/
def NUL : Char := Char.ofNat 0

/-- The function `isspace` of ctype.h in the C locale. -/
def isspace (c : Char) : Bool :=
  c = ' ' || c = '\t' || c = '\n' || c = Char.ofNat 11 || c = Char.ofNat 12 || c = '\r'

/-- The decimal digits that `sscanf` reads for `%d`, accumulated on `acc`, and the rest of
the input. -/
def scan_digits : List Char → Nat → Nat × List Char
  | [], acc => (acc, [])
  | c :: r, acc =>
    if c.isDigit then scan_digits r (10 * acc + (c.toNat - 48)) else (acc, c :: r)

/-- Lower bound of `long` (limits.h), 64 bits. -/
def LONG_MIN : Int := -9223372036854775808

/-- Upper bound of `long` (limits.h), 64 bits. -/
def LONG_MAX : Int := 9223372036854775807

/-- The value that the conversion `%d` stores in an `int` for the decimal number `v` of the
input, as glibc computes it: `strtol` gives `v` saturated at the bounds of `long`, and this
number is converted to `int`. -/
def scan_store (v : Int) : Int :=
  wrap32 (if v > LONG_MAX then LONG_MAX else if v < LONG_MIN then LONG_MIN else v)

/-- The conversion `%d` of `sscanf`: white space is skipped, then an optional sign and at
least one decimal digit are read; the value is stored in an `int`.  The result is the
stored value and the rest of the input, `none` when the conversion fails. -/
def scan_d (s : List Char) : Option (Int × List Char) :=
  let s1 := s.dropWhile isspace
  let neg : Bool := s1.head? = some '-'
  let s2 := if s1.head? = some '-' ∨ s1.head? = some '+' then s1.tail else s1
  match s2 with
  | [] => none
  | c :: _ =>
    if c.isDigit then
      some (scan_store
              (if neg then -((scan_digits s2 0).1 : Int) else ((scan_digits s2 0).1 : Int)),
            (scan_digits s2 0).2)
    else none

/-- The conversions `%d%c` of `sscanf`, repeated at most `k` times: the integers read, each
with the character read after it (`none` when the input ends after the integer). -/
def sscanf_dc : Nat → List Char → List (Int × Option Char)
  | 0, _ => []
  | k + 1, s =>
    match scan_d s with
    | none => []
    | some (t, []) => [(t, none)]
    | some (t, ch :: r) => (t, some ch) :: sscanf_dc k r

/-- The number of items `sscanf` has assigned. -/
def sscanf_count : List (Int × Option Char) → Int
  | [] => 0
  | (_, none) :: r => 1 + sscanf_count r
  | (_, some _) :: r => 2 + sscanf_count r

/-- The function `TimeField` of param.c (lines 486-496). -/
def TimeField (c : Char) : Res Int :=
  if c = 'd' ∨ c = 'D' then Res.ok 86400
  else if c = 'h' ∨ c = 'H' then Res.ok 3600
  else if c = 'm' ∨ c = 'M' then Res.ok 60
  else if c = 's' ∨ c = 'S' ∨ c = NUL then Res.ok 1
  else Res.error "Illegal time format specifier"

/-- The cycle `while (n>0)` of `ScanTime` (param.c lines 512-516) in `int` arithmetic; the
first argument bounds the number of rounds. -/
def ScanTime_cycle (t : Nat → Int) (c : Nat → Char) : Nat → Int → Nat → Int → Res Int
  | 0, n, _, tim => if n > 0 then Res.undef else Res.ok tim
  | f + 1, n, i, tim =>
    if n > 0 then
      (TimeField (c i)).bind fun m =>
        ScanTime_cycle t c f (n - 2) (i + 1) (wrap32 (tim + wrap32 (t i * m)))
    else Res.ok tim

/-- The function `ScanTime` of param.c (lines 500-519): `n`, `t` and `c` are what
`sscanf(str,"%d%c%d%c%d%c%d%c",...)` returns and assigns; the characters `c` start as 0. -/
def ScanTime (str : String) : Res Int :=
  let items := sscanf_dc 4 str.data
  let n := sscanf_count items
  let t : Nat → Int := fun i => (items.getD i (0, none)).1
  let c : Nat → Char := fun i => ((items.getD i (0, none)).2).getD NUL
  if n < 1 then Res.error ("Wrong time format " ++ str)
  else ScanTime_cycle t c 4 n 0 0

/-- The parsing function of `-chpoint` (param.c lines 590-598), on `argv[1]`. -/
def parse_chpoint {K : Type} (arg : String) (v : Vars K) : Res (Vars K) :=
  (ScanTime arg).bind fun tim =>
  let v1 := { v with chp_time := tim }
  if v1.chp_time ≤ 0 then
    let v2 := { v1 with chp_time := UNDEF }
    if v2.chp_type = ChpType.CHP_NONE then Res.ok { v2 with chp_type := ChpType.CHP_ALWAYS }
    else Res.ok v2
  else if v1.chp_type = ChpType.CHP_NONE then Res.ok { v1 with chp_type := ChpType.CHP_NORMAL }
  else Res.ok v1

/-! ## param.c: ParseParameters -/

/-- The function `IsOption` of param.c (lines 478-483); a character past the end of the
string is the terminating 0, and `isalpha` is that of the C locale. -/
def IsOption (str : String) : Bool :=
  str.data.getD 0 NUL = '-' && (str.data.getD 1 NUL).isAlpha

/-- The cycle `while ((i+(++Narg))<argc && !IsOption(argv[i+Narg]));` of `ParseParameters`
(param.c line 1045) followed by `Narg--`, entered with the given `Narg`; the first argument
bounds the number of rounds (`none` when it does not suffice). -/
def ParseParameters_Narg (argc : Nat) (argv : Nat → String) (i : Nat) : Nat → Nat → Option Nat
  | 0, _ => none
  | f + 1, Narg =>
    if i + (Narg + 1) < argc ∧ IsOption (argv (i + (Narg + 1))) = false then
      ParseParameters_Narg argc argv i f (Narg + 1)
    else some (Narg + 1 - 1)

/-- The cycle `for (i=1;i<argc;i++)` of `ParseParameters` (param.c lines 1042-1067) from
the index `i` on.  `handle s i Narg` stands for lines 1048-1065: the search of `argv[i]`
among the options, the test of `Narg`, the parsing function and the test for a duplicate,
on the state `s`.  The first argument bounds the number of rounds. -/
def ParseParameters_cycle {σ : Type} (handle : σ → Nat → Nat → Res σ) (argc : Nat)
    (argv : Nat → String) : Nat → Nat → σ → Res σ
  | 0, i, s => if i < argc then Res.undef else Res.ok s
  | f + 1, i, s =>
    if i < argc then
      match ParseParameters_Narg argc argv i argc 0 with
      | none => Res.undef
      | some Narg =>
        (handle s i Narg).bind fun s1 =>
          ParseParameters_cycle handle argc argv f (i + Narg + 1) s1
    else Res.ok s

/-- The function `ParseParameters` of param.c (lines 1025-1068). -/
def ParseParameters {σ : Type} (handle : σ → Nat → Nat → Res σ) (argc : Nat)
    (argv : Nat → String) (s : σ) : Res σ :=
  if argc > 1 ∧ IsOption (argv 1) = false then
    Res.error ("Illegal format of first argument " ++ argv 1)
  else ParseParameters_cycle handle argc argv argc 1 s

/-- A handler that only records the index of each option and the number of arguments
attributed to it. -/
def recordOption (s : List (Nat × Nat)) (i Narg : Nat) : Res (List (Nat × Nat)) :=
  Res.ok (s ++ [(i, Narg)])

/-- The calls `handle s i Narg` for the records `(i, Narg)` of a list, in order, each on
the state that the call before left; an error stops the run. -/
def handleAll {σ : Type} (handle : σ → Nat → Nat → Res σ) : List (Nat × Nat) → σ → Res σ
  | [], s => Res.ok s
  | e :: r, s => (handle s e.1 e.2).bind fun s1 => handleAll handle r s1

/-! ## param.c: CreateLockFile -/

/-- param.c line 36. -/
def LOCK_WAIT : Nat := 1

/-- param.c line 37. -/
def MAX_LOCK_WAIT_CYCLES : Nat := 60

/-- What a call of `CreateLockFile` did: its result, the number of calls of
`sleep(LOCK_WAIT)` and the number of attempts to create the file. -/
structure LockRun where
  result : Res Unit
  sleeps : Nat
  opens : Nat
  deriving Repr, DecidableEq

/-- The first cycle of `CreateLockFile` (param.c lines 911-916), entered with the counter
`i`: `open_fails k` tells whether the attempt number `k` (from 0) to create the file
exclusively fails.  The first argument bounds the number of rounds. -/
def CreateLockFile_open (open_fails : Nat → Bool) : Nat → Nat → Nat → LockRun
  | 0, _, sleeps => ⟨Res.undef, sleeps, 0⟩
  | f + 1, i, sleeps =>
    if open_fails i then
      if i = MAX_LOCK_WAIT_CYCLES then
        ⟨Res.error "Lock file permanently exists", sleeps + 1, i + 1⟩
      else CreateLockFile_open open_fails f (i + 1) (sleeps + 1)
    else ⟨Res.ok (), sleeps, i + 1⟩

/-- The second cycle of `CreateLockFile` (param.c lines 923-929): `fcntl_fails k` is `none`
when the call number `k` obtains the lock, `some true` when it is interrupted (`EINTR`) and
`some false` when it fails otherwise. -/
def CreateLockFile_fcntl (fcntl_fails : Nat → Option Bool) : Nat → Nat → Nat → Res Unit × Nat
  | 0, _, sleeps => (Res.undef, sleeps)
  | f + 1, i, sleeps =>
    match fcntl_fails i with
    | none => (Res.ok (), sleeps)
    | some false => (Res.error "Obtaining file lock failed", sleeps)
    | some true =>
      if i = MAX_LOCK_WAIT_CYCLES then (Res.error "Lock file permanently exists", sleeps + 1)
      else CreateLockFile_fcntl fcntl_fails f (i + 1) (sleeps + 1)

/-- The function `CreateLockFile` of param.c (lines 891-936) with `POSIX` defined;
without `USE_LOCK` it returns at once. -/
def CreateLockFile (USE_LOCK : Bool) (open_fails : Nat → Bool)
    (fcntl_fails : Nat → Option Bool) : LockRun :=
  if USE_LOCK then
    let r1 := CreateLockFile_open open_fails (MAX_LOCK_WAIT_CYCLES + 1) 0 0
    match r1.result with
    | Res.ok _ =>
      let r2 := CreateLockFile_fcntl fcntl_fails (MAX_LOCK_WAIT_CYCLES + 1) 0 r1.sleeps
      ⟨r2.1, r2.2, r1.opens⟩
    | _ => r1
  else ⟨Res.ok (), 0, 0⟩

/-! ## crosssec.c: reading the scattering grid -/

section ScatGrid
variable {K : Type} [LinearOrderedField K]

end ScatGrid

/-! ## crosssec.c: integrands -/

section Integrands
variable {K : Type} [LinearOrderedField K]

/-- The function `AlldirIndex` of crosssec.c (lines 53-57): the `int` arguments are
converted to `size_t` for the arithmetic with `phi_int.N`, and the result to `int`. -/
def AlldirIndex (phi_int_N : Nat) (theta phi : Int) : Int :=
  wrap32 (((to_size_t theta * phi_int_N + to_size_t phi) % 2 ^ 64 : Nat) : Int)

/-- The element `a.val[i]` of an angle set for an `int` index. -/
def angle_val (a : angle_set K) (i : Int) : Res K :=
  if i < 0 then Res.undef else a.val i.toNat

/-- The function `CscaIntegrand` of crosssec.c (lines 711-717): the value written to
`res[0]`. -/
def CscaIntegrand (phi_int : angle_set K) (E2_alldir : Int → K) (theta phi : Int) : K :=
  E2_alldir (AlldirIndex phi_int.N theta phi)

/-- The function `gIntegrand` of crosssec.c (lines 740-753): the three values written to
`res`. -/
def gIntegrand (PI : K) (cos sin : K → K) (theta_int phi_int : angle_set K)
    (E2_alldir : Int → K) (theta phi : Int) : Res (Nat → K) :=
  (angle_val theta_int theta).bind fun tv =>
  (angle_val phi_int phi).bind fun pv =>
    let th := Deg2Rad PI tv
    let ph := Deg2Rad PI pv
    let E_square := E2_alldir (AlldirIndex phi_int.N theta phi)
    Res.ok (vec3 (E_square * sin th * cos ph) (E_square * sin th * sin ph)
      (E_square * cos th))

/-- The function `gxIntegrand` of crosssec.c (lines 775-782): the value written to
`res[0]`. -/
def gxIntegrand (PI : K) (cos sin : K → K) (theta_int phi_int : angle_set K)
    (E2_alldir : Int → K) (theta phi : Int) : Res K :=
  (angle_val theta_int theta).bind fun tv =>
  (angle_val phi_int phi).bind fun pv =>
    Res.ok (E2_alldir (AlldirIndex phi_int.N theta phi) * sin (Deg2Rad PI tv)
      * cos (Deg2Rad PI pv))

/-- The function `gyIntegrand` of crosssec.c (lines 803-810): the value written to
`res[0]`. -/
def gyIntegrand (PI : K) (sin : K → K) (theta_int phi_int : angle_set K)
    (E2_alldir : Int → K) (theta phi : Int) : Res K :=
  (angle_val theta_int theta).bind fun tv =>
  (angle_val phi_int phi).bind fun pv =>
    Res.ok (E2_alldir (AlldirIndex phi_int.N theta phi) * sin (Deg2Rad PI tv)
      * sin (Deg2Rad PI pv))

/-- The function `gzIntegrand` of crosssec.c (lines 831-837): the value written to
`res[0]`. -/
def gzIntegrand (PI : K) (cos : K → K) (theta_int phi_int : angle_set K)
    (E2_alldir : Int → K) (theta phi : Int) : Res K :=
  (angle_val theta_int theta).bind fun tv =>
    Res.ok (E2_alldir (AlldirIndex phi_int.N theta phi) * cos (Deg2Rad PI tv))

end Integrands

/-! ## The time format of the specification

The definitions of this section follow the words of the specification of `ScanTime`
(`a string made of up to four fields <integer><specifier>`), to be compared with the
function translated from the source. -/

/-- A field of a time string in the words of the specification: an integer, written with an
optional minus sign and decimal digits, and the specifier after it (`none` when it is
missing). -/
structure TimeItem where
  neg : Bool
  digits : List Char
  spec : Option Char
  deriving Repr, DecidableEq

/-- The number that a string of decimal digits denotes. -/
def spec_decimal (ds : List Char) : Nat := ds.foldl (fun a d => 10 * a + (d.toNat - 48)) 0

/-- The integer of a field. -/
def spec_integer (x : TimeItem) : Int :=
  if x.neg then -(spec_decimal x.digits : Int) else (spec_decimal x.digits : Int)

/-- The multiplier of a specifier in the words of the specification: `mult(d)=86400`,
`mult(h)=3600`, `mult(m)=60`, `mult(s)=1`, in any case, a missing specifier counted as
seconds; `none` for any other character. -/
def spec_mult : Option Char → Option Int
  | none => some 1
  | some c =>
    if c = 'd' ∨ c = 'D' then some 86400
    else if c = 'h' ∨ c = 'H' then some 3600
    else if c = 'm' ∨ c = 'M' then some 60
    else if c = 's' ∨ c = 'S' then some 1
    else none

/-- The string that a list of fields denotes. -/
def spec_timeString : List TimeItem → List Char
  | [] => []
  | x :: r => (if x.neg then ['-'] else []) ++ x.digits ++ x.spec.toList ++ spec_timeString r

/-- The sum of `integer_i * mult(specifier_i)` over the fields. -/
def spec_timeSum : List TimeItem → Int
  | [] => 0
  | x :: r => spec_integer x * (spec_mult x.spec).getD 0 + spec_timeSum r

/-- A field is well formed: at least one digit, only decimal digits, and a specifier (if
any) that is neither a digit nor the terminating character. -/
def spec_item_ok (x : TimeItem) : Bool :=
  !x.digits.isEmpty && x.digits.all Char.isDigit
    && (match x.spec with
        | none => true
        | some c => !c.isDigit && c != NUL)

/-- A list of fields is well formed: every field is, and only the last one may miss its
specifier. -/
def spec_fields_ok : List TimeItem → Bool
  | [] => true
  | x :: r => spec_item_ok x && (r.isEmpty || x.spec.isSome) && spec_fields_ok r

/-- Nothing overflows `int` while the fields are added to `tim` from left to right: each
integer, each product and each partial sum lies within `[INT_MIN, INT_MAX]`. -/
def spec_noOverflow : List TimeItem → Int → Bool
  | [], _ => true
  | x :: r, tim =>
    decide (INT_MIN ≤ spec_integer x ∧ spec_integer x ≤ INT_MAX)
      && decide (INT_MIN ≤ spec_integer x * (spec_mult x.spec).getD 0
          ∧ spec_integer x * (spec_mult x.spec).getD 0 ≤ INT_MAX)
      && decide (INT_MIN ≤ tim + spec_integer x * (spec_mult x.spec).getD 0
          ∧ tim + spec_integer x * (spec_mult x.spec).getD 0 ≤ INT_MAX)
      && spec_noOverflow r (tim + spec_integer x * (spec_mult x.spec).getD 0)

/-! ## crosssec.c: Frp_mat -/

section Frp_mat
variable {K : Type} [LinearOrderedField K]

/-- Modelled from the spec: `cMult` of cmplx.h (absent from the sources), the product of two
complex numbers, stored in the third argument. -/
def cMult (a b : doublecomplex K) : doublecomplex K :=
  ⟨a.RE * b.RE - a.IM * b.IM, a.IM * b.RE + a.RE * b.IM⟩

/-- Modelled from the spec: `cAdd` of cmplx.h (absent from the sources), the sum of two
complex numbers, stored in the third argument. -/
def cAdd (a b : doublecomplex K) : doublecomplex K := ⟨a.RE + b.RE, a.IM + b.IM⟩

/-- Modelled from the spec: `CheckOverflow` (its definition is absent from the sources), an
error when the `size_t` number does not fit `int` (`check if it can work at all`). -/
def CheckOverflow (val : Nat) (name : String) : Res Unit :=
  if (val : Int) > INT_MAX then Res.error ("Integer overflow in " ++ name) else Res.ok ()

/-- The assignment `local_d0=boxX*boxY*local_z0` of `Frp_mat` (crosssec.c line 892): the
number of cells of the grid in the layers below those of this process, as a `size_t`. -/
def Frp_mat_local_d0 (boxX boxY local_z0 : Nat) : Nat := (boxX * boxY * local_z0) % 2 ^ 64

/-- The cycle `for (i=0;i<ringid;i++) local_nvoid_d0+=nvoid_array[i]` of `Frp_mat`
(crosssec.c lines 921-922), after `i` rounds; `nvoid_array[i]` is `local_nvoid_Ndip` of the
process `i`. -/
def Frp_mat_local_nvoid_d0 (nvoid_array : Nat → Nat) : Nat → Nat
  | 0 => 0
  | i + 1 => (Frp_mat_local_nvoid_d0 nvoid_array i + nvoid_array i) % 2 ^ 64

/-- The value of `int jjj = 3*j` of `Frp_mat` (crosssec.c line 940) for the `size_t`
number `j`. -/
def Frp_mat_jjj (j : Nat) : Int := wrap32 (((3 * j) % 2 ^ 64 : Nat) : Int)

/-- The index `jjj-3*local_d0+comp` of `Frp_mat` (crosssec.c lines 1004-1014), computed in
`size_t`. -/
def Frp_mat_index (local_d0 : Nat) (jjj : Int) (comp : Nat) : Nat :=
  ((to_size_t jjj + (2 ^ 64 - (3 * local_d0) % 2 ^ 64)) % 2 ^ 64 + comp) % 2 ^ 64

/-- The index `jjj+comp` of `Frp_mat` (crosssec.c lines 950, 968), computed in `size_t`. -/
def Frp_mat_at (jjj : Int) (comp : Nat) : Nat := (to_size_t jjj + comp) % 2 ^ 64

/-- The cycle over `comp` of the first cycle of `Frp_mat` (crosssec.c lines 898-906):
`dummy` after `comp` rounds. -/
def Frp_mat_dummy (pvec Einc : Nat → doublecomplex K) (j : Nat) : Nat → doublecomplex K
  | 0 => ⟨0, 0⟩
  | comp + 1 =>
    let index := 3 * j + comp
    let E_inc : doublecomplex K := ⟨(Einc index).RE, -(Einc index).IM⟩
    cAdd (Frp_mat_dummy pvec Einc j comp) (cMult (pvec index) E_inc)

/-- The first cycle of `Frp_mat` (crosssec.c lines 897-909), after `j` rounds, on the
pair `(Finc, Finc_tot[2])`. -/
def Frp_mat_inc (WaveNum : K) (pvec Einc : Nat → doublecomplex K) :
    Nat → (Nat → K) × K → (Nat → K) × K
  | 0, s => s
  | j + 1, s =>
    let s1 := Frp_mat_inc WaveNum pvec Einc j s
    let Finc : Nat → K :=
      fun k => if k = 3 * j + 2 then WaveNum * (Frp_mat_dummy pvec Einc j 3).IM / 2 else s1.1 k
    (Finc, s1.2 + Finc (3 * j + 2))

/-- The squared distance `r2` of two dipoles in `Frp_mat` (crosssec.c lines 944-953). -/
def Frp_mat_r2 (rdipT : Nat → K) (jjj : Int) (lll : Nat) : K :=
  0 + (rdipT (Frp_mat_at jjj 0) - rdipT ((lll + 0) % 2 ^ 64))
        * (rdipT (Frp_mat_at jjj 0) - rdipT ((lll + 0) % 2 ^ 64))
    + (rdipT (Frp_mat_at jjj 1) - rdipT ((lll + 1) % 2 ^ 64))
        * (rdipT (Frp_mat_at jjj 1) - rdipT ((lll + 1) % 2 ^ 64))
    + (rdipT (Frp_mat_at jjj 2) - rdipT ((lll + 2) % 2 ^ 64))
        * (rdipT (Frp_mat_at jjj 2) - rdipT ((lll + 2) % 2 ^ 64))

/-- The body of the cycle over `l` of `Frp_mat` for one pair of dipoles (crosssec.c lines
943-1004): the number `(c1[comp][RE] + c2[comp][RE])/2` that is added to
`Fsca[jjj-3*local_d0+comp]`. -/
def Frp_mat_pair (sqrt cos sin : K → K) (WaveNum : K) (rdipT : Nat → K)
    (pT : Nat → doublecomplex K) (jjj : Int) (lll : Nat) (comp : Nat) : K :=
  let r2 := Frp_mat_r2 rdipT jjj lll
  let r := sqrt r2
  let n : Nat → doublecomplex K :=
    fun c => ⟨(rdipT (Frp_mat_at jjj c) - rdipT ((lll + c) % 2 ^ 64)) / r, 0⟩
  let a : doublecomplex K := ⟨cos (WaveNum * r), sin (WaveNum * r)⟩
  let ab1 := cMultSelf ⟨3 / (r2 * r2) - WaveNum * WaveNum / r2, -3 * WaveNum / (r * r2)⟩ a
  let ab2 := cMultSelf ⟨-WaveNum * WaveNum / r2, WaveNum * WaveNum * WaveNum / r⟩ a
  let x_cg : Nat → doublecomplex K :=
    fun c => ⟨(pT (Frp_mat_at jjj c)).RE, -(pT (Frp_mat_at jjj c)).IM⟩
  let pl : Nat → doublecomplex K := fun c => pT ((lll + c) % 2 ^ 64)
  let Pn_j := cAdd (cAdd (cAdd ⟨0, 0⟩ (cMult (x_cg 0) (n 0))) (cMult (x_cg 1) (n 1)))
    (cMult (x_cg 2) (n 2))
  let Pn_l := cAdd (cAdd (cAdd ⟨0, 0⟩ (cMult (n 0) (pl 0))) (cMult (n 1) (pl 1)))
    (cMult (n 2) (pl 2))
  let inp := cAdd (cAdd (cAdd ⟨0, 0⟩ (cMult (x_cg 0) (pl 0))) (cMult (x_cg 1) (pl 1)))
    (cMult (x_cg 2) (pl 2))
  let t := cMult (n comp) (cMult Pn_j Pn_l)
  let c1 := cAdd (cAdd (cAdd ⟨t.RE * -5, t.IM * -5⟩ (cMult inp (n comp)))
    (cMult Pn_j (pl comp))) (cMult (x_cg comp) Pn_l)
  let c2 := cAdd ⟨t.RE * -1, t.IM * -1⟩ (cMult inp (n comp))
  ((cMultSelf c1 ab1).RE + (cMultSelf c2 ab2).RE) / 2

/-- The cycle over `l` of `Frp_mat` (crosssec.c lines 942-1006) for the dipole `j`, after
`l` rounds, on the array `Fsca`. -/
def Frp_mat_lcycle (sqrt cos sin : K → K) (WaveNum : K) (rdipT : Nat → K)
    (pT : Nat → doublecomplex K) (local_d0 j : Nat) : Nat → (Nat → K) → (Nat → K)
  | 0, Fsca => Fsca
  | l + 1, Fsca =>
    let F := Frp_mat_lcycle sqrt cos sin WaveNum rdipT pT local_d0 j l Fsca
    let jjj := Frp_mat_jjj j
    let lll := (3 * l) % 2 ^ 64
    if j ≠ l then
      let F0 : Nat → K := fun k =>
        if k = Frp_mat_index local_d0 jjj 0 then
          F k + Frp_mat_pair sqrt cos sin WaveNum rdipT pT jjj lll 0
        else F k
      let F1 : Nat → K := fun k =>
        if k = Frp_mat_index local_d0 jjj 1 then
          F0 k + Frp_mat_pair sqrt cos sin WaveNum rdipT pT jjj lll 1
        else F0 k
      fun k =>
        if k = Frp_mat_index local_d0 jjj 2 then
          F1 k + Frp_mat_pair sqrt cos sin WaveNum rdipT pT jjj lll 2
        else F1 k
    else F

/-- The arrays and totals that the second cycle of `Frp_mat` writes. -/
structure FrpState (K : Type) where
  Fsca : Nat → K
  Frp : Nat → K
  Fsca_tot : Nat → K
  Frp_tot : Nat → K

/-- One round of the concluding cycle of `Frp_mat` (crosssec.c lines 1009-1015) for the
index `idx = jjj-3*local_d0+comp`. -/
def Frp_mat_conclude (Finc : Nat → K) (idx comp : Nat) (s : FrpState K) : FrpState K :=
  let Fsca_tot : Nat → K := fun c => if c = comp then s.Fsca_tot c + s.Fsca idx else s.Fsca_tot c
  let Frp : Nat → K := fun k => if k = idx then Finc idx + s.Fsca idx else s.Frp k
  let Frp_tot : Nat → K := fun c => if c = comp then s.Frp_tot c + Frp idx else s.Frp_tot c
  { Fsca := s.Fsca, Frp := Frp, Fsca_tot := Fsca_tot, Frp_tot := Frp_tot }

/-- The second cycle of `Frp_mat` (crosssec.c lines 939-1016) over the dipoles
`j = local_nvoid_d0 + m` of this process, after `m` rounds. -/
def Frp_mat_jcycle (sqrt cos sin : K → K) (WaveNum : K) (rdipT : Nat → K)
    (pT : Nat → doublecomplex K) (local_d0 local_nvoid_d0 nvoid_Ndip : Nat) (Finc : Nat → K) :
    Nat → FrpState K → FrpState K
  | 0, s => s
  | m + 1, s =>
    let s1 := Frp_mat_jcycle sqrt cos sin WaveNum rdipT pT local_d0 local_nvoid_d0 nvoid_Ndip
      Finc m s
    let j := local_nvoid_d0 + m
    let jjj := Frp_mat_jjj j
    let s2 : FrpState K :=
      { s1 with Fsca := Frp_mat_lcycle sqrt cos sin WaveNum rdipT pT local_d0 j nvoid_Ndip
                  s1.Fsca }
    Frp_mat_conclude Finc (Frp_mat_index local_d0 jjj 2) 2
      (Frp_mat_conclude Finc (Frp_mat_index local_d0 jjj 1) 1
        (Frp_mat_conclude Finc (Frp_mat_index local_d0 jjj 0) 0 s2))

/-- The arrays and totals that `Frp_mat` leaves. -/
structure FrpOut (K : Type) where
  Fsca_tot : Nat → K
  Fsca : Nat → K
  Finc_tot : Nat → K
  Finc : Nat → K
  Frp_tot : Nat → K
  Frp : Nat → K

/-- The function `Frp_mat` of crosssec.c (lines 859-1026) on one process, up to the final
calls of `MyInnerProduct`, which on a single process leave the totals as they are.
`local_d0` and `local_nvoid_d0` are the values of lines 892 and 921-922
(`Frp_mat_local_d0`, `Frp_mat_local_nvoid_d0`).  `rdipT` and `pT` are the arrays after
`AllGather` (comm.c is absent from the sources): the coordinates and the dipole moments of
the dipoles of all processes; `materialT` is gathered too but never read.  `Fsca`, `Finc`
and `Frp` are the arrays of the caller on entry.  The allocations of lines 918-928 ask for
at most `16*INT_MAX` bytes after `CheckOverflow` and succeed in the idealised memory. -/
def Frp_mat (sqrt cos sin : K → K) (WaveNum : K)
    (local_d0 local_nvoid_d0 local_nvoid_Ndip nvoid_Ndip : Nat)
    (pvec Einc : Nat → doublecomplex K) (rdipT : Nat → K) (pT : Nat → doublecomplex K)
    (Fsca Finc Frp : Nat → K) : Res (FrpOut K) :=
  (CheckOverflow ((3 * nvoid_Ndip) % 2 ^ 64) "Frp_mat()").bind fun _ =>
    let inc := Frp_mat_inc WaveNum pvec Einc local_nvoid_Ndip (Finc, 0)
    let s := Frp_mat_jcycle sqrt cos sin WaveNum rdipT pT local_d0 local_nvoid_d0 nvoid_Ndip
      inc.1 local_nvoid_Ndip ⟨Fsca, Frp, fun _ => 0, fun _ => 0⟩
    Res.ok { Fsca_tot := s.Fsca_tot, Fsca := s.Fsca,
             Finc_tot := fun c => if c = 2 then inc.2 else 0,
             Finc := inc.1, Frp_tot := s.Frp_tot, Frp := s.Frp }

end Frp_mat

/-! ## The pair term of the radiation force in complex notation -/

/-- Spec side: the square of the distance of the dipoles `j` and `l`, whose coordinates are
the entries `3j .. 3j+2` and `3l .. 3l+2` of `D`. -/
def spec_dist2 {K : Type} [Field K] (D : Nat → K) (j l : Nat) : K :=
  (D (3 * j + 0) - D (3 * l + 0)) ^ 2 + (D (3 * j + 1) - D (3 * l + 1)) ^ 2
    + (D (3 * j + 2) - D (3 * l + 2)) ^ 2

/-- Spec side: the pair term of the scattering force in complex notation, before the real
part is taken and halved.  With `k` the wave number, `r` the distance of the two dipoles,
`n` the unit vector from the dipole `l` to the dipole `j`, `e = exp(i k r)`, `pjc` the
complex conjugate of the dipole moment of `j` and `pl` the dipole moment of `l`, the
component `c` is

`e * [ (3/r^4 - k^2/r^2 - 3ik/r^3) * ((pjc.pl) n_c + (pjc.n) pl_c + pjc_c (n.pl)
        - 5 n_c (pjc.n)(n.pl)) + (-k^2/r^2 + i k^3/r) * ((pjc.pl) n_c - n_c (pjc.n)(n.pl)) ]`;

`i` is the imaginary unit of the field `C`. -/
def spec_FscaPair {C : Type} [Field C] (i e k r : C) (n pjc pl : Nat → C) (c : Nat) : C :=
  let pn := pjc 0 * n 0 + pjc 1 * n 1 + pjc 2 * n 2
  let np := n 0 * pl 0 + n 1 * pl 1 + n 2 * pl 2
  let pp := pjc 0 * pl 0 + pjc 1 * pl 1 + pjc 2 * pl 2
  e * ((3 / r ^ 4 - k ^ 2 / r ^ 2 - 3 * i * k / r ^ 3)
        * (pp * n c + pn * pl c + pjc c * np - 5 * n c * (pn * np))
      + (-(k ^ 2) / r ^ 2 + i * k ^ 3 / r) * (pp * n c - n c * (pn * np)))

/-! ## crosssec.c: CalcAlldir -/

section CalcAlldir
variable {K : Type} [LinearOrderedField K]

/-- Modelled from the spec: `LinComb` of cmplx.h (absent from the sources), the linear
combination `c1*a + c2*b` of two real 3-vectors, as the comments of `CalcAlldir` say
(`incPolper = sin(phi)*incPolX - cos(phi)*incPolY`). -/
def LinComb (a b : Nat → K) (c1 c2 : K) : Nat → K := fun i => c1 * a i + c2 * b i

/-- The body of the inner cycle of `CalcAlldir` up to the two dot products (crosssec.c
lines 605-624), for the angles `thv = theta_int.val[i]` and `phv = phi_int.val[j]` in
degrees: the two complex numbers stored in `E2_alldir`, first the one along `incPolper`. -/
def CalcAlldir_direction (PI : K) (cos sin : K → K) (ScatRelation : ScatRel)
    (anisotropy : Bool) (WaveNum kd : K) (Nmat : Nat) (ref_index : Nat → doublecomplex K)
    (local_nvoid_Ndip : Nat) (DipoleCoord : Nat → K) (material : Nat → Nat)
    (pvec : Nat → doublecomplex K) (prop incPolX incPolY : Nat → K) (thv phv : K) :
    Res (doublecomplex K × doublecomplex K) :=
  let th := Deg2Rad PI thv
  let cthet := cos th
  let sthet := sin th
  let ph := Deg2Rad PI phv
  let cphi := cos ph
  let sphi := sin ph
  let robserver := LinComb prop (LinComb incPolX incPolY cphi sphi) cthet sthet
  (CalcField cos sin ScatRelation anisotropy WaveNum kd Nmat ref_index local_nvoid_Ndip
      DipoleCoord material pvec prop robserver).bind fun ebuff =>
    let incPolper := LinComb incPolX incPolY sphi (-cphi)
    let incPolpar := LinComb prop (LinComb incPolX incPolY cphi sphi) (-sthet) cthet
    Res.ok (crDotProd ebuff incPolper, crDotProd ebuff incPolpar)

/-- The array of doubles `E2_alldir` after the complex number `e` is stored at the index
`index` of `(doublecomplex*)E2_alldir`. -/
def storeComplex (E : Int → K) (index : Int) (e : doublecomplex K) : Int → K :=
  fun k => if k = 2 * index then e.RE else if k = 2 * index + 1 then e.IM else E k

/-- The inner cycle of `CalcAlldir` (crosssec.c lines 604-632) after `j` rounds, on the
pair `(point, E2_alldir)`; `point` and `index` are `int`. -/
def CalcAlldir_inner (PI : K) (cos sin : K → K) (ScatRelation : ScatRel)
    (anisotropy : Bool) (WaveNum kd : K) (Nmat : Nat) (ref_index : Nat → doublecomplex K)
    (local_nvoid_Ndip : Nat) (DipoleCoord : Nat → K) (material : Nat → Nat)
    (pvec : Nat → doublecomplex K) (prop incPolX incPolY : Nat → K) (phi_int : angle_set K)
    (thv : K) : Nat → Int × (Int → K) → Res (Int × (Int → K))
  | 0, s => Res.ok s
  | j + 1, s =>
    (CalcAlldir_inner PI cos sin ScatRelation anisotropy WaveNum kd Nmat ref_index
        local_nvoid_Ndip DipoleCoord material pvec prop incPolX incPolY phi_int thv j s).bind
    fun s1 =>
    (phi_int.val j).bind fun phv =>
    (CalcAlldir_direction PI cos sin ScatRelation anisotropy WaveNum kd Nmat ref_index
        local_nvoid_Ndip DipoleCoord material pvec prop incPolX incPolY thv phv).bind
    fun e =>
      let index := wrap32 (2 * s1.1)
      Res.ok (wrap32 (s1.1 + 1),
        storeComplex (storeComplex s1.2 index e.1) (wrap32 (index + 1)) e.2)

/-- The outer cycle of `CalcAlldir` (crosssec.c lines 600-633) after `i` rounds. -/
def CalcAlldir_outer (PI : K) (cos sin : K → K) (ScatRelation : ScatRel)
    (anisotropy : Bool) (WaveNum kd : K) (Nmat : Nat) (ref_index : Nat → doublecomplex K)
    (local_nvoid_Ndip : Nat) (DipoleCoord : Nat → K) (material : Nat → Nat)
    (pvec : Nat → doublecomplex K) (prop incPolX incPolY : Nat → K)
    (theta_int phi_int : angle_set K) : Nat → Int × (Int → K) → Res (Int × (Int → K))
  | 0, s => Res.ok s
  | i + 1, s =>
    (CalcAlldir_outer PI cos sin ScatRelation anisotropy WaveNum kd Nmat ref_index
        local_nvoid_Ndip DipoleCoord material pvec prop incPolX incPolY theta_int phi_int
        i s).bind
    fun s1 =>
    (theta_int.val i).bind fun thv =>
      CalcAlldir_inner PI cos sin ScatRelation anisotropy WaveNum kd Nmat ref_index
        local_nvoid_Ndip DipoleCoord material pvec prop incPolX incPolY phi_int thv
        phi_int.N s1

/-- The final cycle of `CalcAlldir` (crosssec.c lines 636-638), in place on the array of
doubles, after `p` rounds: `point` runs from 0, and `2*point`, `2*point+1` are `int`. -/
def CalcAlldir_square : Nat → (Int → K) → (Int → K)
  | 0, E => E
  | p + 1, E =>
    let E1 := CalcAlldir_square p E
    let point : Int := p
    let i0 := wrap32 (2 * point)
    let i1 := wrap32 (wrap32 (2 * point) + 1)
    fun k =>
      if k = point then
        cAbs2 ⟨E1 (2 * i0), E1 (2 * i0 + 1)⟩ + cAbs2 ⟨E1 (2 * i1), E1 (2 * i1 + 1)⟩
      else E1 k

/-- The value of `npoints = theta_int.N*phi_int.N` of `CalcAlldir` (crosssec.c line 598):
a product of `size_t` numbers stored in an `int`. -/
def CalcAlldir_npoints (theta_int phi_int : angle_set K) : Int :=
  wrap32 (((theta_int.N * phi_int.N) % 2 ^ 64 : Nat) : Int)

/-- The function `CalcAlldir` of crosssec.c (lines 587-644), without the report of the
progress and the timing: the array `E2_alldir` that it leaves.  `Accumulate` of comm.c
(absent from the sources) is an argument: it is called on the array and the number
`4*npoints` of doubles, and on a single process it leaves the array as it is. -/
def CalcAlldir (PI : K) (cos sin : K → K) (ScatRelation : ScatRel)
    (anisotropy : Bool) (WaveNum kd : K) (Nmat : Nat) (ref_index : Nat → doublecomplex K)
    (local_nvoid_Ndip : Nat) (DipoleCoord : Nat → K) (material : Nat → Nat)
    (pvec : Nat → doublecomplex K) (prop incPolX incPolY : Nat → K)
    (theta_int phi_int : angle_set K) (Accumulate : (Int → K) → Int → (Int → K))
    (E2_alldir : Int → K) : Res (Int → K) :=
  let npoints := CalcAlldir_npoints theta_int phi_int
  (CalcAlldir_outer PI cos sin ScatRelation anisotropy WaveNum kd Nmat ref_index
      local_nvoid_Ndip DipoleCoord material pvec prop incPolX incPolY theta_int phi_int
      theta_int.N (0, E2_alldir)).bind
  fun s =>
    Res.ok (CalcAlldir_square npoints.toNat (Accumulate s.2 (wrap32 (4 * npoints))))

end CalcAlldir

/-! # Theorems -/

@[simp] theorem Res.bind_ok {α β : Type} (a : α) (f : α → Res β) :
    (Res.ok a).bind f = f a := rfl

@[simp] theorem Res.bind_error {α β : Type} (e : String) (f : α → Res β) :
    (Res.error e : Res α).bind f = Res.error e := rfl

@[simp] theorem Res.bind_undef {α β : Type} (f : α → Res β) :
    (Res.undef : Res α).bind f = Res.undef := rfl

section AbsCrossProofs
variable {K : Type} [LinearOrderedField K]

theorem cAbs2_eq_normSq (z : doublecomplex ℝ) : cAbs2 z = Complex.normSq z.toComplex := by
  simp [cAbs2, doublecomplex.toComplex, Complex.normSq_apply]

theorem cc_inv_im_eq (z : doublecomplex ℝ) :
    z.IM / cAbs2 z = -((1 : ℂ) / z.toComplex).im := by
  rw [cAbs2_eq_normSq, one_div, Complex.inv_im]
  simp [doublecomplex.toComplex, neg_div]

theorem AbsCross_cycleDraine_ok (dummy : K) (Nmat : Nat) (f : Nat → Nat → K)
    (material : Nat → Nat) (pvec : Nat → doublecomplex K) (n : Nat)
    (h : ∀ j < n, material j < Nmat) :
    AbsCross_cycleDraine dummy (filled Nmat f) material pvec n
      = Res.ok (∑ j in Finset.range n, ∑ i in Finset.range 3,
          (f (material j) i - dummy) * cAbs2 (pvec (3 * j + i))) := by
  induction n with
  | zero => simp [AbsCross_cycleDraine]
  | succ n ih =>
    have hn : material n < Nmat := h n (Nat.lt_succ_self n)
    rw [AbsCross_cycleDraine, ih (fun j hj => h j (Nat.lt_succ_of_lt hj))]
    simp only [filled, if_pos hn, Res.bind_ok]
    rw [Finset.sum_range_succ]
    simp only [Finset.sum_range_succ, Finset.sum_range_zero, zero_add]
    congr 1
    ring

end AbsCrossProofs

/-- C1: in the Draine branch, on a single process and in exact real arithmetic, `AbsCross`
returns `4*pi*k * sum_j sum_i (-Im(1/cc[material[j]][i]) - (2/3)*k^3) * |pvec[3j+i]|^2`
for all `pvec`, all `material` with indices below `Nmat` and every table `cc` with non-zero
entries; the table entry `cc[IM]/|cc|^2` of the code equals `-Im(1/cc)`, and its
denominator is not zero. -/
theorem AbsCross_draine (anisotropy : Bool) (WaveNum kd gridspace : ℝ) (Nmat : Nat)
    (cc : Nat → Nat → doublecomplex ℝ) (ref_index : Nat → doublecomplex ℝ)
    (local_nvoid_Ndip : Nat) (material : Nat → Nat) (pvec : Nat → doublecomplex ℝ)
    (hmat : ∀ j < local_nvoid_Ndip, material j < Nmat)
    (hcc : ∀ m < Nmat, ∀ i < 3, (cc m i).toComplex ≠ 0) :
    AbsCross (4 * Real.pi) ScatRel.SQ_DRAINE anisotropy WaveNum kd gridspace Nmat cc
        ref_index local_nvoid_Ndip material pvec
      = Res.ok (4 * Real.pi * WaveNum *
          ∑ j in Finset.range local_nvoid_Ndip, ∑ i in Finset.range 3,
            (-((1 : ℂ) / (cc (material j) i).toComplex).im - 2 / 3 * WaveNum ^ 3)
              * Complex.abs (pvec (3 * j + i)).toComplex ^ 2)
    ∧ ∀ m < Nmat, ∀ i < 3,
        (cc m i).IM / cAbs2 (cc m i) = -((1 : ℂ) / (cc m i).toComplex).im
          ∧ cAbs2 (cc m i) ≠ 0 := by
  refine ⟨?_, fun m hm i hi => ⟨cc_inv_im_eq (cc m i), ?_⟩⟩
  · simp only [AbsCross]
    rw [AbsCross_cycleDraine_ok _ _ _ _ _ _ hmat]
    simp only [Res.bind_ok, Res.ok.injEq]
    congr 1
    refine Finset.sum_congr rfl (fun j _ => Finset.sum_congr rfl (fun i _ => ?_))
    rw [cc_inv_im_eq, cAbs2_eq_normSq, Complex.sq_abs]
    ring
  · rw [cAbs2_eq_normSq]
    exact fun h0 => hcc m hm i hi (Complex.normSq_eq_zero.mp h0)

/-- Witness of C1: one dipole of material 0 with `cc = 1+i`, `pvec = (1,1,1)` and `k = 1`
gives `-2*pi`. -/
theorem AbsCross_draine_witness :
    AbsCross (4 * Real.pi) ScatRel.SQ_DRAINE false 1 1 1 1 (fun _ _ => ⟨1, 1⟩)
        (fun _ => ⟨1, 0⟩) 1 (fun _ => 0) (fun _ => ⟨1, 0⟩)
      = Res.ok (-(2 * Real.pi)) := by
  have h := (AbsCross_draine false 1 1 1 1 (fun _ _ => ⟨1, 1⟩)
        (fun _ => ⟨1, 0⟩) 1 (fun _ => 0) (fun _ => ⟨1, 0⟩) (by simp)
        (by
          intro m _ i _ h0
          have := congrArg Complex.re h0
          simp [doublecomplex.toComplex] at this)).1
  rw [h]
  have e1 : ((1 : ℂ) / (⟨1, 1⟩ : doublecomplex ℝ).toComplex).im = -(1 / 2) := by
    rw [one_div, Complex.inv_im]
    simp [doublecomplex.toComplex, Complex.normSq_apply]
    norm_num
  have e2 : Complex.abs (⟨1, 0⟩ : doublecomplex ℝ).toComplex ^ 2 = 1 := by
    rw [Complex.sq_abs]
    simp [doublecomplex.toComplex, Complex.normSq_apply]
  simp only [Finset.sum_range_succ, Finset.sum_range_zero, zero_add, e1, e2, Res.ok.injEq]
  ring

section CalcFieldProofs
variable {K : Type} [LinearOrderedField K]

theorem CalcField_cycle_draine (cos sin : K → K) (mult_mat : Nat → Res (doublecomplex K))
    (WaveNum : K) (DipoleCoord : Nat → K) (material : Nat → Nat)
    (pvec : Nat → doublecomplex K) (n : Nat → K) (N : Nat) :
    CalcField_cycle cos sin ScatRel.SQ_DRAINE mult_mat WaveNum DipoleCoord material pvec n N
      = Res.ok (CalcField_sumDraine cos sin WaveNum DipoleCoord pvec n N) := by
  induction N with
  | zero =>
    simp only [CalcField_cycle, Res.ok.injEq]
    funext i
    simp [CalcField_sumDraine]
  | succ N ih =>
    rw [CalcField_cycle, ih]
    simp only [Res.bind_ok, Res.ok.injEq]
    funext i
    simp only [CalcField_sumDraine, imExp, Finset.sum_range_succ]

theorem CalcField_draine_ok (cos sin : K → K) (anisotropy : Bool) (WaveNum kd : K)
    (Nmat : Nat) (ref_index : Nat → doublecomplex K) (N : Nat) (DipoleCoord : Nat → K)
    (material : Nat → Nat) (pvec : Nat → doublecomplex K) (prop n : Nat → K) :
    CalcField cos sin ScatRel.SQ_DRAINE anisotropy WaveNum kd Nmat ref_index N DipoleCoord
        material pvec prop n
      = Res.ok (fun i =>
          ⟨((CalcField_sumDraine cos sin WaveNum DipoleCoord pvec n N i).IM
              - (crDotProd (CalcField_sumDraine cos sin WaveNum DipoleCoord pvec n N) n).IM
                  * n i) * (WaveNum * WaveNum * WaveNum),
           -((CalcField_sumDraine cos sin WaveNum DipoleCoord pvec n N i).RE
              - (crDotProd (CalcField_sumDraine cos sin WaveNum DipoleCoord pvec n N) n).RE
                  * n i) * (WaveNum * WaveNum * WaveNum)⟩) := by
  simp only [CalcField]
  rw [CalcField_cycle_draine]
  simp [cvSubtr, cScalMultRVec]

theorem toComplex_imExp (t : ℝ) :
    (imExp Real.cos Real.sin t).toComplex = Complex.exp (t * Complex.I) := by
  apply Complex.ext
  · simp [imExp, doublecomplex.toComplex, Complex.exp_ofReal_mul_I_re]
  · simp [imExp, doublecomplex.toComplex, Complex.exp_ofReal_mul_I_im]

theorem toComplex_sumDraine (WaveNum : ℝ) (DipoleCoord : Nat → ℝ)
    (pvec : Nat → doublecomplex ℝ) (n : Nat → ℝ) (N c : Nat) :
    (CalcField_sumDraine Real.cos Real.sin WaveNum DipoleCoord pvec n N c).toComplex
      = ∑ j in Finset.range N,
          (pvec (3 * j + c)).toComplex
            * Complex.exp (-Complex.I * WaveNum
                * (DotProd (fun i => DipoleCoord (3 * j + i)) n : ℝ)) := by
  have hterm : ∀ j, (pvec (3 * j + c)).toComplex
            * Complex.exp (-Complex.I * WaveNum
                * (DotProd (fun i => DipoleCoord (3 * j + i)) n : ℝ))
        = (⟨(pvec (3 * j + c)).RE
              * Real.cos (-(WaveNum * DotProd (fun i => DipoleCoord (3 * j + i)) n))
            - (pvec (3 * j + c)).IM
              * Real.sin (-(WaveNum * DotProd (fun i => DipoleCoord (3 * j + i)) n)),
           (pvec (3 * j + c)).RE
              * Real.sin (-(WaveNum * DotProd (fun i => DipoleCoord (3 * j + i)) n))
            + (pvec (3 * j + c)).IM
              * Real.cos (-(WaveNum * DotProd (fun i => DipoleCoord (3 * j + i)) n))⟩ : ℂ) := by
    intro j
    have he := toComplex_imExp (-(WaveNum * DotProd (fun i => DipoleCoord (3 * j + i)) n))
    have harg : -Complex.I * (WaveNum : ℂ)
          * ((DotProd (fun i => DipoleCoord (3 * j + i)) n : ℝ) : ℂ)
        = ((-(WaveNum * DotProd (fun i => DipoleCoord (3 * j + i)) n) : ℝ) : ℂ)
            * Complex.I := by
      push_cast
      ring
    rw [harg, ← he]
    apply Complex.ext <;> simp [doublecomplex.toComplex, imExp]
  simp only [hterm]
  apply Complex.ext
  · simp [CalcField_sumDraine, doublecomplex.toComplex, Complex.re_sum]
  · simp [CalcField_sumDraine, doublecomplex.toComplex, Complex.im_sum]

end CalcFieldProofs

/-- C3: with `ScatRelation = SQ_DRAINE`, for every direction `n` and every `pvec`,
`CalcField` returns `ebuff = -i*k^3*(S - n*(n.S))` with
`S_c = sum_j pvec[3j+c]*exp(-i*k*(r_j.n))`: the real and imaginary parts of the projected
sum `P = S - n*(n.S)` are mapped to `(k^3*Im P, -k^3*Re P)`; and for a unit vector `n` the
output is transverse, `sum_c n_c*ebuff_c = 0`. -/
theorem CalcField_draine (anisotropy : Bool) (WaveNum kd : ℝ) (Nmat : Nat)
    (ref_index : Nat → doublecomplex ℝ) (local_nvoid_Ndip : Nat) (DipoleCoord : Nat → ℝ)
    (material : Nat → Nat) (pvec : Nat → doublecomplex ℝ) (prop n : Nat → ℝ) :
    ∃ (ebuff : Nat → doublecomplex ℝ) (S P : Nat → ℂ),
      CalcField Real.cos Real.sin ScatRel.SQ_DRAINE anisotropy WaveNum kd Nmat ref_index
          local_nvoid_Ndip DipoleCoord material pvec prop n = Res.ok ebuff
      ∧ (∀ c, S c = ∑ j in Finset.range local_nvoid_Ndip,
            (pvec (3 * j + c)).toComplex
              * Complex.exp (-Complex.I * WaveNum
                  * (DotProd (fun i => DipoleCoord (3 * j + i)) n : ℝ)))
      ∧ (∀ c, P c = S c - n c * (n 0 * S 0 + n 1 * S 1 + n 2 * S 2))
      ∧ (∀ c, (ebuff c).toComplex = -Complex.I * (WaveNum : ℂ) ^ 3 * P c
            ∧ (ebuff c).RE = WaveNum ^ 3 * (P c).im
            ∧ (ebuff c).IM = -(WaveNum ^ 3) * (P c).re)
      ∧ (DotProd n n = 1 →
            (n 0 : ℂ) * (ebuff 0).toComplex + n 1 * (ebuff 1).toComplex
              + n 2 * (ebuff 2).toComplex = 0) := by
  obtain ⟨s, hs⟩ : ∃ s : Nat → doublecomplex ℝ,
      s = CalcField_sumDraine Real.cos Real.sin WaveNum DipoleCoord pvec n local_nvoid_Ndip :=
    ⟨_, rfl⟩
  have hok := CalcField_draine_ok Real.cos Real.sin anisotropy WaveNum kd Nmat ref_index
    local_nvoid_Ndip DipoleCoord material pvec prop n
  rw [← hs] at hok
  have hS : ∀ c, (s c).toComplex = ∑ j in Finset.range local_nvoid_Ndip,
            (pvec (3 * j + c)).toComplex
              * Complex.exp (-Complex.I * WaveNum
                  * (DotProd (fun i => DipoleCoord (3 * j + i)) n : ℝ)) := by
    intro c
    rw [hs]
    exact toComplex_sumDraine WaveNum DipoleCoord pvec n local_nvoid_Ndip c
  have hcomp : ∀ c,
      (⟨((s c).IM - (crDotProd s n).IM * n c) * (WaveNum * WaveNum * WaveNum),
        -((s c).RE - (crDotProd s n).RE * n c) * (WaveNum * WaveNum * WaveNum)⟩
          : doublecomplex ℝ).toComplex
        = -Complex.I * (WaveNum : ℂ) ^ 3
            * ((s c).toComplex - n c * (n 0 * (s 0).toComplex + n 1 * (s 1).toComplex
                + n 2 * (s 2).toComplex)) := by
    intro c
    apply Complex.ext
    · simp [doublecomplex.toComplex, crDotProd, pow_succ]
      ring
    · simp [doublecomplex.toComplex, crDotProd, pow_succ]
      ring
  refine ⟨_, fun c => (s c).toComplex,
    fun c => (s c).toComplex - n c * (n 0 * (s 0).toComplex + n 1 * (s 1).toComplex
                + n 2 * (s 2).toComplex), hok, hS, fun c => rfl, fun c => ⟨hcomp c, ?_, ?_⟩, ?_⟩
  · simp [doublecomplex.toComplex, crDotProd]
    ring
  · simp [doublecomplex.toComplex, crDotProd]
    ring
  · intro hn
    have hnC : (n 0 : ℂ) * n 0 + n 1 * n 1 + n 2 * n 2 = 1 := by
      have := congrArg (fun x : ℝ => (x : ℂ)) hn
      simpa [DotProd] using this
    simp only [hcomp]
    linear_combination (Complex.I * (WaveNum : ℂ) ^ 3
      * (n 0 * (s 0).toComplex + n 1 * (s 1).toComplex + n 2 * (s 2).toComplex)) * hnC

/-- Witness of C3: one dipole at `(0,0,1)` with `pvec = (1,0,0)`, `k = 1`, and the unit
direction `n = (0,0,1)`. -/
theorem CalcField_draine_witness :
    DotProd (vec3 (0 : ℝ) 0 1) (vec3 0 0 1) = 1
    ∧ ∃ (ebuff : Nat → doublecomplex ℝ),
      CalcField Real.cos Real.sin ScatRel.SQ_DRAINE false 1 1 1 (fun _ => ⟨1, 0⟩)
          1 (vec3 0 0 1) (fun _ => 0) (fun i => if i = 0 then ⟨1, 0⟩ else ⟨0, 0⟩)
          (vec3 0 0 1) (vec3 0 0 1) = Res.ok ebuff
      ∧ ((vec3 (0 : ℝ) 0 1 0 : ℝ) : ℂ) * (ebuff 0).toComplex
          + ((vec3 (0 : ℝ) 0 1 1 : ℝ) : ℂ) * (ebuff 1).toComplex
          + ((vec3 (0 : ℝ) 0 1 2 : ℝ) : ℂ) * (ebuff 2).toComplex = 0 := by
  have hn : DotProd (vec3 (0 : ℝ) 0 1) (vec3 0 0 1) = 1 := by simp [DotProd, vec3]
  obtain ⟨ebuff, _, _, hok, _, _, _, htr⟩ :=
    CalcField_draine false 1 1 1 (fun _ => ⟨1, 0⟩)
      1 (vec3 0 0 1) (fun _ => 0) (fun i => if i = 0 then ⟨1, 0⟩ else ⟨0, 0⟩)
      (vec3 0 0 1) (vec3 0 0 1)
  exact ⟨hn, ebuff, hok, htr hn⟩

section ExtCrossProofs
variable {K : Type} [LinearOrderedField K]

theorem ExtCross_cycle_eq_sum (pvec Einc : Nat → doublecomplex K) (N : Nat) :
    ExtCross_cycle pvec Einc N
      = ∑ j in Finset.range N,
          cDotProd_Im (fun c => pvec (3 * j + c)) (fun c => Einc (3 * j + c)) := by
  induction N with
  | zero => simp [ExtCross_cycle]
  | succ N ih => rw [ExtCross_cycle, ih, Finset.sum_range_succ]

theorem cDotProd_Im_eq (a b : Nat → doublecomplex ℝ) :
    cDotProd_Im a b
      = (∑ c in Finset.range 3, (a c).toComplex * (starRingEnd ℂ) (b c).toComplex).im := by
  simp [cDotProd_Im, Finset.sum_range_succ, doublecomplex.toComplex]
  ring

theorem crDotProd_Re_eq (a : Nat → doublecomplex ℝ) (b : Nat → ℝ) :
    crDotProd_Re a b = (∑ c in Finset.range 3, (a c).toComplex * (b c : ℂ)).re := by
  simp [crDotProd_Re, Finset.sum_range_succ, doublecomplex.toComplex]

end ExtCrossProofs

/-- C2: on a single process and in exact real arithmetic, `ExtCross` returns, when
`beamtype = B_PLANE`, `(4*pi/k^2) * Re(sum_c E_c*incPol_c)` with `E` the vector that
`CalcField` produces for the direction `prop` (and stops where `CalcField` stops); for
every other beam type it returns
`4*pi*k * sum_j Im(sum_c pvec[3j+c]*conj(Einc[3j+c]))` over the owned dipoles `j`. -/
theorem ExtCross_eq (beamtype : BeamType) (ScatRelation : ScatRel) (anisotropy : Bool)
    (WaveNum kd : ℝ) (Nmat : Nat) (ref_index : Nat → doublecomplex ℝ)
    (local_nvoid_Ndip : Nat) (DipoleCoord : Nat → ℝ) (material : Nat → Nat)
    (pvec Einc : Nat → doublecomplex ℝ) (prop incPol : Nat → ℝ) :
    ExtCross (4 * Real.pi) Real.cos Real.sin beamtype ScatRelation anisotropy WaveNum kd
        Nmat ref_index local_nvoid_Ndip DipoleCoord material pvec Einc prop incPol
      = if beamtype = BeamType.B_PLANE then
          Res.map
            (fun E => 4 * Real.pi / WaveNum ^ 2
                * (∑ c in Finset.range 3, (E c).toComplex * (incPol c : ℂ)).re)
            (CalcField Real.cos Real.sin ScatRelation anisotropy WaveNum kd Nmat ref_index
              local_nvoid_Ndip DipoleCoord material pvec prop prop)
        else
          Res.ok (4 * Real.pi * WaveNum
            * ∑ j in Finset.range local_nvoid_Ndip,
                (∑ c in Finset.range 3, (pvec (3 * j + c)).toComplex
                    * (starRingEnd ℂ) (Einc (3 * j + c)).toComplex).im) := by
  by_cases hb : beamtype = BeamType.B_PLANE
  · simp only [ExtCross, if_pos hb]
    cases CalcField Real.cos Real.sin ScatRelation anisotropy WaveNum kd Nmat ref_index
        local_nvoid_Ndip DipoleCoord material pvec prop prop with
    | ok E =>
      simp only [Res.map, Res.bind_ok, Res.ok.injEq]
      rw [crDotProd_Re_eq]
      ring
    | error e => rfl
    | undef => rfl
  · simp only [ExtCross, if_neg hb, Res.ok.injEq]
    rw [ExtCross_cycle_eq_sum]
    simp only [cDotProd_Im_eq]
    ring

section ScanIntegrParmsProofs
variable {K : Type} [LinearOrderedField K]

theorem wrap32_of_bounds (x : Int) (h1 : -(2 ^ 31) ≤ x) (h2 : x < 2 ^ 31) : wrap32 x = x := by
  unfold wrap32
  rw [Int.emod_eq_of_lt (by omega) (by omega)]
  omega

theorem grid_size_of_le_30 (J : Int) (h1 : 0 ≤ J) (h2 : J ≤ 30) :
    wrap32 (shl32 1 J + 1) = 2 ^ J.toNat + 1 := by
  have hn : J.toNat ≤ 30 := by omega
  have hp : (2 : Int) ^ J.toNat ≤ 2 ^ 30 := pow_le_pow_right₀ (by norm_num) hn
  have hp0 : (0 : Int) < 2 ^ J.toNat := by positivity
  have e1 : shl32 1 J = 2 ^ J.toNat := by
    unfold shl32
    rw [one_mul]
    exact wrap32_of_bounds _ (by omega) (by omega)
  rw [e1]
  exact wrap32_of_bounds _ (by omega) (by omega)

theorem to_size_t_grid (n : Nat) (hn : n ≤ 30) : to_size_t (2 ^ n + 1) = 2 ^ n + 1 := by
  have hp : (2 : Int) ^ n ≤ 2 ^ 30 := pow_le_pow_right₀ (by norm_num) hn
  have hp0 : (0 : Int) < 2 ^ n := by positivity
  unfold to_size_t
  rw [Int.emod_eq_of_lt (by omega) (by omega)]
  have : ((2 : Int) ^ n + 1) = ((2 ^ n + 1 : Nat) : Int) := by push_cast; rfl
  rw [this, Int.toNat_ofNat]

/-- For a block that passes the checks with `Jmax <= 30`, `ScanIntegrParms` sets
`Grid_size = 2^Jmax + 1` and `N = 2^Jmax + 1` (`equiv=false`) or `N = 2^Jmax`
(`equiv=true`). -/
theorem ScanIntegrParms_fill_of_le_30 (amin amax : K) (Jmin Jmax : Int) (eps : K)
    (equival : Bool) (h1 : amin < amax) (h2 : Jmin ≤ Jmax) (h3 : 1 ≤ Jmin) (h4 : 0 ≤ eps)
    (h5 : Jmax ≤ 30) :
    ScanIntegrParms_fill amin amax Jmin Jmax eps equival
      = Res.ok (if equival then 2 ^ Jmax.toNat else 2 ^ Jmax.toNat + 1,
                2 ^ Jmax.toNat + 1, Jmax) := by
  have hn : Jmax.toNat ≤ 30 := by omega
  have hpos : 0 < 2 ^ Jmax.toNat := by positivity
  unfold ScanIntegrParms_fill
  rw [if_neg (ne_of_lt h1), if_neg (not_lt_of_gt h1), if_neg (not_lt.mpr h2),
    if_neg (not_lt.mpr h3), if_neg (not_lt.mpr h4), if_neg (by omega)]
  simp only [grid_size_of_le_30 Jmax (by omega) h5, to_size_t_grid _ hn]
  cases equival <;> simp

end ScanIntegrParmsProofs

theorem ScanIntegrParms_scan_read {K : Type} (amin amax : K) (Jmin Jmax : Int) (eps : K)
    (equiv periodic : String)
    (hJmin : INT_MIN ≤ Jmin ∧ Jmin ≤ INT_MAX) (hJmax : INT_MIN ≤ Jmax ∧ Jmax ≤ INT_MAX) :
    ScanIntegrParms_scan
        ⟨some amin, some amax, some Jmin, some Jmax, some eps, some equiv, some periodic⟩
      = if equiv ≠ "true" ∧ equiv ≠ "false" then
          Res.error "Wrong argument of equiv option"
        else if periodic ≠ "true" ∧ periodic ≠ "false" then
          Res.error "Wrong argument of periodic option"
        else Res.ok (amin, amax, Jmin, Jmax, eps, decide (equiv = "true"),
                     decide (periodic = "true")) := by
  have a1 : ¬ (Jmin < INT_MIN ∨ Jmin > INT_MAX) := by omega
  have a2 : ¬ (Jmax < INT_MIN ∨ Jmax > INT_MAX) := by omega
  simp only [ScanIntegrParms_scan, ScanDouble, ScanInt, ScanString, if_neg a1, if_neg a2,
    Res.bind_ok]

theorem Res.isError_bind {α β : Type} (r : Res α) (f : α → Res β) :
    (r.bind f).isError = true
      ↔ r.isError = true ∨ ∃ a, r = Res.ok a ∧ (f a).isError = true := by
  cases r <;> simp [Res.bind, Res.isError]

theorem Res.bind_eq_ok {α β : Type} (r : Res α) (f : α → Res β) (b : β)
    (h : r.bind f = Res.ok b) : ∃ a, r = Res.ok a ∧ f a = Res.ok b := by
  cases r with
  | ok a => exact ⟨a, rfl, h⟩
  | error e => simp [Res.bind] at h
  | undef => simp [Res.bind] at h

theorem ScanIntegrParms_fill_isError {K : Type} [LinearOrderedField K] (amin amax : K)
    (Jmin Jmax : Int) (eps : K) (equival : Bool) (hne : amin ≠ amax) :
    ((ScanIntegrParms_fill amin amax Jmin Jmax eps equival).isError = true
      ↔ (amin > amax ∨ Jmax < Jmin ∨ Jmin < 1 ∨ eps < 0 ∨ Jmax ≥ 32))
    ∧ ((ScanIntegrParms_fill amin amax Jmin Jmax eps equival).isError = false →
        ∃ f, ScanIntegrParms_fill amin amax Jmin Jmax eps equival = Res.ok f) := by
  unfold ScanIntegrParms_fill
  rw [if_neg hne]
  by_cases c1 : amin > amax
  · simp [c1, Res.isError]
  rw [if_neg c1]
  by_cases c2 : Jmax < Jmin
  · simp [c2, Res.isError]
  rw [if_neg c2]
  by_cases c3 : Jmin < 1
  · simp [c3, Res.isError]
  rw [if_neg c3]
  by_cases c4 : eps < 0
  · simp [c4, Res.isError]
  rw [if_neg c4]
  by_cases c5 : Jmax ≥ 32
  · simp [c5, Res.isError]
  rw [if_neg c5]
  simp only [Res.isError]
  exact ⟨⟨fun h => by simp at h, fun h => by tauto⟩, fun _ => ⟨_, rfl⟩⟩

theorem ScanIntegrParms_points_isError {K : Type} [LinearOrderedField K] (PI : K)
    (cos acos : K → K) (ifcos : Bool) (amin amax : K) (Jmin : Int) (eps : K)
    (equival periodic : Bool) (N : Nat) (Grid_size Jmax : Int) :
    ((ScanIntegrParms_points PI cos acos ifcos amin amax Jmin eps equival periodic N
        Grid_size Jmax).isError = true
      ↔ (ifcos = true ∧ (amin < 0 ∨ amax > 180)))
    ∧ ((ScanIntegrParms_points PI cos acos ifcos amin amax Jmin eps equival periodic N
        Grid_size Jmax).isError = false →
        ∃ a b, ScanIntegrParms_points PI cos acos ifcos amin amax Jmin eps equival periodic N
            Grid_size Jmax = Res.ok (a, b)
          ∧ b.Jmax = Jmax ∧ a.N = N ∧ b.Grid_size = Grid_size) := by
  unfold ScanIntegrParms_points
  cases ifcos with
  | false =>
    refine ⟨?_, fun _ => ⟨_, _, rfl, rfl, rfl, rfl⟩⟩
    simp [Res.isError]
  | true =>
    simp only [if_true, true_and]
    by_cases c1 : amin < 0
    · simp [c1, Res.isError]
    rw [if_neg c1]
    by_cases c2 : amax > 180
    · simp [c2, Res.isError]
    rw [if_neg c2]
    simp only [Res.isError]
    exact ⟨⟨fun h => by simp at h, fun h => by tauto⟩, fun _ => ⟨_, _, rfl, rfl, rfl, rfl⟩⟩

theorem or9_of_or5 {A B C D E X Y Z W : Prop} (h : A ∨ B ∨ C ∨ D ∨ E) :
    A ∨ B ∨ C ∨ D ∨ E ∨ X ∨ Y ∨ Z ∨ W := by
  tauto

theorem or9_last {A B C D E X Y Z W : Prop} (h : W) :
    A ∨ B ∨ C ∨ D ∨ E ∨ X ∨ Y ∨ Z ∨ W := by
  tauto

theorem iff_or9 {A B C D E X Y Z W : Prop} (hF : ¬ (A ∨ B ∨ C ∨ D ∨ E)) (hX : ¬ X)
    (hY : ¬ Y) (hW : ¬ W) : Z ↔ (A ∨ B ∨ C ∨ D ∨ E ∨ X ∨ Y ∨ Z ∨ W) := by
  tauto

theorem iff_or3 {X Y Z : Prop} (hX : ¬ X) (hY : ¬ Y) : Z ↔ (X ∨ Y ∨ Z) := by
  tauto

theorem MALLOC_VECTOR_eq_ok (elem size : Nat) (name : String) (h : size * elem ≤ SIZE_MAX) :
    MALLOC_VECTOR elem size name = Res.ok () := by
  unfold MALLOC_VECTOR
  rw [if_neg (by omega)]

theorem MALLOC_VECTOR_eq_error (elem size : Nat) (name : String)
    (h : SIZE_MAX < size * elem) :
    MALLOC_VECTOR elem size name = Res.error ("Could not malloc " ++ name) := by
  unfold MALLOC_VECTOR
  rw [if_pos h]

theorem ScanIntegrParms_fill_Jmax31 {K : Type} [LinearOrderedField K] (amin amax : K)
    (Jmin : Int) (eps : K) (equival : Bool) (h1 : amin < amax) (h2 : Jmin ≤ 31)
    (h3 : 1 ≤ Jmin) (h4 : 0 ≤ eps) :
    ScanIntegrParms_fill amin amax Jmin 31 eps equival
      = Res.ok (if equival then 18446744071562067968 else 18446744071562067969,
                -2147483647, 31) := by
  have g : wrap32 (shl32 1 31 + 1) = -2147483647 := by decide
  have t : to_size_t (-2147483647) = 18446744071562067969 := by decide
  unfold ScanIntegrParms_fill
  rw [if_neg (ne_of_lt h1), if_neg (not_lt_of_gt h1), if_neg (not_lt.mpr h2),
    if_neg (not_lt.mpr h3), if_neg (not_lt.mpr h4), if_neg (by norm_num)]
  simp only [g, t]
  cases equival <;> simp

theorem ScanIntegrParms_malloc_le_30 (Jmax : Int) (equival : Bool) (h : Jmax ≤ 30) :
    MALLOC_VECTOR 8 (if equival = true then 2 ^ Jmax.toNat else 2 ^ Jmax.toNat + 1) "a->val"
      = Res.ok () := by
  have hp : 2 ^ Jmax.toNat ≤ 2 ^ 30 := Nat.pow_le_pow_right (by norm_num) (by omega)
  apply MALLOC_VECTOR_eq_ok
  unfold SIZE_MAX
  split_ifs <;> omega

/-- The allocation of `a->val` after the sizes are set, for a block with `min < max` that
passes the checks: it succeeds for `Jmax <= 30` and fails for `Jmax = 31`, where `a->N` is
`2^64 - 2^31 + 1` (or one less). -/
theorem ScanIntegrParms_malloc {K : Type} [LinearOrderedField K] (amin amax : K)
    (Jmin Jmax : Int) (eps : K) (equival : Bool) (hne : amin ≠ amax)
    (hnc : ¬ (amin > amax ∨ Jmax < Jmin ∨ Jmin < 1 ∨ eps < 0 ∨ Jmax ≥ 32)) :
    ∃ f, ScanIntegrParms_fill amin amax Jmin Jmax eps equival = Res.ok f
      ∧ (Jmax ≤ 30 → MALLOC_VECTOR 8 f.1 "a->val" = Res.ok ())
      ∧ (Jmax = 31 → MALLOC_VECTOR 8 f.1 "a->val" = Res.error "Could not malloc a->val") := by
  push_neg at hnc
  obtain ⟨h1, h2, h3, h4, h5⟩ := hnc
  have h1s : amin < amax := lt_of_le_of_ne h1 hne
  by_cases hJ : Jmax ≤ 30
  · refine ⟨_, ScanIntegrParms_fill_of_le_30 amin amax Jmin Jmax eps equival h1s h2 h3 h4 hJ,
      fun _ => ?_, fun h => by omega⟩
    have hp : 2 ^ Jmax.toNat ≤ 2 ^ 30 := Nat.pow_le_pow_right (by norm_num) (by omega)
    apply MALLOC_VECTOR_eq_ok
    unfold SIZE_MAX
    show (if equival = true then 2 ^ Jmax.toNat else 2 ^ Jmax.toNat + 1) * 8 ≤ _
    split_ifs <;> omega
  · have h31 : Jmax = 31 := by omega
    subst h31
    refine ⟨_, ScanIntegrParms_fill_Jmax31 amin amax Jmin eps equival h1s h2 h3 h4,
      fun h => by omega, fun _ => ?_⟩
    cases equival <;> exact MALLOC_VECTOR_eq_error _ _ _ (by unfold SIZE_MAX; norm_num)

/-- For a block whose seven keys were read: when `min` differs from `max`, `ScanIntegrParms`
stops with an error if and only if one of the checks fails or `Jmax = 31` (where the
allocation fails), and otherwise it returns; when `min = max` none of the `Jmin`, `Jmax`,
`eps` checks is applied and `Jmax` is overwritten with 1. -/
theorem ScanIntegrParms_isError_iff {K : Type} [LinearOrderedField K] (PI : K)
    (cos acos : K → K) (amin amax : K) (Jmin Jmax : Int) (eps : K)
    (equiv periodic : String) (ifcos : Bool)
    (hJmin : INT_MIN ≤ Jmin ∧ Jmin ≤ INT_MAX) (hJmax : INT_MIN ≤ Jmax ∧ Jmax ≤ INT_MAX) :
    (amin ≠ amax →
      (((ScanIntegrParms PI cos acos
            ⟨some amin, some amax, some Jmin, some Jmax, some eps, some equiv, some periodic⟩
            ifcos).isError = true
        ↔ (amin > amax ∨ Jmax < Jmin ∨ Jmin < 1 ∨ eps < 0 ∨ Jmax ≥ 32
            ∨ (equiv ≠ "true" ∧ equiv ≠ "false")
            ∨ (periodic ≠ "true" ∧ periodic ≠ "false")
            ∨ (ifcos = true ∧ (amin < 0 ∨ amax > 180))
            ∨ Jmax = 31))
       ∧ ((ScanIntegrParms PI cos acos
            ⟨some amin, some amax, some Jmin, some Jmax, some eps, some equiv, some periodic⟩
            ifcos).isError = false →
          ∃ a b, ScanIntegrParms PI cos acos
            ⟨some amin, some amax, some Jmin, some Jmax, some eps, some equiv, some periodic⟩
            ifcos = Res.ok (a, b))))
    ∧ (amin = amax →
      (((ScanIntegrParms PI cos acos
            ⟨some amin, some amax, some Jmin, some Jmax, some eps, some equiv, some periodic⟩
            ifcos).isError = true
        ↔ ((equiv ≠ "true" ∧ equiv ≠ "false")
            ∨ (periodic ≠ "true" ∧ periodic ≠ "false")
            ∨ (ifcos = true ∧ (amin < 0 ∨ amax > 180))))
       ∧ ((ScanIntegrParms PI cos acos
            ⟨some amin, some amax, some Jmin, some Jmax, some eps, some equiv, some periodic⟩
            ifcos).isError = false →
          ∃ a b, ScanIntegrParms PI cos acos
            ⟨some amin, some amax, some Jmin, some Jmax, some eps, some equiv, some periodic⟩
            ifcos = Res.ok (a, b) ∧ b.Jmax = 1 ∧ a.N = 1 ∧ b.Grid_size = 1))) := by
  have hfill := ScanIntegrParms_fill_isError amin amax Jmin Jmax eps (decide (equiv = "true"))
  have hpts := fun N G J => ScanIntegrParms_points_isError PI cos acos ifcos amin amax Jmin eps
    (decide (equiv = "true")) (decide (periodic = "true")) N G J
  have hscan := ScanIntegrParms_scan_read amin amax Jmin Jmax eps equiv periodic hJmin hJmax
  by_cases he : equiv ≠ "true" ∧ equiv ≠ "false"
  · rw [if_pos he] at hscan
    simp only [ScanIntegrParms, hscan, Res.bind_error, Res.isError]
    simp [he]
  rw [if_neg he] at hscan
  by_cases hp : periodic ≠ "true" ∧ periodic ≠ "false"
  · rw [if_pos hp] at hscan
    simp only [ScanIntegrParms, hscan, Res.bind_error, Res.isError]
    simp [hp]
  rw [if_neg hp] at hscan
  simp only [ScanIntegrParms, hscan, Res.bind_ok]
  have he2 : ¬ (equiv ≠ "true" ∧ equiv ≠ "false") := he
  have hp2 : ¬ (periodic ≠ "true" ∧ periodic ≠ "false") := hp
  constructor
  · intro hne
    obtain ⟨hf1, hf2⟩ := hfill hne
    by_cases hfe : (ScanIntegrParms_fill amin amax Jmin Jmax eps
        (decide (equiv = "true"))).isError = true
    · have hc := hf1.mp hfe
      constructor
      · rw [Res.isError_bind]
        exact ⟨fun _ => or9_of_or5 hc, fun _ => Or.inl hfe⟩
      · intro hno
        rw [(Res.isError_bind _ _).mpr (Or.inl hfe)] at hno
        exact absurd hno (by simp)
    · have hnc : ¬ (amin > amax ∨ Jmax < Jmin ∨ Jmin < 1 ∨ eps < 0 ∨ Jmax ≥ 32) :=
        fun hc => hfe (hf1.mpr hc)
      have h32 : Jmax < 32 := by
        by_contra hc
        exact hnc (Or.inr (Or.inr (Or.inr (Or.inr (not_lt.mp hc)))))
      obtain ⟨f, hf, hle, h31⟩ := ScanIntegrParms_malloc amin amax Jmin Jmax eps
        (decide (equiv = "true")) hne hnc
      rw [hf]
      simp only [Res.bind_ok]
      by_cases hJ : Jmax = 31
      · rw [h31 hJ]
        simp only [Res.bind_error, Res.isError]
        exact ⟨⟨fun _ => or9_last hJ, fun _ => trivial⟩, fun h => absurd h (by simp)⟩
      · rw [hle (by omega)]
        simp only [Res.bind_ok]
        obtain ⟨hq1, hq2⟩ := hpts f.1 f.2.1 f.2.2
        constructor
        · rw [hq1]
          exact iff_or9 hnc he2 hp2 hJ
        · intro hno
          obtain ⟨a, b, hab, _⟩ := hq2 hno
          exact ⟨a, b, hab⟩
  · intro heq
    have hf : ScanIntegrParms_fill amin amax Jmin Jmax eps (decide (equiv = "true"))
        = Res.ok (1, 1, 1) := by
      unfold ScanIntegrParms_fill
      rw [if_pos heq]
    have hm : MALLOC_VECTOR 8 1 "a->val" = Res.ok () := MALLOC_VECTOR_eq_ok _ _ _ (by decide)
    rw [hf]
    simp only [Res.bind_ok, hm]
    obtain ⟨hq1, hq2⟩ := hpts 1 1 1
    constructor
    · rw [hq1]
      exact iff_or3 he2 hp2
    · intro hno
      exact hq2 hno

/-- A block with `min < max` and `Jmax = 31` that passes the checks: the run stops at the
allocation of `a->val` (crosssec.c line 233). -/
theorem ScanIntegrParms_Jmax31_error {K : Type} [LinearOrderedField K] (PI : K)
    (cos acos : K → K) (amin amax : K) (Jmin : Int) (eps : K) (equiv periodic : String)
    (ifcos : Bool)
    (he : equiv = "true" ∨ equiv = "false") (hp : periodic = "true" ∨ periodic = "false")
    (h1 : amin < amax) (h2 : Jmin ≤ 31) (h3 : 1 ≤ Jmin) (h4 : 0 ≤ eps) :
    ScanIntegrParms PI cos acos
        ⟨some amin, some amax, some Jmin, some 31, some eps, some equiv, some periodic⟩ ifcos
      = Res.error "Could not malloc a->val" := by
  have hscan := ScanIntegrParms_scan_read amin amax Jmin 31 eps equiv periodic
    (by unfold INT_MIN INT_MAX; omega) (by decide)
  rw [if_neg (fun hc => by rcases he with h | h <;> simp [h] at hc),
    if_neg (fun hc => by rcases hp with h | h <;> simp [h] at hc)] at hscan
  have hfill := ScanIntegrParms_fill_Jmax31 amin amax Jmin eps (decide (equiv = "true"))
    h1 h2 h3 h4
  have hm : MALLOC_VECTOR 8 (if decide (equiv = "true") = true then 18446744071562067968
      else 18446744071562067969) "a->val" = Res.error "Could not malloc a->val" := by
    split_ifs <;> exact MALLOC_VECTOR_eq_error _ _ _ (by unfold SIZE_MAX; norm_num)
  simp only [ScanIntegrParms, hscan, Res.bind_ok, hfill, hm, Res.bind_error]

/-- C4 at the failing input: a block with `min = 0`, `max = 360`, `Jmin = 1`, `Jmax = 31`
is scanned and passes every check, and `(1 << 31) + 1` in 32-bit `int` makes `Grid_size` the
negative number `-2147483647`, not `2^31 + 1`; `N` is this value converted to `size_t`,
`2^64 - 2^31 + 1`, and the run then stops at the allocation of the `N` doubles. -/
theorem ScanIntegrParms_Jmax31 :
    ∃ (N : Nat) (Grid_size : Int),
      ScanIntegrParms_scan
          (⟨some 0, some 360, some 1, some 31, some 0, some "false", some "false"⟩ :
            IntegrBlock ℝ)
        = Res.ok (0, 360, 1, 31, 0, false, false)
      ∧ ScanIntegrParms_fill (0 : ℝ) 360 1 31 0 false = Res.ok (N, Grid_size, 31)
      ∧ Grid_size = -2147483647 ∧ Grid_size ≠ 2 ^ 31 + 1
      ∧ N = 18446744071562067969 ∧ N ≠ 2 ^ 31 + 1
      ∧ ScanIntegrParms Real.pi Real.cos Real.arccos
          ⟨some 0, some 360, some 1, some 31, some 0, some "false", some "false"⟩ false
        = Res.error "Could not malloc a->val" := by
  have hscan := ScanIntegrParms_scan_read (0 : ℝ) 360 1 31 0 "false" "false"
    (by decide) (by decide)
  rw [if_neg (by decide), if_neg (by decide)] at hscan
  have hfill := ScanIntegrParms_fill_Jmax31 (0 : ℝ) 360 1 0 false (by norm_num)
    (by norm_num) (by norm_num) (le_refl 0)
  refine ⟨18446744071562067969, -2147483647, ?_, ?_, rfl, by decide, rfl, by decide, ?_⟩
  · rw [hscan]
    simp
  · simpa using hfill
  · exact ScanIntegrParms_Jmax31_error Real.pi Real.cos Real.arccos 0 360 1 0 "false" "false"
      false (Or.inr rfl) (Or.inr rfl) (by norm_num) (by norm_num) (by norm_num) (le_refl 0)

/-- C5 at the failing input, and what holds instead: a block with `min = 0`, `max = 360`,
`Jmin = 1`, `Jmax = 31`, `eps = 0` meets none of the listed conditions, and yet
`ScanIntegrParms` stops with an error, that of the allocation of `a->val`: the guard
`Jmax >= 32` lets `Jmax = 31` through.  For every block whose seven keys were read and
whose `min` differs from `max` the error is reported if and only if one of the listed
conditions holds or `Jmax = 31`, and otherwise `ScanIntegrParms` returns; when `min = max`
none of the `Jmin`, `Jmax`, `eps` checks is applied and `Jmax` is overwritten with 1. -/
theorem ScanIntegrParms_validation_Jmax31 {K : Type} [LinearOrderedField K] (PI : K)
    (cos acos : K → K) :
    (ScanIntegrParms PI cos acos
          ⟨some 0, some 360, some 1, some 31, some 0, some "false", some "false"⟩ false
        = Res.error "Could not malloc a->val"
      ∧ ¬ ((0 : K) > 360 ∨ (31 : Int) < 1 ∨ (1 : Int) < 1 ∨ (0 : K) < 0 ∨ (31 : Int) ≥ 32
            ∨ ("false" ≠ "true" ∧ "false" ≠ "false")
            ∨ ("false" ≠ "true" ∧ "false" ≠ "false")
            ∨ (false = true ∧ ((0 : K) < 0 ∨ (360 : K) > 180))))
    ∧ ∀ (amin amax : K) (Jmin Jmax : Int) (eps : K) (equiv periodic : String) (ifcos : Bool),
        (INT_MIN ≤ Jmin ∧ Jmin ≤ INT_MAX) → (INT_MIN ≤ Jmax ∧ Jmax ≤ INT_MAX) →
        (amin ≠ amax →
          (((ScanIntegrParms PI cos acos
                ⟨some amin, some amax, some Jmin, some Jmax, some eps, some equiv,
                  some periodic⟩ ifcos).isError = true
            ↔ (amin > amax ∨ Jmax < Jmin ∨ Jmin < 1 ∨ eps < 0 ∨ Jmax ≥ 32
                ∨ (equiv ≠ "true" ∧ equiv ≠ "false")
                ∨ (periodic ≠ "true" ∧ periodic ≠ "false")
                ∨ (ifcos = true ∧ (amin < 0 ∨ amax > 180))
                ∨ Jmax = 31))
           ∧ ((ScanIntegrParms PI cos acos
                ⟨some amin, some amax, some Jmin, some Jmax, some eps, some equiv,
                  some periodic⟩ ifcos).isError = false →
              ∃ a b, ScanIntegrParms PI cos acos
                ⟨some amin, some amax, some Jmin, some Jmax, some eps, some equiv,
                  some periodic⟩ ifcos = Res.ok (a, b))))
        ∧ (amin = amax →
          (((ScanIntegrParms PI cos acos
                ⟨some amin, some amax, some Jmin, some Jmax, some eps, some equiv,
                  some periodic⟩ ifcos).isError = true
            ↔ ((equiv ≠ "true" ∧ equiv ≠ "false")
                ∨ (periodic ≠ "true" ∧ periodic ≠ "false")
                ∨ (ifcos = true ∧ (amin < 0 ∨ amax > 180))))
           ∧ ((ScanIntegrParms PI cos acos
                ⟨some amin, some amax, some Jmin, some Jmax, some eps, some equiv,
                  some periodic⟩ ifcos).isError = false →
              ∃ a b, ScanIntegrParms PI cos acos
                ⟨some amin, some amax, some Jmin, some Jmax, some eps, some equiv,
                  some periodic⟩ ifcos = Res.ok (a, b)
                ∧ b.Jmax = 1 ∧ a.N = 1 ∧ b.Grid_size = 1))) := by
  refine ⟨⟨?_, ?_⟩, fun amin amax Jmin Jmax eps equiv periodic ifcos hJmin hJmax =>
    ScanIntegrParms_isError_iff PI cos acos amin amax Jmin Jmax eps equiv periodic ifcos
      hJmin hJmax⟩
  · exact ScanIntegrParms_Jmax31_error PI cos acos 0 360 1 0 "false" "false" false
      (Or.inr rfl) (Or.inr rfl) (by norm_num) (by norm_num) (by norm_num) (le_refl 0)
  · norm_num

/-- C7: for every real unit vector `prop_0`, the vectors `incPolX_0` and `incPolY_0` that
`VariablesInterconnect` computes are, in exact real arithmetic, of unit length, orthogonal
to each other and to `prop_0`, and right-handed: `incPolX_0 x incPolY_0 = prop_0`. -/
theorem VariablesInterconnect_incPol_orthonormal (prop_0 : Nat → ℝ)
    (hunit : DotProd prop_0 prop_0 = 1) :
    DotProd (VariablesInterconnect_incPol Real.sqrt prop_0).1
        (VariablesInterconnect_incPol Real.sqrt prop_0).1 = 1
    ∧ DotProd (VariablesInterconnect_incPol Real.sqrt prop_0).2
        (VariablesInterconnect_incPol Real.sqrt prop_0).2 = 1
    ∧ DotProd (VariablesInterconnect_incPol Real.sqrt prop_0).1
        (VariablesInterconnect_incPol Real.sqrt prop_0).2 = 0
    ∧ DotProd (VariablesInterconnect_incPol Real.sqrt prop_0).1 prop_0 = 0
    ∧ DotProd (VariablesInterconnect_incPol Real.sqrt prop_0).2 prop_0 = 0
    ∧ (VariablesInterconnect_incPol Real.sqrt prop_0).1 1
          * (VariablesInterconnect_incPol Real.sqrt prop_0).2 2
        - (VariablesInterconnect_incPol Real.sqrt prop_0).1 2
          * (VariablesInterconnect_incPol Real.sqrt prop_0).2 1 = prop_0 0
    ∧ (VariablesInterconnect_incPol Real.sqrt prop_0).1 2
          * (VariablesInterconnect_incPol Real.sqrt prop_0).2 0
        - (VariablesInterconnect_incPol Real.sqrt prop_0).1 0
          * (VariablesInterconnect_incPol Real.sqrt prop_0).2 2 = prop_0 1
    ∧ (VariablesInterconnect_incPol Real.sqrt prop_0).1 0
          * (VariablesInterconnect_incPol Real.sqrt prop_0).2 1
        - (VariablesInterconnect_incPol Real.sqrt prop_0).1 1
          * (VariablesInterconnect_incPol Real.sqrt prop_0).2 0 = prop_0 2 := by
  have hu : prop_0 0 * prop_0 0 + prop_0 1 * prop_0 1 + prop_0 2 * prop_0 2 = 1 := hunit
  by_cases hz : |prop_0 2| ≥ 1
  · have hsq : 1 ≤ prop_0 2 * prop_0 2 := by
      have := (one_le_sq_iff_one_le_abs (prop_0 2)).mpr hz
      nlinarith [this]
    have hx : prop_0 0 = 0 := by nlinarith [mul_self_nonneg (prop_0 0), mul_self_nonneg (prop_0 1)]
    have hy : prop_0 1 = 0 := by nlinarith [mul_self_nonneg (prop_0 0), mul_self_nonneg (prop_0 1)]
    have hzz : prop_0 2 * prop_0 2 = 1 := by nlinarith
    simp only [VariablesInterconnect_incPol, if_pos hz, DotProd, vec3, hx, hy]
    refine ⟨?_, ?_, ?_, ?_, ?_, ?_, ?_, ?_⟩ <;> linarith
  · have hlt : |prop_0 2| < 1 := not_le.mp hz
    have hsq : prop_0 2 * prop_0 2 < 1 := by
      have := abs_lt.mp hlt
      nlinarith [this.1, this.2]
    have ht : 0 < Real.sqrt (1 - prop_0 2 * prop_0 2) := Real.sqrt_pos.mpr (by linarith)
    have ht2 : Real.sqrt (1 - prop_0 2 * prop_0 2) * Real.sqrt (1 - prop_0 2 * prop_0 2)
        = 1 - prop_0 2 * prop_0 2 := Real.mul_self_sqrt (by linarith)
    obtain ⟨t, htdef⟩ : ∃ t, t = Real.sqrt (1 - prop_0 2 * prop_0 2) := ⟨_, rfl⟩
    rw [← htdef] at ht ht2
    have htne : t ≠ 0 := ne_of_gt ht
    simp only [VariablesInterconnect_incPol, if_neg hz, VariablesInterconnect_temp, DotProd,
      vec3, ← htdef]
    refine ⟨?_, ?_, ?_, ?_, ?_, ?_, ?_, ?_⟩
    all_goals field_simp
    all_goals first
      | ring1
      | linear_combination hu - ht2
      | linear_combination ht2 - hu
      | linear_combination ht2
      | linear_combination hu
      | linear_combination (prop_0 2) * hu - (prop_0 2) * ht2
      | linear_combination (prop_0 2) * ht2 - (prop_0 2) * hu
      | linear_combination (prop_0 2) ^ 2 * hu + (t ^ 2 - (prop_0 2) ^ 2) * ht2

/-- Witness of C7: the unit vector `prop_0 = (3/5, 0, 4/5)`. -/
theorem VariablesInterconnect_incPol_orthonormal_witness :
    DotProd (vec3 (3 / 5 : ℝ) 0 (4 / 5)) (vec3 (3 / 5 : ℝ) 0 (4 / 5)) = 1
    ∧ DotProd (VariablesInterconnect_incPol Real.sqrt (vec3 (3 / 5 : ℝ) 0 (4 / 5))).1
        (VariablesInterconnect_incPol Real.sqrt (vec3 (3 / 5 : ℝ) 0 (4 / 5))).2 = 0
    ∧ DotProd (VariablesInterconnect_incPol Real.sqrt (vec3 (3 / 5 : ℝ) 0 (4 / 5))).1
        (vec3 (3 / 5 : ℝ) 0 (4 / 5)) = 0 :=
  have h : DotProd (vec3 (3 / 5 : ℝ) 0 (4 / 5)) (vec3 (3 / 5 : ℝ) 0 (4 / 5)) = 1 := by
    norm_num [DotProd, vec3]
  ⟨h, (VariablesInterconnect_incPol_orthonormal _ h).2.2.1,
    (VariablesInterconnect_incPol_orthonormal _ h).2.2.2.1⟩

section RotationProofs
variable {K : Type} [LinearOrderedField K]

/-- The matrix `beta_matr` as a 3x3 matrix. -/
theorem beta_matr_eq_mul (ca sa cb sb cg sg : K) :
    (Matrix.of fun i j : Fin 3 => beta_matr ca sa cb sb cg sg i j)
      = !![cg, sg, 0; -sg, cg, 0; 0, 0, 1] * !![cb, 0, -sb; 0, 1, 0; sb, 0, cb]
          * !![ca, sa, 0; -sa, ca, 0; 0, 0, 1] := by
  ext i j
  fin_cases i <;> fin_cases j <;>
    simp [beta_matr, Matrix.mul_apply, Fin.sum_univ_three] <;> ring

theorem rotZ_transpose (c s : K) :
    (!![c, s, 0; -s, c, 0; 0, 0, 1]).transpose = !![c, -s, 0; s, c, 0; 0, 0, 1] := by
  ext i j
  fin_cases i <;> fin_cases j <;> rfl

theorem rotY_transpose (c s : K) :
    (!![c, 0, -s; 0, 1, 0; s, 0, c]).transpose = !![c, 0, s; 0, 1, 0; -s, 0, c] := by
  ext i j
  fin_cases i <;> fin_cases j <;> rfl

theorem rotZ_orth (c s : K) (h : c * c + s * s = 1) :
    !![c, s, 0; -s, c, 0; 0, 0, 1] * (!![c, s, 0; -s, c, 0; 0, 0, 1]).transpose = 1 := by
  rw [rotZ_transpose]
  ext i j
  fin_cases i <;> fin_cases j <;>
    simp [Matrix.mul_apply, Fin.sum_univ_three, Matrix.one_apply] <;>
    first | ring1 | linear_combination h

theorem rotY_orth (c s : K) (h : c * c + s * s = 1) :
    !![c, 0, -s; 0, 1, 0; s, 0, c] * (!![c, 0, -s; 0, 1, 0; s, 0, c]).transpose = 1 := by
  rw [rotY_transpose]
  ext i j
  fin_cases i <;> fin_cases j <;>
    simp [Matrix.mul_apply, Fin.sum_univ_three, Matrix.one_apply] <;>
    first | ring1 | linear_combination h

theorem rotZ_det (c s : K) (h : c * c + s * s = 1) :
    (!![c, s, 0; -s, c, 0; 0, 0, 1]).det = 1 := by
  rw [Matrix.det_fin_three]
  simp
  linear_combination h

theorem rotY_det (c s : K) (h : c * c + s * s = 1) :
    (!![c, 0, -s; 0, 1, 0; s, 0, c]).det = 1 := by
  rw [Matrix.det_fin_three]
  simp
  linear_combination h

theorem beta_matr_orth (ca sa cb sb cg sg : K) (ha : ca * ca + sa * sa = 1)
    (hb : cb * cb + sb * sb = 1) (hg : cg * cg + sg * sg = 1) :
    (Matrix.of fun i j : Fin 3 => beta_matr ca sa cb sb cg sg i j)
      * (Matrix.of fun i j : Fin 3 => beta_matr ca sa cb sb cg sg i j).transpose = 1 := by
  rw [beta_matr_eq_mul]
  calc !![cg, sg, 0; -sg, cg, 0; 0, 0, 1] * !![cb, 0, -sb; 0, 1, 0; sb, 0, cb]
          * !![ca, sa, 0; -sa, ca, 0; 0, 0, 1]
          * (!![cg, sg, 0; -sg, cg, 0; 0, 0, 1] * !![cb, 0, -sb; 0, 1, 0; sb, 0, cb]
              * !![ca, sa, 0; -sa, ca, 0; 0, 0, 1]).transpose
      = !![cg, sg, 0; -sg, cg, 0; 0, 0, 1]
          * (!![cb, 0, -sb; 0, 1, 0; sb, 0, cb]
            * (!![ca, sa, 0; -sa, ca, 0; 0, 0, 1]
                * (!![ca, sa, 0; -sa, ca, 0; 0, 0, 1]).transpose)
            * (!![cb, 0, -sb; 0, 1, 0; sb, 0, cb]).transpose)
          * (!![cg, sg, 0; -sg, cg, 0; 0, 0, 1]).transpose := by
        simp only [Matrix.transpose_mul, Matrix.mul_assoc]
    _ = 1 := by
        rw [rotZ_orth ca sa ha, Matrix.mul_one, rotY_orth cb sb hb, Matrix.mul_one,
          rotZ_orth cg sg hg]

theorem beta_matr_det (ca sa cb sb cg sg : K) (ha : ca * ca + sa * sa = 1)
    (hb : cb * cb + sb * sb = 1) (hg : cg * cg + sg * sg = 1) :
    (Matrix.of fun i j : Fin 3 => beta_matr ca sa cb sb cg sg i j).det = 1 := by
  rw [beta_matr_eq_mul, Matrix.det_mul, Matrix.det_mul, rotZ_det cg sg hg, rotY_det cb sb hb,
    rotZ_det ca sa ha]
  norm_num

theorem beta_matr_dot (ca sa cb sb cg sg : K) (ha : ca * ca + sa * sa = 1)
    (hb : cb * cb + sb * sb = 1) (hg : cg * cg + sg * sg = 1) (u v : Nat → K) :
    DotProd (MatrVec (beta_matr ca sa cb sb cg sg) u) (MatrVec (beta_matr ca sa cb sb cg sg) v)
      = DotProd u v := by
  have h := Matrix.mul_eq_one_comm.mp (beta_matr_orth ca sa cb sb cg sg ha hb hg)
  have e00 := congrFun (congrFun h 0) 0
  have e01 := congrFun (congrFun h 0) 1
  have e02 := congrFun (congrFun h 0) 2
  have e11 := congrFun (congrFun h 1) 1
  have e12 := congrFun (congrFun h 1) 2
  have e22 := congrFun (congrFun h 2) 2
  simp [Matrix.mul_apply, Fin.sum_univ_three, beta_matr] at e00 e01 e02 e11 e12 e22
  simp only [DotProd, MatrVec, beta_matr]
  linear_combination (u 0 * v 0) * e00 + (u 0 * v 1 + u 1 * v 0) * e01
    + (u 0 * v 2 + u 2 * v 0) * e02 + (u 1 * v 1) * e11
    + (u 1 * v 2 + u 2 * v 1) * e12 + (u 2 * v 2) * e22

end RotationProofs

/-- C8: the matrix `beta_matr` that `InitRotation` builds is a proper rotation for all
angles: from `cos^2 + sin^2 = 1` for each angle alone, `beta_matr * beta_matr^T = I` and
`det(beta_matr) = 1`, and the matrix keeps dot products, so the rotated `prop`, `incPolX`,
`incPolY` have the dot products of `prop_0`, `incPolX_0`, `incPolY_0`; for
`alpha = beta = gamma = 0` the matrix is the identity and `prop = prop_0`,
`incPolX = incPolX_0`, `incPolY = incPolY_0`. -/
theorem InitRotation_proper_rotation (ca sa cb sb cg sg : ℝ)
    (ha : ca ^ 2 + sa ^ 2 = 1) (hb : cb ^ 2 + sb ^ 2 = 1) (hg : cg ^ 2 + sg ^ 2 = 1)
    (alph_deg bet_deg gam_deg : ℝ) (prop_0 incPolX_0 incPolY_0 : Nat → ℝ)
    (beam_asym : Bool) (beam_center_0 beam_center : Nat → ℝ) :
    (Matrix.of fun i j : Fin 3 => beta_matr ca sa cb sb cg sg i j)
        * (Matrix.of fun i j : Fin 3 => beta_matr ca sa cb sb cg sg i j).transpose = 1
    ∧ (Matrix.of fun i j : Fin 3 => beta_matr ca sa cb sb cg sg i j).det = 1
    ∧ (∀ u v : Nat → ℝ,
        DotProd (MatrVec (beta_matr ca sa cb sb cg sg) u)
            (MatrVec (beta_matr ca sa cb sb cg sg) v) = DotProd u v)
    ∧ (∃ R : Rotated ℝ,
        R = InitRotation Real.pi Real.cos Real.sin alph_deg bet_deg gam_deg
              prop_0 incPolX_0 incPolY_0 beam_asym beam_center_0 beam_center
        ∧ DotProd R.prop R.prop = DotProd prop_0 prop_0
        ∧ DotProd R.incPolX R.incPolX = DotProd incPolX_0 incPolX_0
        ∧ DotProd R.incPolY R.incPolY = DotProd incPolY_0 incPolY_0
        ∧ DotProd R.prop R.incPolX = DotProd prop_0 incPolX_0
        ∧ DotProd R.prop R.incPolY = DotProd prop_0 incPolY_0
        ∧ DotProd R.incPolX R.incPolY = DotProd incPolX_0 incPolY_0)
    ∧ (Matrix.of fun i j : Fin 3 =>
          beta_matr (Real.cos (Deg2Rad Real.pi 0)) (Real.sin (Deg2Rad Real.pi 0))
            (Real.cos (Deg2Rad Real.pi 0)) (Real.sin (Deg2Rad Real.pi 0))
            (Real.cos (Deg2Rad Real.pi 0)) (Real.sin (Deg2Rad Real.pi 0)) i j) = 1
    ∧ (∃ R0 : Rotated ℝ,
        R0 = InitRotation Real.pi Real.cos Real.sin 0 0 0
              prop_0 incPolX_0 incPolY_0 beam_asym beam_center_0 beam_center
        ∧ R0.prop 0 = prop_0 0 ∧ R0.prop 1 = prop_0 1 ∧ R0.prop 2 = prop_0 2
        ∧ R0.incPolX 0 = incPolX_0 0 ∧ R0.incPolX 1 = incPolX_0 1
        ∧ R0.incPolX 2 = incPolX_0 2
        ∧ R0.incPolY 0 = incPolY_0 0 ∧ R0.incPolY 1 = incPolY_0 1
        ∧ R0.incPolY 2 = incPolY_0 2) := by
  have ha2 : ca * ca + sa * sa = 1 := by linear_combination ha
  have hb2 : cb * cb + sb * sb = 1 := by linear_combination hb
  have hg2 : cg * cg + sg * sg = 1 := by linear_combination hg
  have hcs : ∀ x : ℝ, Real.cos x * Real.cos x + Real.sin x * Real.sin x = 1 := by
    intro x
    linear_combination Real.cos_sq_add_sin_sq x
  refine ⟨beta_matr_orth ca sa cb sb cg sg ha2 hb2 hg2,
    beta_matr_det ca sa cb sb cg sg ha2 hb2 hg2,
    beta_matr_dot ca sa cb sb cg sg ha2 hb2 hg2, ⟨_, rfl, ?_⟩, ?_, ⟨_, rfl, ?_⟩⟩
  · simp only [InitRotation]
    exact ⟨beta_matr_dot _ _ _ _ _ _ (hcs _) (hcs _) (hcs _) _ _,
      beta_matr_dot _ _ _ _ _ _ (hcs _) (hcs _) (hcs _) _ _,
      beta_matr_dot _ _ _ _ _ _ (hcs _) (hcs _) (hcs _) _ _,
      beta_matr_dot _ _ _ _ _ _ (hcs _) (hcs _) (hcs _) _ _,
      beta_matr_dot _ _ _ _ _ _ (hcs _) (hcs _) (hcs _) _ _,
      beta_matr_dot _ _ _ _ _ _ (hcs _) (hcs _) (hcs _) _ _⟩
  · ext i j
    fin_cases i <;> fin_cases j <;> simp [beta_matr, Deg2Rad]
  · simp [InitRotation, Deg2Rad, beta_matr, MatrVec]

/-- Witness of C8: the cosines and sines `(3/5, 4/5)`, `(1, 0)`, `(0, 1)`. -/
theorem InitRotation_proper_rotation_witness :
    ((3 / 5 : ℝ) ^ 2 + (4 / 5) ^ 2 = 1 ∧ (1 : ℝ) ^ 2 + 0 ^ 2 = 1 ∧ (0 : ℝ) ^ 2 + 1 ^ 2 = 1)
    ∧ (Matrix.of fun i j : Fin 3 => beta_matr (3 / 5 : ℝ) (4 / 5) 1 0 0 1 i j).det = 1 :=
  have h1 : (3 / 5 : ℝ) ^ 2 + (4 / 5) ^ 2 = 1 := by norm_num
  have h2 : (1 : ℝ) ^ 2 + 0 ^ 2 = 1 := by norm_num
  have h3 : (0 : ℝ) ^ 2 + 1 ^ 2 = 1 := by norm_num
  ⟨⟨h1, h2, h3⟩,
    (InitRotation_proper_rotation (3 / 5) (4 / 5) 1 0 0 1 h1 h2 h3 0 0 0
      (vec3 0 0 1) (vec3 1 0 0) (vec3 0 1 0) false (fun _ => 0) (fun _ => 0)).2.1⟩

theorem VariablesInterconnect_flags_frame {K : Type} (v : Vars K) :
    (VariablesInterconnect_flags v).IntRelation = v.IntRelation
    ∧ (VariablesInterconnect_flags v).reduced_FFT
        = (if v.IntRelation = IntRel.G_SO then false else v.reduced_FFT)
    ∧ (VariablesInterconnect_flags v).orient_avg = v.orient_avg
    ∧ (VariablesInterconnect_flags v).NoSymmetry = v.NoSymmetry
    ∧ (VariablesInterconnect_flags v).avg_inc_pol = v.avg_inc_pol
    ∧ (VariablesInterconnect_flags v).symmetry_enforced = v.symmetry_enforced
    ∧ (VariablesInterconnect_flags v).prop_0 = v.prop_0
    ∧ (VariablesInterconnect_flags v).alph_deg = v.alph_deg
    ∧ (VariablesInterconnect_flags v).bet_deg = v.bet_deg
    ∧ (VariablesInterconnect_flags v).gam_deg = v.gam_deg
    ∧ (VariablesInterconnect_flags v).avg_parms = v.avg_parms := by
  unfold VariablesInterconnect_flags
  by_cases h1 : v.IntRelation = IntRel.G_SO <;> simp only [h1, if_true, if_false] <;>
    split_ifs <;> simp_all

theorem VariablesInterconnect_beforeBeam_frame {K : Type} [LinearOrderedField K] (PI : K)
    (sqrt : K → K) (v : Vars K) :
    (VariablesInterconnect_beforeBeam PI sqrt v).IntRelation = v.IntRelation
    ∧ (VariablesInterconnect_beforeBeam PI sqrt v).reduced_FFT
        = (if v.IntRelation = IntRel.G_SO then false else v.reduced_FFT)
    ∧ (VariablesInterconnect_beforeBeam PI sqrt v).orient_avg = v.orient_avg
    ∧ (VariablesInterconnect_beforeBeam PI sqrt v).NoSymmetry = v.NoSymmetry
    ∧ (VariablesInterconnect_beforeBeam PI sqrt v).avg_inc_pol = v.avg_inc_pol
    ∧ (VariablesInterconnect_beforeBeam PI sqrt v).symmetry_enforced = v.symmetry_enforced
    ∧ (VariablesInterconnect_beforeBeam PI sqrt v).prop_0 = v.prop_0
    ∧ (VariablesInterconnect_beforeBeam PI sqrt v).alph_deg = v.alph_deg
    ∧ (VariablesInterconnect_beforeBeam PI sqrt v).bet_deg = v.bet_deg
    ∧ (VariablesInterconnect_beforeBeam PI sqrt v).gam_deg = v.gam_deg
    ∧ (VariablesInterconnect_beforeBeam PI sqrt v).avg_parms = v.avg_parms
    ∧ (VariablesInterconnect_beforeBeam PI sqrt v).incPolX_0
        = (VariablesInterconnect_incPol sqrt v.prop_0).1
    ∧ (VariablesInterconnect_beforeBeam PI sqrt v).incPolY_0
        = (VariablesInterconnect_incPol sqrt v.prop_0).2 := by
  obtain ⟨f1, f2, f3, f4, f5, f6, f7, f8, f9, f10, f11⟩ :=
    VariablesInterconnect_flags_frame { v with WaveNum := 2 * PI / v.lambda }
  simp only [VariablesInterconnect_beforeBeam]
  exact ⟨f1, f2, f3, f4, f5, f6, f7, f8, f9, f10, f11, by rw [f7], by rw [f7]⟩

/-- What a successful run of `VariablesInterconnect` went through. -/
theorem VariablesInterconnect_eq_ok {K : Type} [LinearOrderedField K] (PI : K)
    (sqrt cos sin acos : K → K) (InitBeam : Vars K → Res (BeamVars K))
    (files : String → Option (AvgFile K)) (v0 v : Vars K)
    (h : VariablesInterconnect PI sqrt cos sin acos InitBeam files v0 = Res.ok v) :
    ¬ (v0.prop_0 2 ≠ (1 : K) ∧ v0.orient_avg = true)
    ∧ ¬ (v0.chp_time = UNDEF ∧ v0.chp_type ≠ ChpType.CHP_NONE
          ∧ v0.chp_type ≠ ChpType.CHP_ALWAYS)
    ∧ ∃ bv, InitBeam (VariablesInterconnect_beforeBeam PI sqrt v0) = Res.ok bv
        ∧ VariablesInterconnect_orient PI cos sin acos files
            { VariablesInterconnect_beforeBeam PI sqrt v0 with
                beam_asym := bv.beam_asym, beam_center_0 := bv.beam_center_0,
                beam_center := bv.beam_center } = Res.ok v := by
  unfold VariablesInterconnect at h
  by_cases c1 : v0.prop_0 2 ≠ (1 : K) ∧ v0.orient_avg = true
  · rw [if_pos c1] at h
    exact absurd h (by simp)
  rw [if_neg c1] at h
  by_cases c2 : v0.chp_time = UNDEF ∧ v0.chp_type ≠ ChpType.CHP_NONE
      ∧ v0.chp_type ≠ ChpType.CHP_ALWAYS
  · rw [if_pos c2] at h
    exact absurd h (by simp)
  rw [if_neg c2] at h
  exact ⟨c1, c2, Res.bind_eq_ok _ _ _ h⟩

/-- What the end of `VariablesInterconnect` leaves when it returns. -/
theorem VariablesInterconnect_orient_eq_ok {K : Type} [LinearOrderedField K] (PI : K)
    (cos sin acos : K → K) (files : String → Option (AvgFile K)) (v7 v : Vars K)
    (h : VariablesInterconnect_orient PI cos sin acos files v7 = Res.ok v) :
    v.IntRelation = v7.IntRelation ∧ v.reduced_FFT = v7.reduced_FFT
    ∧ v.symmetry_enforced = v7.symmetry_enforced
    ∧ v.incPolX_0 = v7.incPolX_0 ∧ v.incPolY_0 = v7.incPolY_0
    ∧ (v7.orient_avg = true → v.NoSymmetry = true ∧ v.avg_inc_pol = true)
    ∧ (v7.orient_avg = false →
        v.prop = (InitRotation PI cos sin v7.alph_deg v7.bet_deg v7.gam_deg v7.prop_0
            v7.incPolX_0 v7.incPolY_0 v7.beam_asym v7.beam_center_0 v7.beam_center).prop
        ∧ (v.prop 2 ≠ 1 → v.NoSymmetry = true)
        ∧ (v.prop 2 = 1 → v.NoSymmetry = v7.NoSymmetry)) := by
  unfold VariablesInterconnect_orient at h
  by_cases ho : v7.orient_avg = true
  · rw [if_pos ho] at h
    obtain ⟨a, _, ha⟩ := Res.bind_eq_ok _ _ _ h
    simp only [Res.ok.injEq] at ha
    subst ha
    simp [ho]
  · rw [if_neg ho] at h
    have ho2 : v7.orient_avg = false := by simpa using ho
    simp only [] at h
    split_ifs at h with hp
    · simp only [Res.ok.injEq] at h
      subst h
      simp [ho2]
      exact fun hc => absurd hc hp
    · simp only [Res.ok.injEq] at h
      subst h
      simp [ho2]
      exact fun hc => absurd (not_not.mp hp) hc

/-- A block that passes the checks with `Jmax <= 30` is read, with `Grid_size = 2^Jmax + 1`
and `N = 2^Jmax` (`equiv=true`) or `N = 2^Jmax + 1` (`equiv=false`), whatever `periodic`
is. -/
theorem ScanIntegrParms_ok_of_valid {K : Type} [LinearOrderedField K] (PI : K)
    (cos acos : K → K) (amin amax : K) (Jmin Jmax : Int) (eps : K)
    (equiv periodic : String) (ifcos : Bool)
    (he : equiv = "true" ∨ equiv = "false") (hp : periodic = "true" ∨ periodic = "false")
    (h1 : amin < amax) (h2 : Jmin ≤ Jmax) (h3 : 1 ≤ Jmin) (h4 : 0 ≤ eps) (h5 : Jmax ≤ 30)
    (hcos : ifcos = true → 0 ≤ amin ∧ amax ≤ 180) :
    ∃ a b, ScanIntegrParms PI cos acos
          ⟨some amin, some amax, some Jmin, some Jmax, some eps, some equiv, some periodic⟩
          ifcos = Res.ok (a, b)
      ∧ a.N = (if equiv = "true" then 2 ^ Jmax.toNat else 2 ^ Jmax.toNat + 1)
      ∧ b.Grid_size = 2 ^ Jmax.toNat + 1 ∧ b.Jmax = Jmax := by
  have hJmin : INT_MIN ≤ Jmin ∧ Jmin ≤ INT_MAX := by
    unfold INT_MIN INT_MAX
    omega
  have hJmax : INT_MIN ≤ Jmax ∧ Jmax ≤ INT_MAX := by
    unfold INT_MIN INT_MAX
    omega
  have hscan := ScanIntegrParms_scan_read amin amax Jmin Jmax eps equiv periodic hJmin hJmax
  rw [if_neg (fun hc => by rcases he with h | h <;> simp [h] at hc),
    if_neg (fun hc => by rcases hp with h | h <;> simp [h] at hc)] at hscan
  have hfill := ScanIntegrParms_fill_of_le_30 amin amax Jmin Jmax eps
    (decide (equiv = "true")) h1 h2 h3 h4 h5
  have hm := ScanIntegrParms_malloc_le_30 Jmax (decide (equiv = "true")) h5
  simp only [ScanIntegrParms, hscan, Res.bind_ok, hfill, hm]
  have hno : ¬ (ifcos = true ∧ (amin < 0 ∨ amax > 180)) := by
    rintro ⟨hc, hor⟩
    obtain ⟨ha, hb⟩ := hcos hc
    rcases hor with h | h
    · exact absurd h (not_lt.mpr ha)
    · exact absurd h (not_lt.mpr hb)
  obtain ⟨hq1, hq2⟩ := ScanIntegrParms_points_isError PI cos acos ifcos amin amax Jmin eps
    (decide (equiv = "true")) (decide (periodic = "true"))
    (if decide (equiv = "true") = true then 2 ^ Jmax.toNat else 2 ^ Jmax.toNat + 1)
    (2 ^ Jmax.toNat + 1) Jmax
  have hfalse : (ScanIntegrParms_points PI cos acos ifcos amin amax Jmin eps
      (decide (equiv = "true")) (decide (periodic = "true"))
      (if decide (equiv = "true") = true then 2 ^ Jmax.toNat else 2 ^ Jmax.toNat + 1)
      (2 ^ Jmax.toNat + 1) Jmax).isError = false := by
    cases hb : (ScanIntegrParms_points PI cos acos ifcos amin amax Jmin eps
      (decide (equiv = "true")) (decide (periodic = "true"))
      (if decide (equiv = "true") = true then 2 ^ Jmax.toNat else 2 ^ Jmax.toNat + 1)
      (2 ^ Jmax.toNat + 1) Jmax).isError with
    | false => rfl
    | true => exact absurd (hq1.mp hb) hno
  obtain ⟨a, b, hab, hJ, hN, hG⟩ := hq2 hfalse
  refine ⟨a, b, hab, ?_, hG, hJ⟩
  rw [hN]
  simp

/-- When the averaging file holds three blocks that `ScanIntegrParms` reads,
`ReadAvgParms` returns. -/
theorem ReadAvgParms_ok {K : Type} [LinearOrderedField K] (PI : K) (cos acos : K → K)
    (ba bb bg : IntegrBlock K) (ra rb rg : angle_set K × Parms_1D K)
    (ha : ScanIntegrParms PI cos acos ba false = Res.ok ra)
    (hb : ScanIntegrParms PI cos acos bb true = Res.ok rb)
    (hg : ScanIntegrParms PI cos acos bg false = Res.ok rg) :
    ∃ a, ReadAvgParms PI cos acos (some ⟨some ba, some bb, some bg⟩) = Res.ok a := by
  simp only [ReadAvgParms, ReadAvgParms_section, ha, hb, hg, Res.bind_ok]
  exact ⟨_, rfl⟩

/-- The end of `VariablesInterconnect` returns when (with orientation averaging) the file
of averaging parameters is read. -/
theorem VariablesInterconnect_orient_returns {K : Type} [LinearOrderedField K] (PI : K)
    (cos sin acos : K → K) (files : String → Option (AvgFile K)) (v7 : Vars K)
    (havg : v7.orient_avg = true →
      ∃ a, ReadAvgParms PI cos acos (files v7.avg_parms) = Res.ok a) :
    ∃ v, VariablesInterconnect_orient PI cos sin acos files v7 = Res.ok v := by
  unfold VariablesInterconnect_orient
  by_cases ho : v7.orient_avg = true
  · obtain ⟨a, ha⟩ := havg ho
    rw [if_pos ho, ha]
    exact ⟨_, rfl⟩
  · rw [if_neg ho]
    simp only []
    split_ifs
    · exact ⟨_, rfl⟩
    · exact ⟨_, rfl⟩

/-- When the checks pass, `InitBeam` returns and (with orientation averaging) the file of
averaging parameters is read, `VariablesInterconnect` returns. -/
theorem VariablesInterconnect_returns {K : Type} [LinearOrderedField K] (PI : K)
    (sqrt cos sin acos : K → K) (InitBeam : Vars K → Res (BeamVars K))
    (files : String → Option (AvgFile K)) (v0 : Vars K) (bv : BeamVars K)
    (c1 : ¬ (v0.prop_0 2 ≠ (1 : K) ∧ v0.orient_avg = true))
    (c2 : ¬ (v0.chp_time = UNDEF ∧ v0.chp_type ≠ ChpType.CHP_NONE
          ∧ v0.chp_type ≠ ChpType.CHP_ALWAYS))
    (hbeam : InitBeam (VariablesInterconnect_beforeBeam PI sqrt v0) = Res.ok bv)
    (havg : v0.orient_avg = true →
      ∃ a, ReadAvgParms PI cos acos (files v0.avg_parms) = Res.ok a) :
    ∃ v, VariablesInterconnect PI sqrt cos sin acos InitBeam files v0 = Res.ok v := by
  obtain ⟨_, _, f3, _, _, _, _, _, _, _, f11, _, _⟩ :=
    VariablesInterconnect_beforeBeam_frame PI sqrt v0
  unfold VariablesInterconnect
  rw [if_neg c1, if_neg c2]
  simp only [hbeam, Res.bind_ok]
  apply VariablesInterconnect_orient_returns
  intro ho
  have ho2 : (VariablesInterconnect_beforeBeam PI sqrt v0).orient_avg = true := ho
  rw [f3] at ho2
  obtain ⟨a, ha⟩ := havg ho2
  refine ⟨a, ?_⟩
  show ReadAvgParms PI cos acos (files (VariablesInterconnect_beforeBeam PI sqrt v0).avg_parms)
    = Res.ok a
  rw [f11]
  exact ha

/-- C9: after `VariablesInterconnect`, whenever the interaction prescription is second
order (`IntRelation = G_SO`) the reduced-FFT mode is off (`reduced_FFT = FALSE`), whatever
value it had after parsing; when `IntRelation = G_POINT_DIP`, `reduced_FFT` keeps the value
it had after parsing. -/
theorem VariablesInterconnect_reduced_FFT {K : Type} [LinearOrderedField K] (PI : K)
    (sqrt cos sin acos : K → K) (InitBeam : Vars K → Res (BeamVars K))
    (files : String → Option (AvgFile K)) (v0 v : Vars K)
    (h : VariablesInterconnect PI sqrt cos sin acos InitBeam files v0 = Res.ok v) :
    v.IntRelation = v0.IntRelation
    ∧ (v0.IntRelation = IntRel.G_SO → v.reduced_FFT = false)
    ∧ (v0.IntRelation = IntRel.G_POINT_DIP → v.reduced_FFT = v0.reduced_FFT) := by
  obtain ⟨_, _, bv, _, hfin⟩ :=
    VariablesInterconnect_eq_ok PI sqrt cos sin acos InitBeam files v0 v h
  obtain ⟨g1, g2, _⟩ :=
    VariablesInterconnect_orient_eq_ok PI cos sin acos files _ v hfin
  obtain ⟨f1, f2, _⟩ := VariablesInterconnect_beforeBeam_frame PI sqrt v0
  have e1 : v.IntRelation = v0.IntRelation := g1.trans f1
  have e2 : v.reduced_FFT = (if v0.IntRelation = IntRel.G_SO then false else v0.reduced_FFT) :=
    g2.trans f2
  refine ⟨e1, fun hso => ?_, fun hpd => ?_⟩
  · rw [e2, if_pos hso]
  · rw [e2, if_neg (by rw [hpd]; decide)]

/-- Witness of C9: the default variables after `-int so`, without `-no_reduced_fft`:
`reduced_FFT` is `TRUE` after parsing and `FALSE` after `VariablesInterconnect`. -/
theorem VariablesInterconnect_reduced_FFT_witness :
    ∃ v0 v, parse_int "so" (InitVariables Real.pi) = Res.ok v0
      ∧ v0.reduced_FFT = true
      ∧ VariablesInterconnect Real.pi Real.sqrt Real.cos Real.sin Real.arccos
          (fun w => Res.ok ⟨false, w.beam_center_0, w.beam_center⟩) (fun _ => none) v0
          = Res.ok v
      ∧ v.reduced_FFT = false := by
  obtain ⟨v, hv⟩ := VariablesInterconnect_returns Real.pi Real.sqrt Real.cos Real.sin
    Real.arccos (fun w => Res.ok ⟨false, w.beam_center_0, w.beam_center⟩) (fun _ => none)
    { InitVariables Real.pi with IntRelation := IntRel.G_SO }
    ⟨false, _, _⟩
    (by simp [InitVariables]) (by simp [InitVariables]) rfl (by simp [InitVariables])
  exact ⟨_, v, by simp [parse_int], rfl, hv,
    (VariablesInterconnect_reduced_FFT _ _ _ _ _ _ _ _ v hv).2.1 rfl⟩

/-- C10: with orientation averaging (`orient_avg = TRUE`), `VariablesInterconnect` leaves
`NoSymmetry = TRUE` and `avg_inc_pol = TRUE` whatever the other options are (and leaves
`symmetry_enforced` as it was); without orientation averaging `NoSymmetry` is set to
`TRUE` exactly when the third component of the rotated `prop` differs from 1, and keeps
its value otherwise. -/
theorem VariablesInterconnect_NoSymmetry {K : Type} [LinearOrderedField K] (PI : K)
    (sqrt cos sin acos : K → K) (InitBeam : Vars K → Res (BeamVars K))
    (files : String → Option (AvgFile K)) (v0 v : Vars K)
    (h : VariablesInterconnect PI sqrt cos sin acos InitBeam files v0 = Res.ok v) :
    (v0.orient_avg = true → v.NoSymmetry = true ∧ v.avg_inc_pol = true)
    ∧ (v0.orient_avg = false →
        v.prop = MatrVec (beta_matr (cos (Deg2Rad PI v0.alph_deg)) (sin (Deg2Rad PI v0.alph_deg))
            (cos (Deg2Rad PI v0.bet_deg)) (sin (Deg2Rad PI v0.bet_deg))
            (cos (Deg2Rad PI v0.gam_deg)) (sin (Deg2Rad PI v0.gam_deg))) v0.prop_0
        ∧ (v.prop 2 ≠ 1 → v.NoSymmetry = true)
        ∧ (v.prop 2 = 1 → v.NoSymmetry = v0.NoSymmetry))
    ∧ v.symmetry_enforced = v0.symmetry_enforced := by
  obtain ⟨_, _, bv, _, hfin⟩ :=
    VariablesInterconnect_eq_ok PI sqrt cos sin acos InitBeam files v0 v h
  obtain ⟨_, _, g3, _, _, g4, g5⟩ :=
    VariablesInterconnect_orient_eq_ok PI cos sin acos files _ v hfin
  obtain ⟨_, _, f3, f4, _, f6, f7, f8, f9, f10, _, _, _⟩ :=
    VariablesInterconnect_beforeBeam_frame PI sqrt v0
  refine ⟨fun ho => g4 (f3.trans ho), fun ho => ?_, g3.trans f6⟩
  obtain ⟨p1, p2, p3⟩ := g5 (f3.trans ho)
  refine ⟨?_, p2, fun hp => (p3 hp).trans f4⟩
  rw [p1]
  simp only [InitRotation, f7, f8, f9, f10]

/-- Witness of C10: the default variables after `-sym enf` and `-orient avg`, with a file
of averaging parameters that holds three valid blocks: `VariablesInterconnect` returns
with `NoSymmetry = TRUE` and `avg_inc_pol = TRUE`. -/
theorem VariablesInterconnect_NoSymmetry_witness :
    ∃ v0 v,
      ((parse_sym "enf" (InitVariables Real.pi)).bind fun w => parse_orient_avg none w)
        = Res.ok v0
      ∧ v0.symmetry_enforced = true ∧ v0.orient_avg = true ∧ v0.NoSymmetry = false
      ∧ VariablesInterconnect Real.pi Real.sqrt Real.cos Real.sin Real.arccos
          (fun w => Res.ok ⟨false, w.beam_center_0, w.beam_center⟩)
          (fun _ => some
            ⟨some ⟨some 0, some 360, some 2, some 3, some 0, some "true", some "true"⟩,
             some ⟨some 0, some 180, some 2, some 3, some 0, some "false", some "false"⟩,
             some ⟨some 0, some 360, some 2, some 3, some 0, some "true", some "true"⟩⟩)
          v0 = Res.ok v
      ∧ v.NoSymmetry = true ∧ v.avg_inc_pol = true := by
  obtain ⟨a, pa, ha, _⟩ := ScanIntegrParms_ok_of_valid Real.pi Real.cos Real.arccos
    0 360 2 3 0 "true" "true" false (Or.inl rfl) (Or.inl rfl) (by norm_num) (by norm_num)
    (by norm_num) (le_refl 0) (by norm_num) (by simp)
  obtain ⟨b, pb, hb, _⟩ := ScanIntegrParms_ok_of_valid Real.pi Real.cos Real.arccos
    0 180 2 3 0 "false" "false" true (Or.inr rfl) (Or.inr rfl) (by norm_num) (by norm_num)
    (by norm_num) (le_refl 0) (by norm_num) (fun _ => ⟨le_refl 0, le_refl 180⟩)
  obtain ⟨r, hr⟩ := ReadAvgParms_ok Real.pi Real.cos Real.arccos _ _ _ _ _ _ ha hb ha
  obtain ⟨v, hv⟩ := VariablesInterconnect_returns Real.pi Real.sqrt Real.cos Real.sin
    Real.arccos (fun w => Res.ok ⟨false, w.beam_center_0, w.beam_center⟩)
    (fun _ => some
      ⟨some ⟨some 0, some 360, some 2, some 3, some 0, some "true", some "true"⟩,
       some ⟨some 0, some 180, some 2, some 3, some 0, some "false", some "false"⟩,
       some ⟨some 0, some 360, some 2, some 3, some 0, some "true", some "true"⟩⟩)
    { InitVariables Real.pi with symmetry_enforced := true, orient_avg := true }
    ⟨false, _, _⟩
    (by simp [InitVariables, vec3]) (by simp [InitVariables]) rfl (fun _ => ⟨r, hr⟩)
  have hns := (VariablesInterconnect_NoSymmetry _ _ _ _ _ _ _ _ v hv).1 rfl
  exact ⟨_, v, by simp [parse_sym, parse_orient_avg], rfl, rfl, rfl, hv, hns.1, hns.2⟩

/-- C6: with `prop_0 = (0,0,1)`, `VariablesInterconnect` sets `incPolX_0 = (1,0,0)` and
`incPolY_0 = (0,1,0)`; for every `prop_0` with `|prop_0[2]| >= 1` the result is that of
the first branch whatever `sqrt` is (the branch that divides by `sqrt(1 - prop_0[2]^2)`
is not executed); and in the other branch the divisor is positive: no division by zero
occurs. -/
theorem VariablesInterconnect_incPol_safe (PI : ℝ) (sqrt cos sin acos : ℝ → ℝ)
    (InitBeam : Vars ℝ → Res (BeamVars ℝ)) (files : String → Option (AvgFile ℝ))
    (v0 v : Vars ℝ) (prop_0 : Nat → ℝ) :
    (VariablesInterconnect PI sqrt cos sin acos InitBeam files v0 = Res.ok v →
      v0.prop_0 = vec3 0 0 1 → v.incPolX_0 = vec3 1 0 0 ∧ v.incPolY_0 = vec3 0 1 0)
    ∧ VariablesInterconnect_incPol sqrt (vec3 0 0 1) = (vec3 1 0 0, vec3 0 1 0)
    ∧ (|prop_0 2| ≥ 1 →
        VariablesInterconnect_incPol sqrt prop_0 = (vec3 (prop_0 2) 0 0, vec3 0 1 0))
    ∧ (¬ |prop_0 2| ≥ 1 → 0 < VariablesInterconnect_temp Real.sqrt prop_0) := by
  have hpole : VariablesInterconnect_incPol sqrt (vec3 0 0 1) = (vec3 1 0 0, vec3 0 1 0) := by
    simp [VariablesInterconnect_incPol, vec3]
  refine ⟨?_, hpole, ?_, ?_⟩
  · intro h hp
    obtain ⟨_, _, bv, _, hfin⟩ :=
      VariablesInterconnect_eq_ok PI sqrt cos sin acos InitBeam files v0 v h
    obtain ⟨_, _, _, gx, gy, _⟩ :=
      VariablesInterconnect_orient_eq_ok PI cos sin acos files _ v hfin
    obtain ⟨_, _, _, _, _, _, _, _, _, _, _, fx, fy⟩ :=
      VariablesInterconnect_beforeBeam_frame PI sqrt v0
    rw [hp, hpole] at fx fy
    exact ⟨gx.trans fx, gy.trans fy⟩
  · intro h
    simp [VariablesInterconnect_incPol, h]
  · intro h
    have h1 : |prop_0 2| < 1 := not_le.mp h
    have h2 : prop_0 2 * prop_0 2 < 1 := by
      have := abs_lt.mp h1
      nlinarith [this.1, this.2]
    exact Real.sqrt_pos.mpr (by linarith)

/-- Witness of C6: with the default variables (`prop_0 = (0,0,1)`)
`VariablesInterconnect` returns with `incPolX_0 = (1,0,0)`, `incPolY_0 = (0,1,0)`;
`prop_0 = (0,0,-1)` takes the first branch, and `prop_0 = (3/5,0,4/5)` the second, with a
positive divisor. -/
theorem VariablesInterconnect_incPol_safe_witness :
    (∃ v, VariablesInterconnect Real.pi Real.sqrt Real.cos Real.sin Real.arccos
          (fun w => Res.ok ⟨false, w.beam_center_0, w.beam_center⟩) (fun _ => none)
          (InitVariables Real.pi) = Res.ok v
        ∧ v.incPolX_0 = vec3 1 0 0 ∧ v.incPolY_0 = vec3 0 1 0)
    ∧ |(vec3 (0 : ℝ) 0 (-1)) 2| ≥ 1
    ∧ VariablesInterconnect_incPol Real.sqrt (vec3 0 0 (-1)) = (vec3 (-1) 0 0, vec3 0 1 0)
    ∧ ¬ |(vec3 (3 / 5 : ℝ) 0 (4 / 5)) 2| ≥ 1
    ∧ 0 < VariablesInterconnect_temp Real.sqrt (vec3 (3 / 5 : ℝ) 0 (4 / 5)) := by
  have h1 : |(vec3 (0 : ℝ) 0 (-1)) 2| ≥ 1 := by simp [vec3]
  have h2 : ¬ |(vec3 (3 / 5 : ℝ) 0 (4 / 5)) 2| ≥ 1 := by
    simp only [vec3]
    rw [abs_of_pos (by norm_num)]
    norm_num
  obtain ⟨v, hv⟩ := VariablesInterconnect_returns Real.pi Real.sqrt Real.cos Real.sin
    Real.arccos (fun w => Res.ok ⟨false, w.beam_center_0, w.beam_center⟩) (fun _ => none)
    (InitVariables Real.pi) ⟨false, _, _⟩
    (by simp [InitVariables]) (by simp [InitVariables]) rfl (by simp [InitVariables])
  have hx := (VariablesInterconnect_incPol_safe Real.pi Real.sqrt Real.cos Real.sin
    Real.arccos (fun w => Res.ok ⟨false, w.beam_center_0, w.beam_center⟩) (fun _ => none)
    (InitVariables Real.pi) v (vec3 0 0 (-1))).1 hv rfl
  refine ⟨⟨v, hv, hx⟩, h1, ?_, h2,
    (VariablesInterconnect_incPol_safe Real.pi Real.sqrt Real.cos Real.sin
      Real.arccos (fun w => Res.ok ⟨false, w.beam_center_0, w.beam_center⟩) (fun _ => none)
      (InitVariables Real.pi) v (vec3 (3 / 5 : ℝ) 0 (4 / 5))).2.2.2 h2⟩
  have h := (VariablesInterconnect_incPol_safe Real.pi Real.sqrt Real.cos Real.sin
    Real.arccos (fun w => Res.ok ⟨false, w.beam_center_0, w.beam_center⟩) (fun _ => none)
    (InitVariables Real.pi) v (vec3 (0 : ℝ) 0 (-1))).2.2.1 h1
  simpa [vec3] using h

/-! ## Parsing functions of param.c -/

theorem ScanfError_some {α : Type} (x : α) (str : String) :
    ScanfError (some x) str = Res.ok x := rfl

theorem ScanfError_none_isError {α : Type} (str : String) :
    (ScanfError (none : Option α) str).isError = true := rfl

theorem parse_m_cycle_ok {K : Type} (sscanf_lf : String → Option K) (argv : Nat → String)
    (ref_index : Nat → doublecomplex K) (n : Nat)
    (h : ∀ j, 1 ≤ j → j ≤ 2 * n → ∃ x, sscanf_lf (argv j) = some x) :
    ∃ r, parse_m_cycle sscanf_lf argv ref_index n = Res.ok r
      ∧ ∀ i, i < n → ∃ x y, sscanf_lf (argv (2 * i + 1)) = some x
          ∧ sscanf_lf (argv (2 * i + 2)) = some y ∧ r i = ⟨x, y⟩ := by
  induction n with
  | zero => exact ⟨ref_index, rfl, fun i hi => absurd hi (Nat.not_lt_zero i)⟩
  | succ n ih =>
    obtain ⟨r, hr, hri⟩ := ih (fun j h1 h2 => h j h1 (by omega))
    obtain ⟨x, hx⟩ := h (2 * n + 1) (by omega) (by omega)
    obtain ⟨y, hy⟩ := h (2 * n + 2) (by omega) (by omega)
    refine ⟨fun k => if k = n then ⟨x, y⟩ else r k, ?_, ?_⟩
    · simp only [parse_m_cycle, hr, Res.bind_ok, hx, hy, ScanfError_some]
    · intro i hi
      by_cases hin : i = n
      · subst hin
        exact ⟨x, y, hx, hy, by simp⟩
      · obtain ⟨x1, y1, h1, h2, h3⟩ := hri i (by omega)
        exact ⟨x1, y1, h1, h2, by simp [hin, h3]⟩

theorem parse_m_cycle_error {K : Type} (sscanf_lf : String → Option K) (argv : Nat → String)
    (ref_index : Nat → doublecomplex K) (n : Nat)
    (h : ∃ j, 1 ≤ j ∧ j ≤ 2 * n ∧ sscanf_lf (argv j) = none) :
    (parse_m_cycle sscanf_lf argv ref_index n).isError = true := by
  induction n with
  | zero =>
    obtain ⟨j, h1, h2, _⟩ := h
    omega
  | succ n ih =>
    by_cases hprev : ∃ j, 1 ≤ j ∧ j ≤ 2 * n ∧ sscanf_lf (argv j) = none
    · rw [parse_m_cycle, Res.isError_bind]
      exact Or.inl (ih hprev)
    · have hall : ∀ j, 1 ≤ j → j ≤ 2 * n → ∃ x, sscanf_lf (argv j) = some x := by
        intro j h1 h2
        cases hs : sscanf_lf (argv j) with
        | none => exact absurd ⟨j, h1, h2, hs⟩ hprev
        | some x => exact ⟨x, rfl⟩
      obtain ⟨r, hr, _⟩ := parse_m_cycle_ok sscanf_lf argv ref_index n hall
      obtain ⟨j, h1, h2, h3⟩ := h
      have hj : j = 2 * n + 1 ∨ j = 2 * n + 2 := by
        by_contra hc
        exact hprev ⟨j, h1, by omega, h3⟩
      simp only [parse_m_cycle, hr, Res.bind_ok]
      rcases hj with hj | hj
      · rw [hj] at h3
        rw [h3]
        rfl
      · rw [hj] at h3
        rw [h3]
        cases sscanf_lf (argv (2 * n + 1)) <;> rfl

/-- C11: the parsing function of `-m` reports an error if and only if the number of
arguments is zero, odd, or greater than `2*MAX_NMAT = 20`, or an argument is not numeric;
otherwise it sets `Nmat = Narg/2` (so `1 <= Nmat <= 10`) and
`ref_index[i] = (argv[2i+1], argv[2i+2])` for every `i < Nmat`. -/
theorem parse_m_spec {K : Type} (sscanf_lf : String → Option K) (Narg : Nat)
    (argv : Nat → String) (ref_index : Nat → doublecomplex K) :
    2 * MAX_NMAT = 20
    ∧ ((parse_m sscanf_lf Narg argv ref_index).isError = true
        ↔ (Narg = 0 ∨ Narg % 2 = 1 ∨ Narg > 2 * MAX_NMAT
            ∨ ∃ j, 1 ≤ j ∧ j ≤ Narg ∧ sscanf_lf (argv j) = none))
    ∧ ((parse_m sscanf_lf Narg argv ref_index).isError = false →
        ∃ r, parse_m sscanf_lf Narg argv ref_index = Res.ok (Narg / 2, r)
          ∧ 1 ≤ Narg / 2 ∧ Narg / 2 ≤ 10
          ∧ ∀ i, i < Narg / 2 → ∃ x y, sscanf_lf (argv (2 * i + 1)) = some x
              ∧ sscanf_lf (argv (2 * i + 2)) = some y ∧ r i = ⟨x, y⟩) := by
  refine ⟨rfl, ?_⟩
  unfold parse_m
  by_cases c1 : Narg % 2 ≠ 0 ∨ Narg = 0
  · rw [if_pos c1]
    refine ⟨⟨fun _ => ?_, fun _ => rfl⟩, fun h => absurd h (by simp [Res.isError])⟩
    rcases c1 with h | h
    · exact Or.inr (Or.inl (by omega))
    · exact Or.inl h
  rw [if_neg c1]
  have hev : Narg % 2 = 0 ∧ Narg ≠ 0 := by omega
  by_cases c2 : Narg / 2 > MAX_NMAT
  · simp only [c2, if_true]
    refine ⟨⟨fun _ => ?_, fun _ => rfl⟩, fun h => absurd h (by simp [Res.isError])⟩
    exact Or.inr (Or.inr (Or.inl (by unfold MAX_NMAT at *; omega)))
  simp only [c2, if_false]
  have hle : Narg / 2 ≤ 10 := by unfold MAX_NMAT at c2; omega
  have h2 : 2 * (Narg / 2) = Narg := by omega
  by_cases c3 : ∃ j, 1 ≤ j ∧ j ≤ Narg ∧ sscanf_lf (argv j) = none
  · have herr := parse_m_cycle_error sscanf_lf argv ref_index (Narg / 2) (by rw [h2]; exact c3)
    have hb : ((parse_m_cycle sscanf_lf argv ref_index (Narg / 2)).bind
        fun r => Res.ok (Narg / 2, r)).isError = true :=
      (Res.isError_bind _ _).mpr (Or.inl herr)
    refine ⟨⟨fun _ => Or.inr (Or.inr (Or.inr c3)), fun _ => hb⟩, fun h => ?_⟩
    rw [hb] at h
    exact absurd h (by simp)
  · have hall : ∀ j, 1 ≤ j → j ≤ 2 * (Narg / 2) → ∃ x, sscanf_lf (argv j) = some x := by
      intro j h1 hj
      cases hs : sscanf_lf (argv j) with
      | none => exact absurd ⟨j, h1, by omega, hs⟩ c3
      | some x => exact ⟨x, rfl⟩
    obtain ⟨r, hr, hri⟩ := parse_m_cycle_ok sscanf_lf argv ref_index (Narg / 2) hall
    rw [hr]
    simp only [Res.bind_ok, Res.isError]
    refine ⟨⟨fun h => absurd h (by simp), fun h => ?_⟩, fun _ => ⟨r, rfl, by omega, hle, hri⟩⟩
    rcases h with h | h | h | h
    · exact absurd h hev.2
    · omega
    · unfold MAX_NMAT at h; omega
    · exact absurd h c3

/-- Witness of C11: `-m 1.5 0` (two numeric arguments) is accepted with `Nmat = 1` and
`ref_index[0] = (1.5, 0)`. -/
theorem parse_m_spec_witness :
    ∃ r : Nat → doublecomplex ℚ,
      parse_m (fun s => if s = "1.5" then some (3 / 2 : ℚ) else if s = "0" then some 0 else none)
        2 (fun j => if j = 1 then "1.5" else "0") (fun _ => ⟨1, 0⟩) = Res.ok (2 / 2, r)
      ∧ r 0 = ⟨3 / 2, 0⟩ := by
  obtain ⟨r, h1, _, _, h4⟩ := (parse_m_spec
    (fun s => if s = "1.5" then some (3 / 2 : ℚ) else if s = "0" then some 0 else none)
    2 (fun j => if j = 1 then "1.5" else "0") (fun _ => ⟨1, 0⟩)).2.2 (by
      simp [parse_m, parse_m_cycle, MAX_NMAT, ScanfError, Res.isError])
  obtain ⟨x, y, hx, hy, hr⟩ := h4 0 (by decide)
  refine ⟨r, h1, ?_⟩
  rw [hr]
  simp at hx hy
  rw [← hx, ← hy]

/-! ## CreateLockFile -/

theorem CreateLockFile_open_bound (open_fails : Nat → Bool) (f i s : Nat)
    (h : MAX_LOCK_WAIT_CYCLES + 1 ≤ f + i) (hi : i ≤ MAX_LOCK_WAIT_CYCLES) :
    (CreateLockFile_open open_fails f i s).result ≠ Res.undef
    ∧ (CreateLockFile_open open_fails f i s).sleeps + i ≤ s + (MAX_LOCK_WAIT_CYCLES + 1)
    ∧ (CreateLockFile_open open_fails f i s).opens ≤ MAX_LOCK_WAIT_CYCLES + 1 := by
  induction f generalizing i s with
  | zero => omega
  | succ f ih =>
    unfold CreateLockFile_open
    cases open_fails i with
    | false =>
      simp only [Bool.false_eq_true, if_false]
      exact ⟨by simp, by omega, by omega⟩
    | true =>
      simp only [if_true]
      by_cases c : i = MAX_LOCK_WAIT_CYCLES
      · rw [if_pos c]
        exact ⟨by simp, by simp only; omega, by simp only; omega⟩
      · rw [if_neg c]
        obtain ⟨h1, h2, h3⟩ := ih (i + 1) (s + 1) (by omega) (by omega)
        exact ⟨h1, by omega, h3⟩

theorem CreateLockFile_fcntl_bound (fcntl_fails : Nat → Option Bool) (f i s : Nat)
    (h : MAX_LOCK_WAIT_CYCLES + 1 ≤ f + i) (hi : i ≤ MAX_LOCK_WAIT_CYCLES) :
    (CreateLockFile_fcntl fcntl_fails f i s).1 ≠ Res.undef
    ∧ (CreateLockFile_fcntl fcntl_fails f i s).2 + i ≤ s + (MAX_LOCK_WAIT_CYCLES + 1) := by
  induction f generalizing i s with
  | zero => omega
  | succ f ih =>
    unfold CreateLockFile_fcntl
    cases fcntl_fails i with
    | none => exact ⟨by simp, by simp only; omega⟩
    | some b =>
      cases b with
      | false => exact ⟨by simp, by simp only; omega⟩
      | true =>
        simp only
        by_cases c : i = MAX_LOCK_WAIT_CYCLES
        · rw [if_pos c]
          exact ⟨by simp, by simp only; omega⟩
        · rw [if_neg c]
          obtain ⟨h1, h2⟩ := ih (i + 1) (s + 1) (by omega) (by omega)
          exact ⟨h1, by omega⟩

/-- C17: `CreateLockFile` never waits forever: whatever the attempts to create and to lock
the file give, it ends (with the file handle or an error) after at most 61 attempts to
create the file and at most 122 waits of one second.  When the lock file exists at every
attempt it stops with the error "Lock file permanently exists" after 61 waits of one
second, one wait more than `MAX_LOCK_WAIT_CYCLES = 60`. -/
theorem CreateLockFile_waits_61 :
    CreateLockFile true (fun _ => true) (fun _ => none)
      = ⟨Res.error "Lock file permanently exists", 61, 61⟩
    ∧ LOCK_WAIT = 1 ∧ MAX_LOCK_WAIT_CYCLES = 60
    ∧ ∀ (open_fails : Nat → Bool) (fcntl_fails : Nat → Option Bool),
        (CreateLockFile true open_fails fcntl_fails).result ≠ Res.undef
        ∧ (CreateLockFile true open_fails fcntl_fails).opens ≤ 61
        ∧ (CreateLockFile true open_fails fcntl_fails).sleeps ≤ 122 := by
  refine ⟨by decide, rfl, rfl, fun open_fails fcntl_fails => ?_⟩
  obtain ⟨h1, h2, h3⟩ := CreateLockFile_open_bound open_fails (MAX_LOCK_WAIT_CYCLES + 1) 0 0
    (by omega) (by omega)
  simp only [CreateLockFile, if_true]
  cases hr : (CreateLockFile_open open_fails (MAX_LOCK_WAIT_CYCLES + 1) 0 0).result with
  | ok u =>
    obtain ⟨g1, g2⟩ := CreateLockFile_fcntl_bound fcntl_fails (MAX_LOCK_WAIT_CYCLES + 1) 0
      (CreateLockFile_open open_fails (MAX_LOCK_WAIT_CYCLES + 1) 0 0).sleeps (by omega) (by omega)
    simp only [MAX_LOCK_WAIT_CYCLES] at *
    exact ⟨g1, h3, by omega⟩
  | error e =>
    simp only [MAX_LOCK_WAIT_CYCLES] at *
    exact ⟨by rw [hr]; simp, h3, by omega⟩
  | undef => exact absurd hr h1

/-! ## The option -phi_integr -/

theorem TestRange_i_eq_ok (val : Int) (name : String) (min max : Int)
    (h : min ≤ val ∧ val ≤ max) : TestRange_i val name min max = Res.ok () := by
  unfold TestRange_i
  rw [if_neg (by omega)]

theorem TestRange_i_isError (val : Int) (name : String) (min max : Int)
    (h : ¬ (min ≤ val ∧ val ≤ max)) : (TestRange_i val name min max).isError = true := by
  unfold TestRange_i
  rw [if_pos (by omega)]
  rfl

theorem parse_phi_integr_accepts {K : Type} (sscanf_d : String → Option Int) (arg : String)
    (v : Vars K) (n : Int) (h : sscanf_d arg = some n) (h1 : 1 ≤ n) (h2 : n ≤ 31) :
    parse_phi_integr sscanf_d arg v = Res.ok ({ v with phi_integr := true }, n) := by
  simp only [parse_phi_integr, h, ScanfError_some, Res.bind_ok,
    TestRange_i_eq_ok n _ 1 31 ⟨h1, h2⟩]

theorem parse_phi_integr_rejects {K : Type} (sscanf_d : String → Option Int) (arg : String)
    (v : Vars K) (h : ¬ ∃ n, sscanf_d arg = some n ∧ 1 ≤ n ∧ n ≤ 31) :
    (parse_phi_integr sscanf_d arg v).isError = true := by
  unfold parse_phi_integr
  cases hs : sscanf_d arg with
  | none => rfl
  | some n =>
    have hn : ¬ (1 ≤ n ∧ n ≤ 31) := fun hc => h ⟨n, hs, hc.1, hc.2⟩
    simp only [ScanfError_some, Res.bind_ok]
    rw [Res.isError_bind]
    exact Or.inl (TestRange_i_isError n _ 1 31 hn)

/-- C19: `-phi_integr <arg>` accepts exactly the integers 1..31 (it returns the value as the
new `phi_int_type` and sets `phi_integr`), and every other argument is an error; the
constants `PHI_UNITY`, `PHI_COS2`, `PHI_SIN2`, `PHI_COS4`, `PHI_SIN4` are the five distinct
one-bit numbers 1, 2, 4, 8, 16, their bitwise OR is 31, and every value `n` of 1..31 is the
OR of exactly one non-empty subset of them, the one of the constants whose bit is set in
`n`. -/
theorem parse_phi_integr_spec {K : Type} (sscanf_d : String → Option Int) (arg : String)
    (v : Vars K) :
    ((∃ n, sscanf_d arg = some n ∧ 1 ≤ n ∧ n ≤ 31) →
        ∃ n, sscanf_d arg = some n ∧ 1 ≤ n ∧ n ≤ 31
          ∧ parse_phi_integr sscanf_d arg v = Res.ok ({ v with phi_integr := true }, n))
    ∧ ((¬ ∃ n, sscanf_d arg = some n ∧ 1 ≤ n ∧ n ≤ 31) →
        (parse_phi_integr sscanf_d arg v).isError = true)
    ∧ [PHI_UNITY, PHI_COS2, PHI_SIN2, PHI_COS4, PHI_SIN4] = [2 ^ 0, 2 ^ 1, 2 ^ 2, 2 ^ 3, 2 ^ 4]
    ∧ [PHI_UNITY, PHI_COS2, PHI_SIN2, PHI_COS4, PHI_SIN4].Nodup
    ∧ PHI_UNITY ||| PHI_COS2 ||| PHI_SIN2 ||| PHI_COS4 ||| PHI_SIN4 = 31
    ∧ (∀ n : Nat, n < 32 → 1 ≤ n →
        (([PHI_UNITY, PHI_COS2, PHI_SIN2, PHI_COS4, PHI_SIN4].sublists).filter
          (fun l => decide (l ≠ [] ∧ l.foldr (fun a b => a ||| b) 0 = n))).length = 1)
    ∧ (∀ n : Nat, n < 32 →
        ([PHI_UNITY, PHI_COS2, PHI_SIN2, PHI_COS4, PHI_SIN4].filter
          (fun p => decide (n &&& p ≠ 0))).foldr (fun a b => a ||| b) 0 = n) := by
  refine ⟨fun h => ?_, parse_phi_integr_rejects sscanf_d arg v, by decide, by decide,
    by decide, by decide, by decide⟩
  obtain ⟨n, h0, h1, h2⟩ := h
  exact ⟨n, h0, h1, h2, parse_phi_integr_accepts sscanf_d arg v n h0 h1 h2⟩

/-- Witness of C19: `-phi_integr 5` is accepted on the default variables, with the value
5, the OR of `PHI_UNITY` and `PHI_SIN2`. -/
theorem parse_phi_integr_spec_witness :
    (∃ n, (fun s : String => if s = "5" then some (5 : Int) else none) "5" = some n
        ∧ 1 ≤ n ∧ n ≤ 31
        ∧ parse_phi_integr (fun s : String => if s = "5" then some (5 : Int) else none) "5"
            (InitVariables Real.pi)
          = Res.ok ({ InitVariables Real.pi with phi_integr := true }, n))
    ∧ PHI_UNITY ||| PHI_SIN2 = 5 :=
  ⟨(parse_phi_integr_spec (fun s : String => if s = "5" then some (5 : Int) else none) "5"
      (InitVariables Real.pi)).1 ⟨5, by simp, by decide, by decide⟩, by decide⟩

/-! ## The option -beam -/

theorem parse_beam_pars_ok {K : Type} (sscanf_lf : String → Option K) (argv : Nat → String)
    (beam_pars : Nat → K) (n : Nat)
    (h : ∀ j, j < n → ∃ x, sscanf_lf (argv (j + 2)) = some x) :
    ∃ p, parse_beam_pars sscanf_lf argv beam_pars n = Res.ok p
      ∧ ∀ j, j < n → sscanf_lf (argv (j + 2)) = some (p j) := by
  induction n with
  | zero => exact ⟨beam_pars, rfl, fun j hj => absurd hj (Nat.not_lt_zero j)⟩
  | succ n ih =>
    obtain ⟨p, hp, hpj⟩ := ih (fun j hj => h j (by omega))
    obtain ⟨x, hx⟩ := h n (by omega)
    refine ⟨fun k => if k = n then x else p k, ?_, ?_⟩
    · simp only [parse_beam_pars, hp, Res.bind_ok, hx, ScanfError_some]
    · intro j hj
      by_cases hjn : j = n
      · subst hjn
        simp [hx]
      · simp only [hjn, if_false]
        exact hpj j (by omega)

theorem parse_beam_pars_error {K : Type} (sscanf_lf : String → Option K) (argv : Nat → String)
    (beam_pars : Nat → K) (n : Nat)
    (h : ∃ j, j < n ∧ sscanf_lf (argv (j + 2)) = none) :
    (parse_beam_pars sscanf_lf argv beam_pars n).isError = true := by
  induction n with
  | zero =>
    obtain ⟨j, h1, _⟩ := h
    omega
  | succ n ih =>
    by_cases hprev : ∃ j, j < n ∧ sscanf_lf (argv (j + 2)) = none
    · rw [parse_beam_pars, Res.isError_bind]
      exact Or.inl (ih hprev)
    · have hall : ∀ j, j < n → ∃ x, sscanf_lf (argv (j + 2)) = some x := by
        intro j h1
        cases hs : sscanf_lf (argv (j + 2)) with
        | none => exact absurd ⟨j, h1, hs⟩ hprev
        | some x => exact ⟨x, rfl⟩
      obtain ⟨p, hp, _⟩ := parse_beam_pars_ok sscanf_lf argv beam_pars n hall
      obtain ⟨j, h1, h3⟩ := h
      have hj : j = n := by
        by_contra hc
        exact hprev ⟨j, by omega, h3⟩
      rw [hj] at h3
      simp only [parse_beam_pars, hp, Res.bind_ok, h3]
      rfl

theorem parse_beam_plane {K : Type} [LinearOrderedField K] (sscanf_lf : String → Option K)
    (Narg : Int) (argv : Nat → String) (b : BeamOpts K) (h : argv 1 = "plane") :
    parse_beam sscanf_lf Narg argv b
      = parse_beam_found sscanf_lf (Narg - 1) argv b ⟨"plane", 0, BeamType.B_PLANE⟩ := by
  simp [parse_beam, parse_beam_search, beam_opt, h]

theorem parse_beam_gauss {K : Type} [LinearOrderedField K] (sscanf_lf : String → Option K)
    (Narg : Int) (argv : Nat → String) (b : BeamOpts K)
    (h : argv 1 = "lminus" ∨ argv 1 = "davis3" ∨ argv 1 = "barton5") :
    ∃ o : subopt_struct, o.narg = UNDEF ∧ o.type ≠ BeamType.B_PLANE
      ∧ (argv 1 = "lminus" → o.type = BeamType.B_LMINUS)
      ∧ (argv 1 = "davis3" → o.type = BeamType.B_DAVIS3)
      ∧ (argv 1 = "barton5" → o.type = BeamType.B_BARTON5)
      ∧ parse_beam sscanf_lf Narg argv b = parse_beam_found sscanf_lf (Narg - 1) argv b o := by
  rcases h with h | h | h
  · exact ⟨⟨"lminus", -1, BeamType.B_LMINUS⟩, rfl, by decide, fun _ => rfl,
      fun h2 => by rw [h] at h2; exact absurd h2 (by decide),
      fun h2 => by rw [h] at h2; exact absurd h2 (by decide),
      by simp [parse_beam, parse_beam_search, beam_opt, h]⟩
  · exact ⟨⟨"davis3", -1, BeamType.B_DAVIS3⟩, rfl, by decide,
      fun h2 => by rw [h] at h2; exact absurd h2 (by decide), fun _ => rfl,
      fun h2 => by rw [h] at h2; exact absurd h2 (by decide),
      by simp [parse_beam, parse_beam_search, beam_opt, h]⟩
  · exact ⟨⟨"barton5", -1, BeamType.B_BARTON5⟩, rfl, by decide,
      fun h2 => by rw [h] at h2; exact absurd h2 (by decide),
      fun h2 => by rw [h] at h2; exact absurd h2 (by decide), fun _ => rfl,
      by simp [parse_beam, parse_beam_search, beam_opt, h]⟩


theorem TestPositive_eq_ok {K : Type} [LinearOrderedField K] (val : K) (name : String)
    (h : 0 < val) : TestPositive val name = Res.ok () := by
  unfold TestPositive
  rw [if_neg (not_le.mpr h)]

theorem TestPositive_isError {K : Type} [LinearOrderedField K] (val : K) (name : String)
    (h : val ≤ 0) : (TestPositive val name).isError = true := by
  unfold TestPositive
  rw [if_pos h]
  rfl

theorem parse_beam_found_gauss {K : Type} [LinearOrderedField K]
    (sscanf_lf : String → Option K) (n : Int) (argv : Nat → String) (b : BeamOpts K)
    (o : subopt_struct) (ho : o.narg = UNDEF) (hty : o.type ≠ BeamType.B_PLANE) :
    ((parse_beam_found sscanf_lf n argv b o).isError = true
      ↔ ((n ≠ 1 ∧ n ≠ 4) ∨ (∃ j : Nat, (j : Int) < n ∧ sscanf_lf (argv (j + 2)) = none)
          ∨ (∃ w, sscanf_lf (argv 2) = some w ∧ w ≤ 0)))
    ∧ ((parse_beam_found sscanf_lf n argv b o).isError = false →
        ∃ r, parse_beam_found sscanf_lf n argv b o = Res.ok r ∧ r.beamtype = o.type
          ∧ r.beam_Npars = n ∧ (n = 1 ∨ n = 4) ∧ 0 < r.beam_pars 0
          ∧ ∀ j : Nat, (j : Int) < n → sscanf_lf (argv (j + 2)) = some (r.beam_pars j)) := by
  unfold parse_beam_found
  simp only [ho, ne_eq, not_true_eq_false, false_and, if_false]
  by_cases c : n ≠ 1 ∧ n ≠ 4
  · rw [if_pos ⟨hty, c⟩]
    exact ⟨⟨fun _ => Or.inl c, fun _ => rfl⟩, fun h => absurd h (by simp [Res.isError])⟩
  rw [if_neg (fun hc => c hc.2)]
  have hn : n = 1 ∨ n = 4 := by omega
  have hpos : n > 0 := by omega
  simp only [hpos, if_true]
  by_cases c2 : ∃ j : Nat, j < n.toNat ∧ sscanf_lf (argv (j + 2)) = none
  · have herr := parse_beam_pars_error sscanf_lf argv b.beam_pars n.toNat c2
    have hb := (Res.isError_bind (parse_beam_pars sscanf_lf argv b.beam_pars n.toNat)
      (fun p => (TestPositive (p 0) "beam width").bind fun _ =>
        Res.ok ({ beamtype := o.type, beam_Npars := n, beam_pars := p } : BeamOpts K))).mpr
      (Or.inl herr)
    obtain ⟨j, hj1, hj2⟩ := c2
    refine ⟨⟨fun _ => Or.inr (Or.inl ⟨j, by omega, hj2⟩), fun _ => hb⟩, fun h => ?_⟩
    rw [hb] at h
    exact absurd h (by simp)
  · have hall : ∀ j, j < n.toNat → ∃ x, sscanf_lf (argv (j + 2)) = some x := by
      intro j h1
      cases hs : sscanf_lf (argv (j + 2)) with
      | none => exact absurd ⟨j, h1, hs⟩ c2
      | some x => exact ⟨x, rfl⟩
    obtain ⟨p, hp, hpj⟩ := parse_beam_pars_ok sscanf_lf argv b.beam_pars n.toNat hall
    rw [hp]
    simp only [Res.bind_ok]
    have hw : sscanf_lf (argv 2) = some (p 0) := hpj 0 (by omega)
    by_cases c3 : p 0 ≤ 0
    · have hb : ((TestPositive (p 0) "beam width").bind fun _ =>
          Res.ok ({ beamtype := o.type, beam_Npars := n, beam_pars := p } : BeamOpts K)).isError
          = true :=
        (Res.isError_bind _ _).mpr (Or.inl (TestPositive_isError (p 0) _ c3))
      refine ⟨⟨fun _ => Or.inr (Or.inr ⟨p 0, hw, c3⟩), fun _ => hb⟩, fun h => ?_⟩
      rw [hb] at h
      exact absurd h (by simp)
    · rw [TestPositive_eq_ok (p 0) _ (not_le.mp c3)]
      simp only [Res.bind_ok, Res.isError]
      refine ⟨⟨fun h => absurd h (by simp), fun h => ?_⟩,
        fun _ => ⟨_, rfl, rfl, rfl, hn, not_le.mp c3, fun j hj => hpj j (by omega)⟩⟩
      rcases h with h | h | h
      · exact absurd h c
      · obtain ⟨j, hj1, hj2⟩ := h
        exact absurd ⟨j, by omega, hj2⟩ c2
      · obtain ⟨w, hw1, hw2⟩ := h
        rw [hw] at hw1
        exact absurd ((Option.some.inj hw1) ▸ hw2) c3

theorem parse_beam_found_plane {K : Type} [LinearOrderedField K]
    (sscanf_lf : String → Option K) (n : Int) (argv : Nat → String) (b : BeamOpts K) :
    ((parse_beam_found sscanf_lf n argv b ⟨"plane", 0, BeamType.B_PLANE⟩).isError = true
      ↔ n ≠ 0)
    ∧ (n = 0 → parse_beam_found sscanf_lf n argv b ⟨"plane", 0, BeamType.B_PLANE⟩
        = Res.ok { b with beamtype := BeamType.B_PLANE, beam_Npars := 0 }) := by
  unfold parse_beam_found
  by_cases c : n = 0
  · subst c
    simp [UNDEF, parse_beam_pars, Res.isError]
  · simp [UNDEF, c, Res.isError]

/-- C20, counterexample: `-beam lminus 2`, with one numeric argument after the type, is
accepted, although the number of arguments after the type is not 4. -/
theorem parse_beam_lminus_one_argument :
    parse_beam (fun s : String => if s = "2" then some (2 : ℚ) else none) 2
        (fun j => if j = 1 then "lminus" else "2") ⟨BeamType.B_PLANE, 0, fun _ => 0⟩
      = Res.ok ⟨BeamType.B_LMINUS, 1, fun k => if k = 0 then 2 else 0⟩
    ∧ ((2 : Int) - 1 ≠ 4) := by
  refine ⟨?_, by decide⟩
  simp [parse_beam, parse_beam_search, beam_opt, parse_beam_found, parse_beam_pars, UNDEF,
    ScanfError, TestPositive, Res.bind, show ¬ ((2 : ℚ) ≤ 0) by norm_num]

/-- C20, amended: the parsing function of `-beam` reports an error for `plane` exactly when
the number of arguments after the type is not 0, and for `lminus`, `davis3` or `barton5`
exactly when that number is neither 1 nor 4, or one of the arguments is not numeric, or the
first of them, the width, is not positive; when it reports none it stores the type, the
number of arguments and the arguments, with a positive width. -/
theorem parse_beam_spec {K : Type} [LinearOrderedField K] (sscanf_lf : String → Option K)
    (Narg : Int) (argv : Nat → String) (b : BeamOpts K) :
    (argv 1 = "plane" →
      ((parse_beam sscanf_lf Narg argv b).isError = true ↔ Narg - 1 ≠ 0)
      ∧ (Narg - 1 = 0 → parse_beam sscanf_lf Narg argv b
          = Res.ok { b with beamtype := BeamType.B_PLANE, beam_Npars := 0 }))
    ∧ (argv 1 = "lminus" ∨ argv 1 = "davis3" ∨ argv 1 = "barton5" →
      ((parse_beam sscanf_lf Narg argv b).isError = true
        ↔ ((Narg - 1 ≠ 1 ∧ Narg - 1 ≠ 4)
            ∨ (∃ j : Nat, (j : Int) < Narg - 1 ∧ sscanf_lf (argv (j + 2)) = none)
            ∨ (∃ w, sscanf_lf (argv 2) = some w ∧ w ≤ 0)))
      ∧ ((parse_beam sscanf_lf Narg argv b).isError = false →
          ∃ r, parse_beam sscanf_lf Narg argv b = Res.ok r
            ∧ (argv 1 = "lminus" → r.beamtype = BeamType.B_LMINUS)
            ∧ (argv 1 = "davis3" → r.beamtype = BeamType.B_DAVIS3)
            ∧ (argv 1 = "barton5" → r.beamtype = BeamType.B_BARTON5)
            ∧ r.beam_Npars = Narg - 1 ∧ (Narg - 1 = 1 ∨ Narg - 1 = 4) ∧ 0 < r.beam_pars 0
            ∧ ∀ j : Nat, (j : Int) < Narg - 1 →
                sscanf_lf (argv (j + 2)) = some (r.beam_pars j))) := by
  refine ⟨fun h => ?_, fun h => ?_⟩
  · rw [parse_beam_plane sscanf_lf Narg argv b h]
    exact parse_beam_found_plane sscanf_lf (Narg - 1) argv b
  · obtain ⟨o, ho, hty, t1, t2, t3, he⟩ := parse_beam_gauss sscanf_lf Narg argv b h
    rw [he]
    obtain ⟨g1, g2⟩ := parse_beam_found_gauss sscanf_lf (Narg - 1) argv b o ho hty
    refine ⟨g1, fun hne => ?_⟩
    obtain ⟨r, r1, r2, r3, r4, r5, r6⟩ := g2 hne
    exact ⟨r, r1, fun hh => r2.trans (t1 hh), fun hh => r2.trans (t2 hh),
      fun hh => r2.trans (t3 hh), r3, r4, r5, r6⟩

/-- Witness of C20, amended: `-beam davis3 2 0 0 1` is accepted with the width 2. -/
theorem parse_beam_spec_witness :
    ∃ r : BeamOpts ℚ,
      parse_beam (fun s : String => if s = "2" then some (2 : ℚ) else if s = "0" then some 0
          else if s = "1" then some 1 else none) 5
        (fun j => if j = 1 then "davis3" else if j = 2 then "2" else if j = 5 then "1" else "0")
        ⟨BeamType.B_PLANE, 0, fun _ => 0⟩ = Res.ok r
      ∧ r.beamtype = BeamType.B_DAVIS3 ∧ r.beam_Npars = 4 ∧ 0 < r.beam_pars 0 := by
  obtain ⟨r, h1, _, h2, _, h3, _, h4, _⟩ := ((parse_beam_spec
    (fun s : String => if s = "2" then some (2 : ℚ) else if s = "0" then some 0
          else if s = "1" then some 1 else none) 5
    (fun j => if j = 1 then "davis3" else if j = 2 then "2" else if j = 5 then "1" else "0")
    ⟨BeamType.B_PLANE, 0, fun _ => 0⟩).2 (Or.inr (Or.inl (by simp)))).2 (by
      simp [parse_beam, parse_beam_search, beam_opt, parse_beam_found, parse_beam_pars,
        UNDEF, ScanfError, TestPositive, Res.bind, Res.isError,
        show ¬ ((2 : ℚ) ≤ 0) by norm_num])
  exact ⟨r, h1, h2 (by simp), h3, h4⟩

/-! ## The option -grid -/

theorem VariablesInterconnect_flags_box {K : Type} (v : Vars K) :
    (VariablesInterconnect_flags v).boxX
        = (if v.jagged ≠ 1 then scaleBox v.boxX v.jagged else v.boxX)
    ∧ (VariablesInterconnect_flags v).boxY
        = (if v.jagged ≠ 1 then scaleBox v.boxY v.jagged else v.boxY)
    ∧ (VariablesInterconnect_flags v).boxZ
        = (if v.jagged ≠ 1 then scaleBox v.boxZ v.jagged else v.boxZ) := by
  unfold VariablesInterconnect_flags
  by_cases h1 : v.IntRelation = IntRel.G_SO <;> simp only [h1, if_true, if_false] <;>
    split_ifs <;> simp_all

theorem VariablesInterconnect_beforeBeam_box {K : Type} [LinearOrderedField K] (PI : K)
    (sqrt : K → K) (v : Vars K) :
    (VariablesInterconnect_beforeBeam PI sqrt v).boxX
        = (if v.jagged ≠ 1 then scaleBox v.boxX v.jagged else v.boxX)
    ∧ (VariablesInterconnect_beforeBeam PI sqrt v).boxY
        = (if v.jagged ≠ 1 then scaleBox v.boxY v.jagged else v.boxY)
    ∧ (VariablesInterconnect_beforeBeam PI sqrt v).boxZ
        = (if v.jagged ≠ 1 then scaleBox v.boxZ v.jagged else v.boxZ) := by
  obtain ⟨f1, f2, f3⟩ :=
    VariablesInterconnect_flags_box { v with WaveNum := 2 * PI / v.lambda }
  simp only [VariablesInterconnect_beforeBeam]
  exact ⟨f1, f2, f3⟩

theorem VariablesInterconnect_orient_box {K : Type} [LinearOrderedField K] (PI : K)
    (cos sin acos : K → K) (files : String → Option (AvgFile K)) (v7 v : Vars K)
    (h : VariablesInterconnect_orient PI cos sin acos files v7 = Res.ok v) :
    v.boxX = v7.boxX ∧ v.boxY = v7.boxY ∧ v.boxZ = v7.boxZ := by
  unfold VariablesInterconnect_orient at h
  by_cases ho : v7.orient_avg = true
  · rw [if_pos ho] at h
    obtain ⟨a, _, ha⟩ := Res.bind_eq_ok _ _ _ h
    simp only [Res.ok.injEq] at ha
    subst ha
    exact ⟨rfl, rfl, rfl⟩
  · rw [if_neg ho] at h
    simp only [] at h
    split_ifs at h with hp
    · simp only [Res.ok.injEq] at h
      subst h
      exact ⟨rfl, rfl, rfl⟩
    · simp only [Res.ok.injEq] at h
      subst h
      exact ⟨rfl, rfl, rfl⟩

theorem VariablesInterconnect_box {K : Type} [LinearOrderedField K] (PI : K)
    (sqrt cos sin acos : K → K) (InitBeam : Vars K → Res (BeamVars K))
    (files : String → Option (AvgFile K)) (v0 v : Vars K)
    (h : VariablesInterconnect PI sqrt cos sin acos InitBeam files v0 = Res.ok v) :
    v.boxX = (if v0.jagged ≠ 1 then scaleBox v0.boxX v0.jagged else v0.boxX)
    ∧ v.boxY = (if v0.jagged ≠ 1 then scaleBox v0.boxY v0.jagged else v0.boxY)
    ∧ v.boxZ = (if v0.jagged ≠ 1 then scaleBox v0.boxZ v0.jagged else v0.boxZ) := by
  obtain ⟨_, _, bv, _, hfin⟩ :=
    VariablesInterconnect_eq_ok PI sqrt cos sin acos InitBeam files v0 v h
  obtain ⟨g1, g2, g3⟩ := VariablesInterconnect_orient_box PI cos sin acos files _ v hfin
  obtain ⟨f1, f2, f3⟩ := VariablesInterconnect_beforeBeam_box PI sqrt v0
  exact ⟨g1.trans f1, g2.trans f2, g3.trans f3⟩

theorem TestPositive_i_eq_ok (val : Int) (name : String) (h : 0 < val) :
    TestPositive_i val name = Res.ok () := by
  unfold TestPositive_i
  rw [if_neg (by omega)]

theorem parse_grid_one {K : Type} (sscanf_i : String → Option Int) (argv : Nat → String)
    (v : Vars K) (nx : Int) (h1 : sscanf_i (argv 1) = some nx) (hx : 0 < nx) :
    parse_grid sscanf_i 1 argv v = Res.ok { v with boxX := nx } := by
  simp [parse_grid, h1, ScanfError_some, TestPositive_i_eq_ok nx _ hx]

theorem parse_grid_three {K : Type} (sscanf_i : String → Option Int) (argv : Nat → String)
    (v : Vars K) (nx ny nz : Int) (h1 : sscanf_i (argv 1) = some nx)
    (h2 : sscanf_i (argv 2) = some ny) (h3 : sscanf_i (argv 3) = some nz)
    (hx : 0 < nx) (hy : 0 < ny) :
    parse_grid sscanf_i 3 argv v = Res.ok { v with boxX := nx, boxY := ny, boxZ := nz } := by
  simp [parse_grid, h1, h2, h3, ScanfError_some, TestPositive_i_eq_ok nx _ hx,
    TestPositive_i_eq_ok ny _ hy]

/-- C18, counterexample: `-grid 15` on the default variables: the parsing function stores
the odd dimension 15 in `boxX` and `VariablesInterconnect` returns with `boxX = 15`,
without an error. -/
theorem grid_15_accepted :
    ∃ v1 v,
      parse_grid (fun s : String => if s = "15" then some (15 : Int) else none) 1
        (fun _ => "15") (InitVariables Real.pi) = Res.ok v1
      ∧ VariablesInterconnect Real.pi Real.sqrt Real.cos Real.sin Real.arccos
          (fun w => Res.ok ⟨false, w.beam_center_0, w.beam_center⟩) (fun _ => none) v1
          = Res.ok v
      ∧ v1.boxX = 15 ∧ v.boxX = 15 ∧ (15 : Int) % 2 = 1 := by
  have hp := parse_grid_one (fun s : String => if s = "15" then some (15 : Int) else none)
    (fun _ => "15") (InitVariables Real.pi) 15 (by simp) (by decide)
  obtain ⟨v, hv⟩ := VariablesInterconnect_returns Real.pi Real.sqrt Real.cos Real.sin
    Real.arccos (fun w => Res.ok ⟨false, w.beam_center_0, w.beam_center⟩) (fun _ => none)
    { InitVariables Real.pi with boxX := 15 }
    ⟨false, _, _⟩
    (by simp [InitVariables]) (by simp [InitVariables]) rfl (by simp [InitVariables])
  obtain ⟨b1, _, _⟩ := VariablesInterconnect_box _ _ _ _ _ _ _ _ v hv
  refine ⟨_, v, hp, hv, rfl, ?_, by decide⟩
  rw [b1]
  simp [InitVariables]

/-- C18, amended: option handling does not test the parity of the grid dimensions.  The
parsing function of `-grid` stores every positive `nx` in `boxX` (with three arguments every
positive `nx`, `ny`, `nz` in `boxX`, `boxY`, `boxZ`), odd or even, and
`VariablesInterconnect`, when its two checks pass, `InitBeam` returns and the file of
averaging parameters (if needed) is read, returns with these dimensions multiplied by
`jagged`. -/
theorem parse_grid_any_parity {K : Type} [LinearOrderedField K] (PI : K)
    (sqrt cos sin acos : K → K) (InitBeam : Vars K → Res (BeamVars K))
    (files : String → Option (AvgFile K)) (sscanf_i : String → Option Int)
    (argv : Nat → String) (v0 : Vars K) (nx : Int)
    (h1 : sscanf_i (argv 1) = some nx) (hx : 0 < nx)
    (c1 : ¬ (v0.prop_0 2 ≠ (1 : K) ∧ v0.orient_avg = true))
    (c2 : ¬ (v0.chp_time = UNDEF ∧ v0.chp_type ≠ ChpType.CHP_NONE
          ∧ v0.chp_type ≠ ChpType.CHP_ALWAYS))
    (hbeam : ∀ w, ∃ bv, InitBeam w = Res.ok bv)
    (havg : v0.orient_avg = true →
      ∃ a, ReadAvgParms PI cos acos (files v0.avg_parms) = Res.ok a) :
    (parse_grid sscanf_i 1 argv v0 = Res.ok { v0 with boxX := nx }
      ∧ ∃ v, VariablesInterconnect PI sqrt cos sin acos InitBeam files { v0 with boxX := nx }
            = Res.ok v
          ∧ v.boxX = (if v0.jagged ≠ 1 then scaleBox nx v0.jagged else nx))
    ∧ (∀ ny nz, sscanf_i (argv 2) = some ny → sscanf_i (argv 3) = some nz → 0 < ny →
        0 < nz →
        parse_grid sscanf_i 3 argv v0 = Res.ok { v0 with boxX := nx, boxY := ny, boxZ := nz }
        ∧ ∃ v, VariablesInterconnect PI sqrt cos sin acos InitBeam files
              { v0 with boxX := nx, boxY := ny, boxZ := nz } = Res.ok v
            ∧ v.boxX = (if v0.jagged ≠ 1 then scaleBox nx v0.jagged else nx)
            ∧ v.boxY = (if v0.jagged ≠ 1 then scaleBox ny v0.jagged else ny)
            ∧ v.boxZ = (if v0.jagged ≠ 1 then scaleBox nz v0.jagged else nz)) := by
  refine ⟨⟨parse_grid_one sscanf_i argv v0 nx h1 hx, ?_⟩, fun ny nz h2 h3 hy _ =>
    ⟨parse_grid_three sscanf_i argv v0 nx ny nz h1 h2 h3 hx hy, ?_⟩⟩
  · obtain ⟨bv, hbv⟩ := hbeam (VariablesInterconnect_beforeBeam PI sqrt { v0 with boxX := nx })
    obtain ⟨v, hv⟩ := VariablesInterconnect_returns PI sqrt cos sin acos InitBeam files
      { v0 with boxX := nx } bv c1 c2 hbv havg
    obtain ⟨b1, _, _⟩ := VariablesInterconnect_box PI sqrt cos sin acos InitBeam files _ v hv
    exact ⟨v, hv, b1⟩
  · obtain ⟨bv, hbv⟩ := hbeam (VariablesInterconnect_beforeBeam PI sqrt
      { v0 with boxX := nx, boxY := ny, boxZ := nz })
    obtain ⟨v, hv⟩ := VariablesInterconnect_returns PI sqrt cos sin acos InitBeam files
      { v0 with boxX := nx, boxY := ny, boxZ := nz } bv c1 c2 hbv havg
    obtain ⟨b1, b2, b3⟩ := VariablesInterconnect_box PI sqrt cos sin acos InitBeam files _ v hv
    exact ⟨v, hv, b1, b2, b3⟩

/-- Witness of C18, amended: `-grid 17` and `-grid 17 15 13` on the default variables are
stored and kept. -/
theorem parse_grid_any_parity_witness :
    (parse_grid (fun s : String => if s = "17" then some (17 : Int) else
            if s = "15" then some 15 else if s = "13" then some 13 else none) 1
          (fun k => ["-grid", "17", "15", "13"].getD k "") (InitVariables Real.pi)
        = Res.ok { InitVariables Real.pi with boxX := 17 }
      ∧ ∃ v, VariablesInterconnect Real.pi Real.sqrt Real.cos Real.sin Real.arccos
            (fun w => Res.ok ⟨false, w.beam_center_0, w.beam_center⟩) (fun _ => none)
            { InitVariables Real.pi with boxX := 17 } = Res.ok v
          ∧ v.boxX = (if (InitVariables Real.pi).jagged ≠ 1
              then scaleBox 17 (InitVariables Real.pi).jagged else 17))
    ∧ (parse_grid (fun s : String => if s = "17" then some (17 : Int) else
            if s = "15" then some 15 else if s = "13" then some 13 else none) 3
          (fun k => ["-grid", "17", "15", "13"].getD k "") (InitVariables Real.pi)
        = Res.ok { InitVariables Real.pi with boxX := 17, boxY := 15, boxZ := 13 }
      ∧ ∃ v, VariablesInterconnect Real.pi Real.sqrt Real.cos Real.sin Real.arccos
            (fun w => Res.ok ⟨false, w.beam_center_0, w.beam_center⟩) (fun _ => none)
            { InitVariables Real.pi with boxX := 17, boxY := 15, boxZ := 13 } = Res.ok v
          ∧ v.boxX = (if (InitVariables Real.pi).jagged ≠ 1
              then scaleBox 17 (InitVariables Real.pi).jagged else 17)
          ∧ v.boxY = (if (InitVariables Real.pi).jagged ≠ 1
              then scaleBox 15 (InitVariables Real.pi).jagged else 15)
          ∧ v.boxZ = (if (InitVariables Real.pi).jagged ≠ 1
              then scaleBox 13 (InitVariables Real.pi).jagged else 13)) :=
  have h := parse_grid_any_parity Real.pi Real.sqrt Real.cos Real.sin Real.arccos
    (fun w => Res.ok ⟨false, w.beam_center_0, w.beam_center⟩) (fun _ => none)
    (fun s : String => if s = "17" then some (17 : Int) else
      if s = "15" then some 15 else if s = "13" then some 13 else none)
    (fun k => ["-grid", "17", "15", "13"].getD k "")
    (InitVariables Real.pi) 17 (by simp) (by decide)
    (by simp [InitVariables]) (by simp [InitVariables]) (fun w => ⟨_, rfl⟩)
    (by simp [InitVariables])
  ⟨h.1, h.2 15 13 (by simp) (by simp) (by decide) (by decide)⟩

/-! ## The checkpoint options -/

theorem parse_chpoint_chp_time {K : Type} (arg : String) (t : Int) (v : Vars K)
    (h : ScanTime arg = Res.ok t) :
    ∃ w, parse_chpoint arg v = Res.ok w
      ∧ w.chp_time = (if t ≤ 0 then UNDEF else t) := by
  unfold parse_chpoint
  rw [h]
  simp only [Res.bind_ok]
  by_cases c : t ≤ 0
  · simp only [c, if_true]
    split_ifs
    · exact ⟨_, rfl, rfl⟩
    · exact ⟨_, rfl, rfl⟩
  · simp only [c, if_false]
    split_ifs
    · exact ⟨_, rfl, rfl⟩
    · exact ⟨_, rfl, rfl⟩

/-- C13, counterexample: with `-prop 1 0 0`, `-orient avg` and `-chp_type normal` but no
`-chpoint`, `chp_time` is undefined and `chp_type` is normal, yet the error that
`VariablesInterconnect` reports is that of the earlier check, not "You must specify time
for this checkpoint type". -/
theorem VariablesInterconnect_prop_orient_first :
    ({ InitVariables Real.pi with
        prop_0 := vec3 1 0 0, orient_avg := true, chp_type := ChpType.CHP_NORMAL }
      : Vars ℝ).chp_time = UNDEF
    ∧ VariablesInterconnect Real.pi Real.sqrt Real.cos Real.sin Real.arccos
        (fun w => Res.ok ⟨false, w.beam_center_0, w.beam_center⟩) (fun _ => none)
        { InitVariables Real.pi with
            prop_0 := vec3 1 0 0, orient_avg := true, chp_type := ChpType.CHP_NORMAL }
      = Res.error "-prop and -orient avg can not be used together"
    ∧ VariablesInterconnect Real.pi Real.sqrt Real.cos Real.sin Real.arccos
        (fun w => Res.ok ⟨false, w.beam_center_0, w.beam_center⟩) (fun _ => none)
        { InitVariables Real.pi with
            prop_0 := vec3 1 0 0, orient_avg := true, chp_type := ChpType.CHP_NORMAL }
      ≠ Res.error "You must specify time for this checkpoint type" := by
  have h : VariablesInterconnect Real.pi Real.sqrt Real.cos Real.sin Real.arccos
        (fun w => Res.ok ⟨false, w.beam_center_0, w.beam_center⟩) (fun _ => none)
        { InitVariables Real.pi with
            prop_0 := vec3 1 0 0, orient_avg := true, chp_type := ChpType.CHP_NORMAL }
      = Res.error "-prop and -orient avg can not be used together" := by
    unfold VariablesInterconnect
    rw [if_pos (by simp [vec3])]
  refine ⟨rfl, h, ?_⟩
  rw [h]
  intro hc
  exact absurd (Res.error.inj hc) (by decide)

/-- C13, amended: `VariablesInterconnect` first reports the error of `-prop` with
`-orient avg`; when that check passes it reports "You must specify time for this checkpoint
type" if `chp_time` is undefined and `chp_type` is normal or regular, and otherwise (a time
is defined, or `chp_type` is none or always) both checks pass and the run goes on to
`InitBeam`.  `chp_time` is undefined after `InitVariables`, and the parsing function of
`-chpoint` leaves it undefined exactly when the scanned time is not positive. -/
theorem VariablesInterconnect_chp_time {K : Type} [LinearOrderedField K] (PI : K)
    (sqrt cos sin acos : K → K) (InitBeam : Vars K → Res (BeamVars K))
    (files : String → Option (AvgFile K)) (v0 : Vars K) :
    (v0.prop_0 2 ≠ (1 : K) ∧ v0.orient_avg = true →
      VariablesInterconnect PI sqrt cos sin acos InitBeam files v0
        = Res.error "-prop and -orient avg can not be used together")
    ∧ (¬ (v0.prop_0 2 ≠ (1 : K) ∧ v0.orient_avg = true) → v0.chp_time = UNDEF →
        (v0.chp_type = ChpType.CHP_NORMAL ∨ v0.chp_type = ChpType.CHP_REGULAR) →
      VariablesInterconnect PI sqrt cos sin acos InitBeam files v0
        = Res.error "You must specify time for this checkpoint type")
    ∧ (¬ (v0.prop_0 2 ≠ (1 : K) ∧ v0.orient_avg = true) →
        (v0.chp_time ≠ UNDEF ∨ v0.chp_type = ChpType.CHP_NONE
          ∨ v0.chp_type = ChpType.CHP_ALWAYS) →
      VariablesInterconnect PI sqrt cos sin acos InitBeam files v0
        = (InitBeam (VariablesInterconnect_beforeBeam PI sqrt v0)).bind fun bv =>
            VariablesInterconnect_orient PI cos sin acos files
              { VariablesInterconnect_beforeBeam PI sqrt v0 with
                  beam_asym := bv.beam_asym, beam_center_0 := bv.beam_center_0,
                  beam_center := bv.beam_center })
    ∧ (InitVariables PI).chp_time = UNDEF
    ∧ (∀ (arg : String) (t : Int) (v : Vars K), ScanTime arg = Res.ok t →
        ∃ w, parse_chpoint arg v = Res.ok w
          ∧ w.chp_time = (if t ≤ 0 then UNDEF else t)
          ∧ (w.chp_time = UNDEF ↔ t ≤ 0)) := by
  refine ⟨fun c1 => ?_, fun c1 ht hty => ?_, fun c1 hc => ?_, rfl, fun arg t v h => ?_⟩
  · unfold VariablesInterconnect
    rw [if_pos c1]
  · unfold VariablesInterconnect
    rw [if_neg c1, if_pos ⟨ht, by rcases hty with h | h <;> rw [h] <;> decide⟩]
  · unfold VariablesInterconnect
    rw [if_neg c1, if_neg]
    rintro ⟨h1, h2, h3⟩
    rcases hc with h | h | h
    · exact h h1
    · exact h2 h
    · exact h3 h
  · obtain ⟨w, hw1, hw2⟩ := parse_chpoint_chp_time arg t v h
    refine ⟨w, hw1, hw2, ?_⟩
    rw [hw2]
    by_cases c : t ≤ 0
    · simp [c]
    · simp only [c, if_false, iff_false]
      unfold UNDEF
      omega

/-- Witness of C13, amended: the default variables after `-chp_type normal`, without
`-chpoint`: the error is "You must specify time for this checkpoint type". -/
theorem VariablesInterconnect_chp_time_witness :
    ∃ v0 : Vars ℝ, parse_chp_type "normal" (InitVariables Real.pi) = Res.ok v0
      ∧ VariablesInterconnect Real.pi Real.sqrt Real.cos Real.sin Real.arccos
          (fun w => Res.ok ⟨false, w.beam_center_0, w.beam_center⟩) (fun _ => none) v0
        = Res.error "You must specify time for this checkpoint type" :=
  ⟨{ InitVariables Real.pi with chp_type := ChpType.CHP_NORMAL }, by simp [parse_chp_type],
    (VariablesInterconnect_chp_time Real.pi Real.sqrt Real.cos Real.sin Real.arccos
      (fun w => Res.ok ⟨false, w.beam_center_0, w.beam_center⟩) (fun _ => none)
      { InitVariables Real.pi with chp_type := ChpType.CHP_NORMAL }).2.1
      (by simp [InitVariables]) rfl (Or.inl rfl)⟩

/-! ## ParseParameters -/

theorem isAlpha_iff (c : Char) :
    c.isAlpha = true ↔ ((97 ≤ c.toNat ∧ c.toNat ≤ 122) ∨ (65 ≤ c.toNat ∧ c.toNat ≤ 90)) := by
  simp only [Char.isAlpha, Char.isUpper, Char.isLower, Bool.or_eq_true, Bool.and_eq_true,
    decide_eq_true_eq, ge_iff_le, UInt32.le_def, BitVec.le_def, Char.toNat]
  have e0 : c.val.toNat = c.val.toBitVec.toNat := rfl
  have e1 : (UInt32.toBitVec 65).toNat = 65 := rfl
  have e2 : (UInt32.toBitVec 90).toNat = 90 := rfl
  have e3 : (UInt32.toBitVec 97).toNat = 97 := rfl
  have e4 : (UInt32.toBitVec 122).toNat = 122 := rfl
  rw [e0, e1, e2, e3, e4]
  omega

theorem IsOption_iff (s : String) :
    IsOption s = true ↔ ∃ c rest, s.data = '-' :: c :: rest
      ∧ ((97 ≤ c.toNat ∧ c.toNat ≤ 122) ∨ (65 ≤ c.toNat ∧ c.toNat ≤ 90)) := by
  unfold IsOption
  rw [Bool.and_eq_true, decide_eq_true_eq, isAlpha_iff]
  constructor
  · rintro ⟨h1, h2⟩
    match hs : s.data with
    | [] =>
      rw [hs] at h1
      exact absurd h1 (by decide)
    | [a] =>
      rw [hs] at h2
      have e : ([a].getD 1 NUL).toNat = 0 := rfl
      rw [e] at h2
      omega
    | a :: c :: rest =>
      rw [hs] at h1 h2
      simp only [List.getD_cons_zero] at h1
      simp only [List.getD_cons_succ, List.getD_cons_zero] at h2
      exact ⟨c, rest, by rw [h1], h2⟩
  · rintro ⟨c, rest, hs, hc⟩
    rw [hs]
    exact ⟨rfl, hc⟩

theorem ParseParameters_Narg_spec (argc : Nat) (argv : Nat → String) (i : Nat) (f n : Nat)
    (hin : i + n < argc) (hf : argc ≤ f + i + n)
    (hrun : ∀ k, 1 ≤ k → k ≤ n → i + k < argc ∧ IsOption (argv (i + k)) = false) :
    ∃ N, ParseParameters_Narg argc argv i f n = some N ∧ n ≤ N
      ∧ (∀ k, 1 ≤ k → k ≤ N → i + k < argc ∧ IsOption (argv (i + k)) = false)
      ∧ (i + N + 1 < argc → IsOption (argv (i + N + 1)) = true) := by
  induction f generalizing n with
  | zero => omega
  | succ f ih =>
    unfold ParseParameters_Narg
    by_cases c : i + (n + 1) < argc ∧ IsOption (argv (i + (n + 1))) = false
    · rw [if_pos c]
      obtain ⟨N, h1, h2, h3, h4⟩ := ih (n + 1) c.1 (by omega) (fun k hk1 hk2 => by
        by_cases hk : k = n + 1
        · rw [hk]
          exact c
        · exact hrun k hk1 (by omega))
      exact ⟨N, h1, by omega, h3, h4⟩
    · rw [if_neg c]
      refine ⟨n, by simp, le_refl n, hrun, fun h => ?_⟩
      cases hb : IsOption (argv (i + n + 1)) with
      | true => rfl
      | false => exact absurd ⟨h, hb⟩ c

theorem ParseParameters_cycle_record (argc : Nat) (argv : Nat → String) (f i : Nat)
    (s : List (Nat × Nat)) (hopt : i < argc → IsOption (argv i) = true)
    (hf : argc ≤ f + i)
    (hs : ∀ e, e ∈ s → e.1 < argc ∧ IsOption (argv e.1) = true
      ∧ (∀ k, 1 ≤ k → k ≤ e.2 → e.1 + k < argc ∧ IsOption (argv (e.1 + k)) = false)
      ∧ (e.1 + e.2 + 1 < argc → IsOption (argv (e.1 + e.2 + 1)) = true)) :
    ∃ L, ParseParameters_cycle recordOption argc argv f i s = Res.ok L
      ∧ ∀ e, e ∈ L → e.1 < argc ∧ IsOption (argv e.1) = true
        ∧ (∀ k, 1 ≤ k → k ≤ e.2 → e.1 + k < argc ∧ IsOption (argv (e.1 + k)) = false)
        ∧ (e.1 + e.2 + 1 < argc → IsOption (argv (e.1 + e.2 + 1)) = true) := by
  induction f generalizing i s with
  | zero =>
    unfold ParseParameters_cycle
    rw [if_neg (by omega)]
    exact ⟨s, rfl, hs⟩
  | succ f ih =>
    unfold ParseParameters_cycle
    by_cases c : i < argc
    · rw [if_pos c]
      obtain ⟨N, h1, _, h3, h4⟩ := ParseParameters_Narg_spec argc argv i argc 0 (by omega)
        (by omega) (fun k hk1 hk2 => by omega)
      rw [h1]
      simp only [recordOption, Res.bind_ok]
      apply ih (i + N + 1) (s ++ [(i, N)]) h4 (by omega)
      intro e he
      rcases List.mem_append.mp he with he | he
      · exact hs e he
      · rw [List.mem_singleton] at he
        subst he
        exact ⟨c, hopt c, h3, h4⟩
    · rw [if_neg c]
      exact ⟨s, rfl, hs⟩

theorem filter_range_run (p : Nat → Bool) (i N rest : Nat)
    (hrun : ∀ k, 1 ≤ k → k ≤ N → p (i + k) = false) (hi : p i = true) :
    (List.range' i (rest + N + 1)).filter p
      = i :: (List.range' (i + N + 1) rest).filter p := by
  have e1 : List.range' i (rest + N + 1) = i :: List.range' (i + 1) (rest + N) :=
    List.range'_succ i (rest + N) 1
  have e2 : List.range' (i + 1) (rest + N)
      = List.range' (i + 1) N ++ List.range' (i + N + 1) rest := by
    have := List.range'_append (i + 1) N rest 1
    rw [← this]
    congr 2
    omega
  have e3 : (List.range' (i + 1) N).filter p = [] := by
    rw [List.filter_eq_nil_iff]
    intro a ha
    rw [List.mem_range'_1] at ha
    have := hrun (a - i) (by omega) (by omega)
    rw [show i + (a - i) = a by omega] at this
    rw [this]
    simp
  rw [e1, e2, List.filter_cons, if_pos hi, List.filter_append, e3, List.nil_append]

theorem ParseParameters_cycle_calls (argc : Nat) (argv : Nat → String) (f i : Nat)
    (hopt : i < argc → IsOption (argv i) = true) (hf : argc ≤ f + i) :
    ∃ L : List (Nat × Nat),
      (∀ (σ : Type) (handle : σ → Nat → Nat → Res σ) (s : σ),
        ParseParameters_cycle handle argc argv f i s = handleAll handle L s)
      ∧ L.map Prod.fst = (List.range' i (argc - i)).filter (fun k => IsOption (argv k))
      ∧ ∀ e, e ∈ L → ParseParameters_Narg argc argv e.1 argc 0 = some e.2
        ∧ (∀ k, 1 ≤ k → k ≤ e.2 → e.1 + k < argc ∧ IsOption (argv (e.1 + k)) = false)
        ∧ (e.1 + e.2 + 1 < argc → IsOption (argv (e.1 + e.2 + 1)) = true) := by
  induction f generalizing i with
  | zero =>
    refine ⟨[], fun σ handle s => ?_, ?_, fun e he => absurd he (List.not_mem_nil e)⟩
    · unfold ParseParameters_cycle
      rw [if_neg (by omega)]
      rfl
    · rw [show argc - i = 0 by omega]
      rfl
  | succ f ih =>
    by_cases c : i < argc
    · obtain ⟨N, h1, _, h3, h4⟩ := ParseParameters_Narg_spec argc argv i argc 0 (by omega)
        (by omega) (fun k hk1 hk2 => by omega)
      have hN : i + N < argc := by
        by_cases hN0 : N = 0
        · omega
        · exact (h3 N (by omega) (le_refl N)).1
      obtain ⟨L, g1, g2, g3⟩ := ih (i + N + 1) h4 (by omega)
      refine ⟨(i, N) :: L, fun σ handle s => ?_, ?_, fun e he => ?_⟩
      · unfold ParseParameters_cycle
        rw [if_pos c, h1]
        simp only [handleAll, g1]
      · rw [List.map_cons, g2]
        have hsplit : argc - i = (argc - (i + N + 1)) + N + 1 := by omega
        rw [hsplit]
        exact (filter_range_run (fun k => IsOption (argv k)) i N (argc - (i + N + 1))
          (fun k hk1 hk2 => (h3 k hk1 hk2).2) (hopt c)).symm
      · rcases List.mem_cons.mp he with he | he
        · subst he
          exact ⟨h1, h3, h4⟩
        · exact g3 e he
    · refine ⟨[], fun σ handle s => ?_, ?_, fun e he => absurd he (List.not_mem_nil e)⟩
      · unfold ParseParameters_cycle
        rw [if_neg c]
        rfl
      · rw [show argc - i = 0 by omega]
        rfl

/-- C14: `IsOption(s)` is true if and only if `s[0]` is `-` and `s[1]` is a letter (a-z or
A-Z); in `ParseParameters` the number `Narg` attributed to the option at `argv[i]` is the
length of the maximal run of words after `argv[i]` for which `IsOption` is false (every
word of the run is no option, and the word after the run, if there is one, is an option);
`-5`, `-.5` and `-` are no options.  When the first word is an option, `ParseParameters`
handles, in the order of the command line, exactly the words `argv[i]`, `1 <= i < argc`,
for which `IsOption` is true, each with this `Narg`, so that a word of a run never starts
an option; when the first word is no option it stops with an error. -/
theorem ParseParameters_Narg_maximal_run (argc : Nat) (argv : Nat → String) (i : Nat)
    (hi : i < argc) :
    (∀ s : String, IsOption s = true ↔ ∃ c rest, s.data = '-' :: c :: rest
        ∧ ((97 ≤ c.toNat ∧ c.toNat ≤ 122) ∨ (65 ≤ c.toNat ∧ c.toNat ≤ 90)))
    ∧ (∃ N, ParseParameters_Narg argc argv i argc 0 = some N
        ∧ (∀ k, 1 ≤ k → k ≤ N → i + k < argc ∧ IsOption (argv (i + k)) = false)
        ∧ (i + N + 1 < argc → IsOption (argv (i + N + 1)) = true))
    ∧ IsOption "-5" = false ∧ IsOption "-.5" = false ∧ IsOption "-" = false
    ∧ ((argc ≤ 1 ∨ IsOption (argv 1) = true) →
        ∃ L : List (Nat × Nat),
          (∀ (σ : Type) (handle : σ → Nat → Nat → Res σ) (s : σ),
            ParseParameters handle argc argv s = handleAll handle L s)
          ∧ L.map Prod.fst
              = (List.range argc).filter (fun k => decide (1 ≤ k) && IsOption (argv k))
          ∧ ∀ e, e ∈ L → ParseParameters_Narg argc argv e.1 argc 0 = some e.2
            ∧ (∀ k, 1 ≤ k → k ≤ e.2 → e.1 + k < argc ∧ IsOption (argv (e.1 + k)) = false)
            ∧ (e.1 + e.2 + 1 < argc → IsOption (argv (e.1 + e.2 + 1)) = true))
    ∧ (1 < argc → IsOption (argv 1) = false →
        ∀ (σ : Type) (handle : σ → Nat → Nat → Res σ) (s : σ),
          ParseParameters handle argc argv s
            = Res.error ("Illegal format of first argument " ++ argv 1)) := by
  refine ⟨IsOption_iff, ?_, by decide, by decide, by decide, fun h1 => ?_,
    fun h1 h2 σ handle s => ?_⟩
  · obtain ⟨N, h1, _, h3, h4⟩ := ParseParameters_Narg_spec argc argv i argc 0 (by omega)
      (by omega) (fun k hk1 hk2 => by omega)
    exact ⟨N, h1, h3, h4⟩
  · obtain ⟨L, g1, g2, g3⟩ := ParseParameters_cycle_calls argc argv argc 1
      (fun hlt => by
        rcases h1 with h | h
        · omega
        · exact h) (by omega)
    refine ⟨L, fun σ handle s => ?_, ?_, g3⟩
    · unfold ParseParameters
      rw [if_neg (by
        rintro ⟨hc1, hc2⟩
        rcases h1 with h | h
        · omega
        · rw [h] at hc2
          exact absurd hc2 (by simp))]
      exact g1 σ handle s
    · rw [g2]
      have hr : List.range argc = 0 :: List.range' 1 (argc - 1) := by
        rw [List.range_eq_range', show argc = (argc - 1) + 1 by omega, List.range'_succ]
        simp
      rw [hr, List.filter_cons, if_neg (by simp)]
      exact List.filter_congr (fun x hx => by
        rw [List.mem_range'_1] at hx
        simp [hx.1])
  · unfold ParseParameters
    rw [if_pos ⟨h1, h2⟩]

/-- Witness of C14: the command line `adda -m 1.5 -0.1 - -.5 -grid 16 -5`: the words
handled as options are `argv[1]` and `argv[6]`, with 4 and 2 arguments. -/
theorem ParseParameters_Narg_maximal_run_witness :
    (1 : Nat) < 9
    ∧ (∃ L : List (Nat × Nat),
        ParseParameters recordOption 9
            (fun k => ["adda", "-m", "1.5", "-0.1", "-", "-.5", "-grid", "16", "-5"].getD k "")
            []
          = handleAll recordOption L []
        ∧ L.map Prod.fst = [1, 6])
    ∧ ParseParameters recordOption 9
          (fun k => ["adda", "-m", "1.5", "-0.1", "-", "-.5", "-grid", "16", "-5"].getD k "") []
        = Res.ok [(1, 4), (6, 2)] := by
  obtain ⟨L, g1, g2, _⟩ := (ParseParameters_Narg_maximal_run 9
    (fun k => ["adda", "-m", "1.5", "-0.1", "-", "-.5", "-grid", "16", "-5"].getD k "")
    1 (by decide)).2.2.2.2.2.1 (Or.inr (by decide))
  exact ⟨by decide, ⟨L, g1 _ recordOption [], g2.trans (by decide)⟩, by decide⟩

/-! ## The integrands of the asymmetry vector -/

theorem to_size_t_of_nonneg (x : Int) (h0 : 0 ≤ x) (h1 : x ≤ INT_MAX) :
    ((to_size_t x : Nat) : Int) = x := by
  unfold INT_MAX at h1
  unfold to_size_t
  rw [Int.emod_eq_of_lt h0 (by omega)]
  exact Int.toNat_of_nonneg h0

theorem AlldirIndex_eq (N : Nat) (theta phi : Int) (ht0 : 0 ≤ theta) (hp0 : 0 ≤ phi)
    (ht1 : theta ≤ INT_MAX) (hp1 : phi ≤ INT_MAX) (hidx : theta * N + phi ≤ INT_MAX) :
    AlldirIndex N theta phi = theta * N + phi := by
  have e1 := to_size_t_of_nonneg theta ht0 ht1
  have e2 := to_size_t_of_nonneg phi hp0 hp1
  unfold AlldirIndex
  have hN : (0 : Int) ≤ N := Int.ofNat_nonneg N
  have hprod : 0 ≤ theta * N := mul_nonneg ht0 hN
  unfold INT_MAX at hidx
  have hlt : to_size_t theta * N + to_size_t phi < 2 ^ 64 := by
    have : ((to_size_t theta * N + to_size_t phi : Nat) : Int) < 2 ^ 64 := by
      push_cast
      rw [e1, e2]
      omega
    exact_mod_cast this
  rw [Nat.mod_eq_of_lt hlt]
  push_cast
  rw [e1, e2]
  exact wrap32_of_bounds _ (by omega) (by omega)

/-- C16: for every grid index pair `(theta, phi)` (non-negative `int` indices of written
values), `gIntegrand` writes
`res = E2_alldir[AlldirIndex(theta,phi)] * (sin th * cos ph, sin th * sin ph, cos th)` with
`th`, `ph` the radian values of `theta_int.val[theta]`, `phi_int.val[phi]`; its three
components equal `res[0]` of `gxIntegrand`, `gyIntegrand` and `gzIntegrand`, and
`CscaIntegrand` gives the unweighted entry of `E2_alldir`; the index `AlldirIndex(theta,phi)`
is `theta*phi_int.N + phi` whenever this number lies within `int`. -/
theorem gIntegrand_spec {K : Type} [LinearOrderedField K] (PI : K) (cos sin : K → K)
    (theta_int phi_int : angle_set K) (E2_alldir : Int → K) (theta phi : Int) (tv pv : K)
    (ht0 : 0 ≤ theta) (hp0 : 0 ≤ phi)
    (htv : theta_int.val theta.toNat = Res.ok tv) (hpv : phi_int.val phi.toNat = Res.ok pv) :
    (∃ res, gIntegrand PI cos sin theta_int phi_int E2_alldir theta phi = Res.ok res
      ∧ res 0 = E2_alldir (AlldirIndex phi_int.N theta phi)
          * (sin (Deg2Rad PI tv) * cos (Deg2Rad PI pv))
      ∧ res 1 = E2_alldir (AlldirIndex phi_int.N theta phi)
          * (sin (Deg2Rad PI tv) * sin (Deg2Rad PI pv))
      ∧ res 2 = E2_alldir (AlldirIndex phi_int.N theta phi) * cos (Deg2Rad PI tv)
      ∧ gxIntegrand PI cos sin theta_int phi_int E2_alldir theta phi = Res.ok (res 0)
      ∧ gyIntegrand PI sin theta_int phi_int E2_alldir theta phi = Res.ok (res 1)
      ∧ gzIntegrand PI cos theta_int phi_int E2_alldir theta phi = Res.ok (res 2))
    ∧ CscaIntegrand phi_int E2_alldir theta phi
        = E2_alldir (AlldirIndex phi_int.N theta phi)
    ∧ (theta ≤ INT_MAX → phi ≤ INT_MAX → theta * phi_int.N + phi ≤ INT_MAX →
        AlldirIndex phi_int.N theta phi = theta * phi_int.N + phi) := by
  have h1 : angle_val theta_int theta = Res.ok tv := by
    unfold angle_val
    rw [if_neg (by omega), htv]
  have h2 : angle_val phi_int phi = Res.ok pv := by
    unfold angle_val
    rw [if_neg (by omega), hpv]
  refine ⟨⟨vec3 (E2_alldir (AlldirIndex phi_int.N theta phi) * sin (Deg2Rad PI tv)
        * cos (Deg2Rad PI pv))
      (E2_alldir (AlldirIndex phi_int.N theta phi) * sin (Deg2Rad PI tv)
        * sin (Deg2Rad PI pv))
      (E2_alldir (AlldirIndex phi_int.N theta phi) * cos (Deg2Rad PI tv)),
    by simp only [gIntegrand, h1, h2, Res.bind_ok], ?_, ?_, rfl, ?_, ?_, ?_⟩, rfl,
    fun ht1 hp1 hidx => AlldirIndex_eq phi_int.N theta phi ht0 hp0 ht1 hp1 hidx⟩
  · simp only [vec3, mul_assoc]
  · simp only [vec3, mul_assoc]
  · simp only [gxIntegrand, h1, h2, Res.bind_ok, vec3]
  · simp only [gyIntegrand, h1, h2, Res.bind_ok, vec3]
  · simp only [gzIntegrand, h1, Res.bind_ok, vec3]

/-- Witness of C16: a grid of 2 x 3 directions with the values 90 and 180 degrees, at the
index pair `(1, 2)`, for which the entry of `E2_alldir` has the index 5. -/
theorem gIntegrand_spec_witness :
    (∃ res, gIntegrand (3 : ℚ) (fun x => x) (fun x => 1 - x) ⟨0, 180, 2, fun _ => Res.ok 90⟩
        ⟨0, 360, 3, fun _ => Res.ok 180⟩ (fun i => (i : ℚ)) 1 2 = Res.ok res)
    ∧ AlldirIndex 3 1 2 = 5 := by
  obtain ⟨⟨res, h1, _⟩, _, h3⟩ := gIntegrand_spec (3 : ℚ) (fun x => x)
    (fun x => 1 - x) ⟨0, 180, 2, fun _ => Res.ok 90⟩ ⟨0, 360, 3, fun _ => Res.ok 180⟩
    (fun i => (i : ℚ)) 1 2 90 180 (by decide) (by decide) rfl rfl
  refine ⟨⟨res, h1⟩, ?_⟩
  have h := h3 (by unfold INT_MAX; norm_num) (by unfold INT_MAX; norm_num)
    (by unfold INT_MAX; norm_num)
  simpa using h

/-! ## ReadScatGridParms -/

theorem scan_digits_append (ds rest : List Char) (acc : Nat)
    (hds : ∀ d, d ∈ ds → d.isDigit = true)
    (hrest : ∀ c r, rest = c :: r → c.isDigit = false) :
    scan_digits (ds ++ rest) acc
      = (ds.foldl (fun a d => 10 * a + (d.toNat - 48)) acc, rest) := by
  induction ds generalizing acc with
  | nil =>
    cases rest with
    | nil => rfl
    | cons c r =>
      have hc := hrest c r rfl
      simp [scan_digits, hc]
  | cons d ds ih =>
    have hd := hds d (List.mem_cons_self d ds)
    simp only [List.cons_append, scan_digits, hd, if_true, List.foldl_cons]
    exact ih _ (fun x hx => hds x (List.mem_cons_of_mem d hx))

theorem isspace_of_isDigit (d : Char) (h : d.isDigit = true) : isspace d = false := by
  cases hs : isspace d with
  | false => rfl
  | true =>
    exfalso
    simp only [isspace, Bool.or_eq_true, decide_eq_true_eq] at hs
    rcases hs with ((((hs | hs) | hs) | hs) | hs) | hs <;>
    · rw [hs] at h
      revert h
      decide

theorem scan_d_item (x : TimeItem) (rest : List Char) (hne : x.digits ≠ [])
    (hds : ∀ d, d ∈ x.digits → d.isDigit = true)
    (hrest : ∀ c r, rest = c :: r → c.isDigit = false) :
    scan_d ((if x.neg then ['-'] else []) ++ x.digits ++ rest)
      = some (scan_store (spec_integer x), rest) := by
  obtain ⟨neg, ds, oc⟩ := x
  cases ds with
  | nil => exact absurd rfl hne
  | cons d ds =>
    have hdd : d.isDigit = true := hds d (List.mem_cons_self d ds)
    have hsp : isspace d = false := isspace_of_isDigit d hdd
    have hm : d ≠ '-' := by
      intro hc
      rw [hc] at hdd
      revert hdd
      decide
    have hp : d ≠ '+' := by
      intro hc
      rw [hc] at hdd
      revert hdd
      decide
    have hA := scan_digits_append (d :: ds) rest 0 hds hrest
    cases neg with
    | false =>
      simp only [Bool.false_eq_true, if_false, List.nil_append, List.cons_append] at hA ⊢
      simp only [scan_d, List.dropWhile, hsp, List.head?_cons, Option.some.injEq, hm, hp,
        or_self, if_false, hdd, if_true, hA, spec_integer, spec_decimal, decide_False,
        Bool.false_eq_true]
    | true =>
      simp only [if_true, List.cons_append, List.nil_append] at hA ⊢
      have hsm : isspace '-' = false := by decide
      simp only [scan_d, List.dropWhile, hsm, List.head?_cons, true_or, if_true, List.tail_cons,
        hdd, hA, spec_integer, spec_decimal, decide_True]

theorem spec_item_ok_iff (x : TimeItem) (h : spec_item_ok x = true) :
    x.digits ≠ [] ∧ (∀ d, d ∈ x.digits → d.isDigit = true)
      ∧ (∀ c, x.spec = some c → c.isDigit = false ∧ c ≠ NUL) := by
  unfold spec_item_ok at h
  simp only [Bool.and_eq_true, Bool.not_eq_true', List.isEmpty_eq_false, List.all_eq_true] at h
  obtain ⟨⟨h1, h2⟩, h3⟩ := h
  refine ⟨h1, h2, fun c hc => ?_⟩
  rw [hc] at h3
  simpa using h3

theorem spec_fields_ok_cons (x : TimeItem) (r : List TimeItem)
    (h : spec_fields_ok (x :: r) = true) :
    spec_item_ok x = true ∧ (r ≠ [] → ∃ c, x.spec = some c) ∧ spec_fields_ok r = true := by
  unfold spec_fields_ok at h
  simp only [Bool.and_eq_true, Bool.or_eq_true, List.isEmpty_iff] at h
  obtain ⟨⟨h1, h2⟩, h3⟩ := h
  refine ⟨h1, fun hr => ?_, h3⟩
  rcases h2 with h2 | h2
  · exact absurd h2 hr
  · exact Option.isSome_iff_exists.mp h2

theorem sscanf_dc_nil (k : Nat) : sscanf_dc k [] = [] := by
  cases k with
  | zero => rfl
  | succ k => rfl

theorem sscanf_dc_timeString (fs : List TimeItem) (k : Nat) (hk : fs.length ≤ k)
    (hok : spec_fields_ok fs = true) :
    sscanf_dc k (spec_timeString fs)
      = fs.map (fun x => (scan_store (spec_integer x), x.spec)) := by
  induction fs generalizing k with
  | nil => exact sscanf_dc_nil k
  | cons x r ih =>
    obtain ⟨h1, h2, h3⟩ := spec_fields_ok_cons x r hok
    obtain ⟨g1, g2, g3⟩ := spec_item_ok_iff x h1
    cases k with
    | zero => simp at hk
    | succ k =>
      have hk2 : r.length ≤ k := by simpa using hk
      cases hs : x.spec with
      | none =>
        have hr : r = [] := by
          by_contra hc
          obtain ⟨c, hc2⟩ := h2 hc
          rw [hs] at hc2
          exact absurd hc2 (by simp)
        subst hr
        have hB := scan_d_item x [] g1 g2 (fun c r hcr => absurd hcr (by simp))
        simp only [List.append_nil] at hB
        simp only [spec_timeString, hs, Option.toList, List.append_nil, sscanf_dc, hB,
          List.map_cons, List.map_nil]
      | some c =>
        have hc := (g3 c hs).1
        have hB := scan_d_item x (c :: spec_timeString r) g1 g2 (fun c2 r2 hcr => by
          simp only [List.cons.injEq] at hcr
          rw [← hcr.1]
          exact hc)
        have hstr : spec_timeString (x :: r)
            = (if x.neg then ['-'] else []) ++ x.digits ++ (c :: spec_timeString r) := by
          simp only [spec_timeString, hs, Option.toList, List.append_assoc, List.singleton_append]
        rw [hstr]
        simp only [sscanf_dc, hB, List.map_cons, hs, ih k hk2 h3]

theorem sscanf_count_timeString (fs : List TimeItem) (hok : spec_fields_ok fs = true) :
    sscanf_count (fs.map (fun x => (scan_store (spec_integer x), x.spec))) = 2 * fs.length
    ∨ sscanf_count (fs.map (fun x => (scan_store (spec_integer x), x.spec))) = 2 * fs.length - 1 := by
  induction fs with
  | nil => exact Or.inl rfl
  | cons x r ih =>
    obtain ⟨h1, h2, h3⟩ := spec_fields_ok_cons x r hok
    cases hs : x.spec with
    | none =>
      have hr : r = [] := by
        by_contra hc
        obtain ⟨c, hc2⟩ := h2 hc
        rw [hs] at hc2
        exact absurd hc2 (by simp)
      subst hr
      right
      simp [sscanf_count, hs]
    | some c =>
      simp only [List.map_cons, hs, sscanf_count, List.length_cons]
      rcases ih h3 with h | h
      · left
        rw [h]
        push_cast
        ring
      · right
        rw [h]
        push_cast
        ring

theorem TimeField_of_spec_mult (oc : Option Char) (m : Int) (h : spec_mult oc = some m) :
    TimeField (oc.getD NUL) = Res.ok m := by
  cases oc with
  | none =>
    simp only [spec_mult, Option.some.injEq] at h
    subst h
    rfl
  | some c =>
    simp only [spec_mult] at h
    simp only [Option.getD_some, TimeField]
    split_ifs at h ⊢ with h1 h2 h3 h4 h5 <;> simp_all

theorem TimeField_of_spec_mult_none (c : Char) (h : spec_mult (some c) = none)
    (hc : c ≠ NUL) : (TimeField c).isError = true := by
  simp only [spec_mult] at h
  simp only [TimeField]
  split_ifs at h ⊢ <;> simp_all [Res.isError]

theorem ScanTime_cycle_sum (t : Nat → Int) (c : Nat → Char) (fs : List TimeItem)
    (f : Nat) (n : Int) (i : Nat) (tim : Int) (hf : fs.length ≤ f)
    (hn : n = 2 * fs.length ∨ n = 2 * fs.length - 1)
    (hitem : ∀ j, j < fs.length →
      t (i + j) = spec_integer (fs.getD j ⟨false, [], none⟩)
      ∧ c (i + j) = ((fs.getD j ⟨false, [], none⟩).spec).getD NUL)
    (hm : ∀ x, x ∈ fs → (spec_mult x.spec).isSome = true)
    (hfit : spec_noOverflow fs tim = true) :
    ScanTime_cycle t c f n i tim = Res.ok (tim + spec_timeSum fs) := by
  induction fs generalizing f n i tim with
  | nil =>
    have hn0 : ¬ n > 0 := by
      simp only [List.length_nil, Nat.cast_zero, mul_zero] at hn
      omega
    cases f with
    | zero => simp [ScanTime_cycle, hn0, spec_timeSum]
    | succ f => simp [ScanTime_cycle, hn0, spec_timeSum]
  | cons x r ih =>
    cases f with
    | zero => simp at hf
    | succ f =>
      have hf2 : r.length ≤ f := by simpa using hf
      have hpos : n > 0 := by
        simp only [List.length_cons, Nat.cast_add, Nat.cast_one] at hn
        omega
      obtain ⟨m, hmx⟩ := Option.isSome_iff_exists.mp (hm x (List.mem_cons_self x r))
      obtain ⟨ht0, hc0⟩ := hitem 0 (by simp)
      simp only [Nat.add_zero, List.getD_cons_zero] at ht0 hc0
      have hTF := TimeField_of_spec_mult x.spec m hmx
      simp only [spec_noOverflow, hmx, Option.getD_some, Bool.and_eq_true,
        decide_eq_true_eq] at hfit
      obtain ⟨⟨⟨_, hp⟩, hs⟩, hrest⟩ := hfit
      have w1 : wrap32 (spec_integer x * m) = spec_integer x * m :=
        wrap32_of_bounds _ (by unfold INT_MIN at hp; omega) (by unfold INT_MAX at hp; omega)
      have w2 : wrap32 (tim + spec_integer x * m) = tim + spec_integer x * m :=
        wrap32_of_bounds _ (by unfold INT_MIN at hs; omega) (by unfold INT_MAX at hs; omega)
      simp only [ScanTime_cycle, hpos, if_true, hc0, hTF, Res.bind_ok, ht0, w1, w2]
      rw [ih f (n - 2) (i + 1) (tim + spec_integer x * m) hf2 (by
          simp only [List.length_cons, Nat.cast_add, Nat.cast_one] at hn
          omega) (fun j hj => by
          have := hitem (j + 1) (by simpa using hj)
          simp only [List.getD_cons_succ] at this
          rw [show i + 1 + j = i + (j + 1) by omega]
          exact this) (fun y hy => hm y (List.mem_cons_of_mem x hy)) hrest]
      simp only [spec_timeSum, hmx, Option.getD_some]
      rw [add_assoc]

theorem TimeField_ne_undef (c : Char) : TimeField c ≠ Res.undef := by
  unfold TimeField
  split_ifs <;> simp

theorem ScanTime_cycle_error (t : Nat → Int) (c : Nat → Char) (len f : Nat) (n : Int)
    (i : Nat) (tim : Int) (hf : len ≤ f) (hn : n = 2 * len ∨ n = 2 * len - 1)
    (hbad : ∃ j, j < len ∧ (TimeField (c (i + j))).isError = true) :
    (ScanTime_cycle t c f n i tim).isError = true := by
  induction len generalizing f n i tim with
  | zero =>
    obtain ⟨j, hj, _⟩ := hbad
    omega
  | succ len ih =>
    cases f with
    | zero => omega
    | succ f =>
      have hpos : n > 0 := by
        push_cast at hn
        omega
      simp only [ScanTime_cycle, hpos, if_true]
      cases hT : TimeField (c i) with
      | error e => rfl
      | undef => exact absurd hT (TimeField_ne_undef (c i))
      | ok m =>
        simp only [Res.bind_ok]
        obtain ⟨j, hj, hjb⟩ := hbad
        cases j with
        | zero =>
          rw [Nat.add_zero, hT] at hjb
          exact absurd hjb (by simp [Res.isError])
        | succ j =>
          exact ih f (n - 2) (i + 1) _ (by omega) (by push_cast at hn; omega)
            ⟨j, by omega, by rw [show i + 1 + j = i + (j + 1) by omega]; exact hjb⟩

theorem scan_store_of_bounds (v : Int) (h1 : INT_MIN ≤ v) (h2 : v ≤ INT_MAX) :
    scan_store v = v := by
  unfold INT_MIN at h1
  unfold INT_MAX at h2
  unfold scan_store LONG_MAX LONG_MIN
  rw [if_neg (by omega), if_neg (by omega)]
  exact wrap32_of_bounds _ (by omega) (by omega)

/-- A decimal number above `LONG_MAX` is stored by `%d` as `(int)LONG_MAX = -1`, and one
between `INT_MAX` and `LONG_MAX` modulo `2^32`. -/
theorem scan_d_saturates :
    scan_d "99999999999999999999".data = some (-1, [])
    ∧ scan_d "4294967297".data = some (1, []) := by
  constructor <;> decide

theorem spec_noOverflow_integer (fs : List TimeItem) (tim : Int)
    (h : spec_noOverflow fs tim = true) :
    ∀ x, x ∈ fs → scan_store (spec_integer x) = spec_integer x := by
  induction fs generalizing tim with
  | nil => exact fun x hx => absurd hx (List.not_mem_nil x)
  | cons y r ih =>
    simp only [spec_noOverflow, Bool.and_eq_true, decide_eq_true_eq] at h
    obtain ⟨⟨⟨hi, _⟩, _⟩, hrest⟩ := h
    intro x hx
    rcases List.mem_cons.mp hx with hx | hx
    · rw [hx]
      exact scan_store_of_bounds _ hi.1 hi.2
    · exact ih _ hrest x hx

theorem ScanTime_items (fs : List TimeItem) (hne : fs ≠ []) (hlen : fs.length ≤ 4)
    (hok : spec_fields_ok fs = true) :
    ∃ n : Int, (n = 2 * fs.length ∨ n = 2 * fs.length - 1)
      ∧ ScanTime (String.mk (spec_timeString fs))
        = ScanTime_cycle
            (fun i => ((fs.map (fun x => (scan_store (spec_integer x), x.spec))).getD i
              (0, none)).1)
            (fun i => (((fs.map (fun x => (scan_store (spec_integer x), x.spec))).getD i
              (0, none)).2).getD NUL)
            4 n 0 0 := by
  have hL := sscanf_dc_timeString fs 4 hlen hok
  have hcount := sscanf_count_timeString fs hok
  have hpos : 1 ≤ fs.length := by
    cases fs with
    | nil => exact absurd rfl hne
    | cons x r => simp
  refine ⟨_, hcount, ?_⟩
  simp only [ScanTime, hL]
  rw [if_neg (by omega)]

theorem map_getD_timeString (fs : List TimeItem) (j : Nat) :
    (fs.map (fun x => (scan_store (spec_integer x), x.spec))).getD j (0, none)
      = (scan_store (spec_integer (fs.getD j ⟨false, [], none⟩)),
          (fs.getD j ⟨false, [], none⟩).spec) := by
  induction fs generalizing j with
  | nil =>
    have h0 : spec_integer ⟨false, [], none⟩ = 0 := rfl
    simp only [List.map_nil, List.getD_nil, h0]
    rw [scan_store_of_bounds 0 (by decide) (by decide)]
  | cons x r ih =>
    cases j with
    | zero => rfl
    | succ j => simpa using ih j

theorem getD_mem_of_lt (fs : List TimeItem) (j : Nat) (hj : j < fs.length) :
    fs.getD j ⟨false, [], none⟩ ∈ fs := by
  induction fs generalizing j with
  | nil => simp at hj
  | cons x r ih =>
    cases j with
    | zero => simp
    | succ j =>
      simp only [List.getD_cons_succ]
      exact List.mem_cons_of_mem x (ih j (by simpa using hj))

theorem ScanTime_timeString_sum (fs : List TimeItem) (hne : fs ≠ []) (hlen : fs.length ≤ 4)
    (hok : spec_fields_ok fs = true)
    (hm : ∀ x, x ∈ fs → (spec_mult x.spec).isSome = true)
    (hfit : spec_noOverflow fs 0 = true) :
    ScanTime (String.mk (spec_timeString fs)) = Res.ok (spec_timeSum fs) := by
  obtain ⟨n, hn, hS⟩ := ScanTime_items fs hne hlen hok
  rw [hS]
  have hw := spec_noOverflow_integer fs 0 hfit
  have := ScanTime_cycle_sum
    (fun i => ((fs.map (fun x => (scan_store (spec_integer x), x.spec))).getD i (0, none)).1)
    (fun i => (((fs.map (fun x => (scan_store (spec_integer x), x.spec))).getD i
      (0, none)).2).getD NUL)
    fs 4 n 0 0 hlen hn (fun j hj => by
      simp only [Nat.zero_add, map_getD_timeString]
      exact ⟨hw _ (getD_mem_of_lt fs j hj), trivial⟩) hm hfit
  rw [this, zero_add]

theorem ScanTime_timeString_error (fs : List TimeItem) (hne : fs ≠ []) (hlen : fs.length ≤ 4)
    (hok : spec_fields_ok fs = true)
    (hbad : ∃ x, x ∈ fs ∧ spec_mult x.spec = none) :
    (ScanTime (String.mk (spec_timeString fs))).isError = true := by
  obtain ⟨n, hn, hS⟩ := ScanTime_items fs hne hlen hok
  rw [hS]
  obtain ⟨x, hx, hxm⟩ := hbad
  obtain ⟨j, hj, hjx⟩ : ∃ j, j < fs.length ∧ fs.getD j ⟨false, [], none⟩ = x := by
    obtain ⟨k, hk, hkx⟩ := List.getElem_of_mem hx
    exact ⟨k, hk, by rw [List.getD_eq_getElem _ _ hk, hkx]⟩
  have hitem_ok : ∀ y, y ∈ fs → spec_item_ok y = true := by
    intro y hy
    clear hS hn hne hlen hj hjx hx
    induction fs with
    | nil => exact absurd hy (List.not_mem_nil y)
    | cons z r ih =>
      obtain ⟨h1, _, h3⟩ := spec_fields_ok_cons z r hok
      rcases List.mem_cons.mp hy with hy | hy
      · rw [hy]
        exact h1
      · exact ih h3 hy
  apply ScanTime_cycle_error _ _ fs.length 4 n 0 0 hlen hn
  refine ⟨j, hj, ?_⟩
  simp only [Nat.zero_add, map_getD_timeString, hjx]
  cases hs : x.spec with
  | none =>
    rw [hs] at hxm
    exact absurd hxm (by simp [spec_mult])
  | some c =>
    rw [hs] at hxm
    obtain ⟨_, _, g3⟩ := spec_item_ok_iff x (hitem_ok x hx)
    exact TimeField_of_spec_mult_none c hxm (g3 c hs).2

/-- C12, counterexample: the string `24856d` is one field `<integer><specifier>` whose sum
`24856 * 86400 = 2147558400` is greater than `INT_MAX`, so the `int` that `ScanTime` returns
is not this sum: the multiplication overflows and the result is `-2147408896`. -/
theorem ScanTime_24856d :
    "24856d" = String.mk (spec_timeString [⟨false, ['2', '4', '8', '5', '6'], some 'd'⟩])
    ∧ spec_fields_ok [⟨false, ['2', '4', '8', '5', '6'], some 'd'⟩] = true
    ∧ spec_timeSum [⟨false, ['2', '4', '8', '5', '6'], some 'd'⟩] = 2147558400
    ∧ INT_MAX < 2147558400
    ∧ ScanTime "24856d" = Res.ok (-2147408896) := by
  refine ⟨by decide, by decide, by decide, by decide, by decide⟩

/-- C12, amended: for every string made of one to four well-formed fields
`<integer><specifier>` (only the last specifier may be missing) with specifiers among
d, h, m, s in any case, such that every integer, every product and every partial sum lies
within `int`, `ScanTime` returns the sum of `integer_i * mult(specifier_i)`, with a missing
specifier counted as seconds; when one of the specifiers is another character the result is
an error.  The documented examples give 45000, 86410 and 3600, and a string that does not
start with an integer is an error. -/
theorem ScanTime_spec (fs : List TimeItem) (hne : fs ≠ []) (hlen : fs.length ≤ 4)
    (hok : spec_fields_ok fs = true) :
    ((∀ x, x ∈ fs → (spec_mult x.spec).isSome = true) → spec_noOverflow fs 0 = true →
      ScanTime (String.mk (spec_timeString fs)) = Res.ok (spec_timeSum fs))
    ∧ ((∃ x, x ∈ fs ∧ spec_mult x.spec = none) →
      (ScanTime (String.mk (spec_timeString fs))).isError = true)
    ∧ ScanTime "12h30M" = Res.ok 45000 ∧ ScanTime "1D10s" = Res.ok 86410
    ∧ ScanTime "3600" = Res.ok 3600
    ∧ (∀ str : String, scan_d str.data = none →
        ScanTime str = Res.error ("Wrong time format " ++ str))
    ∧ (ScanTime "h12").isError = true ∧ (ScanTime "").isError = true
    ∧ (ScanTime "12x").isError = true := by
  refine ⟨ScanTime_timeString_sum fs hne hlen hok, ScanTime_timeString_error fs hne hlen hok,
    by decide, by decide, by decide, fun str h => ?_, by decide, by decide, by decide⟩
  simp [ScanTime, sscanf_dc, h, sscanf_count]

/-- Witness of C12, amended: the fields `12h` and `30M`, the string `12h30M`. -/
theorem ScanTime_spec_witness :
    String.mk (spec_timeString [⟨false, ['1', '2'], some 'h'⟩, ⟨false, ['3', '0'], some 'M'⟩])
      = "12h30M"
    ∧ spec_timeSum [⟨false, ['1', '2'], some 'h'⟩, ⟨false, ['3', '0'], some 'M'⟩] = 45000
    ∧ ScanTime (String.mk
        (spec_timeString [⟨false, ['1', '2'], some 'h'⟩, ⟨false, ['3', '0'], some 'M'⟩]))
      = Res.ok (spec_timeSum [⟨false, ['1', '2'], some 'h'⟩, ⟨false, ['3', '0'], some 'M'⟩]) :=
  ⟨by decide, by decide,
    (ScanTime_spec [⟨false, ['1', '2'], some 'h'⟩, ⟨false, ['3', '0'], some 'M'⟩]
      (by decide) (by decide) (by decide)).1 (by decide) (by decide)⟩

/-! ## The grid of ScanIntegrParms -/

theorem ScanIntegrParms_equally_spaced {K : Type} [LinearOrderedField K] (PI : K)
    (cos acos : K → K) (amin amax : K) (Jmin Jmax : Int) (eps : K)
    (equiv periodic : String)
    (he : equiv = "true" ∨ equiv = "false") (hp : periodic = "true" ∨ periodic = "false")
    (h1 : amin < amax) (h2 : Jmin ≤ Jmax) (h3 : 1 ≤ Jmin) (h4 : 0 ≤ eps) (h5 : Jmax ≤ 30) :
    ∃ a b, ScanIntegrParms PI cos acos
          ⟨some amin, some amax, some Jmin, some Jmax, some eps, some equiv, some periodic⟩
          false = Res.ok (a, b)
      ∧ a.N = (if equiv = "true" then 2 ^ Jmax.toNat else 2 ^ Jmax.toNat + 1)
      ∧ (∀ i, i < a.N → a.val i = Res.ok (amin + (i : K) * (amax - amin) / 2 ^ Jmax.toNat))
      ∧ (∀ i, a.N ≤ i → a.val i = Res.undef) := by
  have hJmin : INT_MIN ≤ Jmin ∧ Jmin ≤ INT_MAX := by
    unfold INT_MIN INT_MAX
    omega
  have hJmax : INT_MIN ≤ Jmax ∧ Jmax ≤ INT_MAX := by
    unfold INT_MIN INT_MAX
    omega
  have hscan := ScanIntegrParms_scan_read amin amax Jmin Jmax eps equiv periodic hJmin hJmax
  rw [if_neg (fun hc => by rcases he with h | h <;> simp [h] at hc),
    if_neg (fun hc => by rcases hp with h | h <;> simp [h] at hc)] at hscan
  have hfill := ScanIntegrParms_fill_of_le_30 amin amax Jmin Jmax eps
    (decide (equiv = "true")) h1 h2 h3 h4 h5
  have hG : ((2 : Int) ^ Jmax.toNat + 1) ≠ 1 := by
    have : (0 : Int) < 2 ^ Jmax.toNat := by positivity
    omega
  have hcast : ((((2 : Int) ^ Jmax.toNat + 1 - 1 : Int)) : K) = 2 ^ Jmax.toNat := by
    push_cast
    ring
  have hpow : (2 : K) ^ Jmax.toNat ≠ 0 := by positivity
  have h : ScanIntegrParms PI cos acos
        ⟨some amin, some amax, some Jmin, some Jmax, some eps, some equiv, some periodic⟩ false
      = ScanIntegrParms_points PI cos acos false amin amax Jmin eps
          (decide (equiv = "true")) (decide (periodic = "true"))
          (if decide (equiv = "true") = true then 2 ^ Jmax.toNat else 2 ^ Jmax.toNat + 1)
          (2 ^ Jmax.toNat + 1) Jmax := by
    have hm := ScanIntegrParms_malloc_le_30 Jmax (decide (equiv = "true")) h5
    simp only [ScanIntegrParms, hscan, Res.bind_ok, hfill, hm]
  rw [h]
  refine ⟨_, _, rfl, ?_, ?_, ?_⟩
  · simp
  · intro i hi
    simp only [decide_eq_true_eq] at hi
    simp only [if_neg hG, filled, hcast, decide_eq_true_eq]
    rw [if_pos hi]
    congr 1
    field_simp
    ring
  · intro i hi
    simp only [decide_eq_true_eq] at hi
    simp only [if_neg hG, filled, decide_eq_true_eq]
    rw [if_neg (by omega)]

theorem ScanIntegrParms_samples {K : Type} [LinearOrderedField K] (PI : K)
    (cos acos : K → K) (amin amax : K) (Jmin Jmax : Int) (eps : K)
    (equiv periodic : String)
    (he : equiv = "true" ∨ equiv = "false") (hp : periodic = "true" ∨ periodic = "false")
    (h1 : amin < amax) (h2 : Jmin ≤ Jmax) (h3 : 1 ≤ Jmin) (h4 : 0 ≤ eps) (h5 : Jmax ≤ 30) :
    ∃ a b, ScanIntegrParms PI cos acos
          ⟨some amin, some amax, some Jmin, some Jmax, some eps, some equiv, some periodic⟩
          false = Res.ok (a, b)
      ∧ a.N = (if equiv = "true" then 2 ^ Jmax.toNat else 2 ^ Jmax.toNat + 1)
      ∧ (∀ i, i < a.N → a.val i = Res.ok (amin + (i : K) * (amax - amin) / 2 ^ Jmax.toNat))
      ∧ (∀ i j, i < j → j < a.N →
          amin + (i : K) * (amax - amin) / 2 ^ Jmax.toNat
            < amin + (j : K) * (amax - amin) / 2 ^ Jmax.toNat)
      ∧ a.val 0 = Res.ok amin
      ∧ (equiv = "false" → a.val (a.N - 1) = Res.ok amax)
      ∧ (equiv = "true" →
          a.val (a.N - 1) = Res.ok (amax - (amax - amin) / 2 ^ Jmax.toNat)) := by
  obtain ⟨a, b, hab, hN, hval, _⟩ := ScanIntegrParms_equally_spaced PI cos acos amin amax
    Jmin Jmax eps equiv periodic he hp h1 h2 h3 h4 h5
  have hpow : (0 : K) < 2 ^ Jmax.toNat := by positivity
  have hpowN : 0 < 2 ^ Jmax.toNat := by positivity
  have hNpos : 0 < a.N := by
    rw [hN]
    split_ifs <;> omega
  refine ⟨a, b, hab, hN, hval, fun i j hij _ => ?_, ?_, fun hf => ?_, fun ht => ?_⟩
  · have hd : (0 : K) < amax - amin := sub_pos.mpr h1
    have hc : (i : K) < (j : K) := by exact_mod_cast hij
    have : (i : K) * (amax - amin) / 2 ^ Jmax.toNat < (j : K) * (amax - amin) / 2 ^ Jmax.toNat :=
      div_lt_div_of_pos_right (mul_lt_mul_of_pos_right hc hd) hpow
    linarith
  · rw [hval 0 hNpos]
    simp
  · have hN2 : a.N = 2 ^ Jmax.toNat + 1 := by
      rw [hN, if_neg (by rw [hf]; decide)]
    rw [hval (a.N - 1) (by omega), hN2]
    congr 1
    simp only [Nat.add_sub_cancel]
    push_cast
    field_simp
  · have hN2 : a.N = 2 ^ Jmax.toNat := by
      rw [hN, if_pos ht]
    rw [hval (a.N - 1) (by omega), hN2]
    congr 1
    rw [Nat.cast_sub (by omega)]
    push_cast
    field_simp
    ring

theorem ScanIntegrParms_single_sample {K : Type} [LinearOrderedField K] (PI : K)
    (cos acos : K → K) (amin : K) (Jmin Jmax : Int) (eps : K) (equiv periodic : String)
    (he : equiv = "true" ∨ equiv = "false") (hp : periodic = "true" ∨ periodic = "false")
    (hJmin : INT_MIN ≤ Jmin ∧ Jmin ≤ INT_MAX) (hJmax : INT_MIN ≤ Jmax ∧ Jmax ≤ INT_MAX) :
    ∃ a b, ScanIntegrParms PI cos acos
          ⟨some amin, some amin, some Jmin, some Jmax, some eps, some equiv, some periodic⟩
          false = Res.ok (a, b)
      ∧ a.N = 1 ∧ a.val 0 = Res.ok amin := by
  have hscan := ScanIntegrParms_scan_read amin amin Jmin Jmax eps equiv periodic hJmin hJmax
  rw [if_neg (fun hc => by rcases he with h | h <;> simp [h] at hc),
    if_neg (fun hc => by rcases hp with h | h <;> simp [h] at hc)] at hscan
  have hfill : ScanIntegrParms_fill amin amin Jmin Jmax eps (decide (equiv = "true"))
      = Res.ok (1, 1, 1) := by
    unfold ScanIntegrParms_fill
    rw [if_pos rfl]
  have h : ScanIntegrParms PI cos acos
        ⟨some amin, some amin, some Jmin, some Jmax, some eps, some equiv, some periodic⟩ false
      = ScanIntegrParms_points PI cos acos false amin amin Jmin eps
          (decide (equiv = "true")) (decide (periodic = "true")) 1 1 1 := by
    have hm : MALLOC_VECTOR 8 1 "a->val" = Res.ok () := MALLOC_VECTOR_eq_ok _ _ _ (by decide)
    simp only [ScanIntegrParms, hscan, Res.bind_ok, hfill, hm]
  rw [h]
  exact ⟨_, _, rfl, rfl, rfl⟩

/-- A block whose seven keys were read and from which `ScanIntegrParms` returns: `Jmin` and
`Jmax` are within `int` and `equiv`, `periodic` are `true` or `false`. -/
theorem ScanIntegrParms_ok_words {K : Type} [LinearOrderedField K] (PI : K)
    (cos acos : K → K) (amin amax : K) (Jmin Jmax : Int) (eps : K)
    (equiv periodic : String) (ifcos : Bool) (r : angle_set K × Parms_1D K)
    (h : ScanIntegrParms PI cos acos
          ⟨some amin, some amax, some Jmin, some Jmax, some eps, some equiv, some periodic⟩
          ifcos = Res.ok r) :
    (INT_MIN ≤ Jmin ∧ Jmin ≤ INT_MAX) ∧ (INT_MIN ≤ Jmax ∧ Jmax ≤ INT_MAX)
    ∧ (equiv = "true" ∨ equiv = "false") ∧ (periodic = "true" ∨ periodic = "false") := by
  by_cases b1 : Jmin < INT_MIN ∨ Jmin > INT_MAX
  · simp [ScanIntegrParms, ScanIntegrParms_scan, ScanDouble, ScanInt, if_pos b1, Res.bind] at h
  by_cases b2 : Jmax < INT_MIN ∨ Jmax > INT_MAX
  · simp [ScanIntegrParms, ScanIntegrParms_scan, ScanDouble, ScanInt, if_neg b1, if_pos b2,
      Res.bind] at h
  have hJmin : INT_MIN ≤ Jmin ∧ Jmin ≤ INT_MAX := by omega
  have hJmax : INT_MIN ≤ Jmax ∧ Jmax ≤ INT_MAX := by omega
  have hscan := ScanIntegrParms_scan_read amin amax Jmin Jmax eps equiv periodic hJmin hJmax
  by_cases he : equiv ≠ "true" ∧ equiv ≠ "false"
  · rw [if_pos he] at hscan
    simp [ScanIntegrParms, hscan, Res.bind] at h
  rw [if_neg he] at hscan
  by_cases hp : periodic ≠ "true" ∧ periodic ≠ "false"
  · rw [if_pos hp] at hscan
    simp [ScanIntegrParms, hscan, Res.bind] at h
  refine ⟨hJmin, hJmax, ?_, ?_⟩
  · by_contra hc
    exact he ⟨fun h1 => hc (Or.inl h1), fun h2 => hc (Or.inr h2)⟩
  · by_contra hc
    exact hp ⟨fun h1 => hc (Or.inl h1), fun h2 => hc (Or.inr h2)⟩

/-- A block with `min < max` from which `ScanIntegrParms` returns passed the checks and has
`Jmax <= 30`. -/
theorem ScanIntegrParms_ok_valid {K : Type} [LinearOrderedField K] (PI : K)
    (cos acos : K → K) (amin amax : K) (Jmin Jmax : Int) (eps : K)
    (equiv periodic : String) (ifcos : Bool) (r : angle_set K × Parms_1D K)
    (h1 : amin < amax)
    (h : ScanIntegrParms PI cos acos
          ⟨some amin, some amax, some Jmin, some Jmax, some eps, some equiv, some periodic⟩
          ifcos = Res.ok r) :
    (equiv = "true" ∨ equiv = "false") ∧ (periodic = "true" ∨ periodic = "false")
    ∧ Jmin ≤ Jmax ∧ 1 ≤ Jmin ∧ 0 ≤ eps ∧ Jmax ≤ 30 := by
  obtain ⟨hJmin, hJmax, he, hp⟩ := ScanIntegrParms_ok_words PI cos acos amin amax Jmin Jmax
    eps equiv periodic ifcos r h
  have hiff := ((ScanIntegrParms_isError_iff PI cos acos amin amax Jmin Jmax eps equiv periodic
    ifcos hJmin hJmax).1 (ne_of_lt h1)).1
  have hno : ¬ ((ScanIntegrParms PI cos acos
      ⟨some amin, some amax, some Jmin, some Jmax, some eps, some equiv, some periodic⟩
      ifcos).isError = true) := by
    rw [h]
    simp [Res.isError]
  have hn := fun hc => hno (hiff.mpr hc)
  refine ⟨he, hp, ?_, ?_, ?_, ?_⟩
  · by_contra hc
    exact hn (Or.inr (Or.inl (not_le.mp hc)))
  · by_contra hc
    exact hn (Or.inr (Or.inr (Or.inl (by omega))))
  · by_contra hc
    exact hn (Or.inr (Or.inr (Or.inr (Or.inl (not_le.mp hc)))))
  · by_contra hc
    have h32 : ¬ (Jmax ≥ 32) := fun h => hn (Or.inr (Or.inr (Or.inr (Or.inr (Or.inl h)))))
    have h31 : ¬ (Jmax = 31) := fun h => hn (or9_last h)
    omega

/-- C21: for a non-cosine angle set with `min < max`, whenever `ScanIntegrParms` returns it
has filled `val[i] = min + i*(max - min)/2^Jmax` for every `i < a->N` (exact arithmetic),
so the samples are strictly increasing, `val[0] = min`, and the last sample is `max` when
`equiv=false` (`N = 2^Jmax + 1`) and `max - (max - min)/2^Jmax` when `equiv=true`
(`N = 2^Jmax`); it returns for every block that passes the checks with `Jmax <= 30`; and
when `min = max` it returns with the single sample `val[0] = min`. -/
theorem ScanIntegrParms_spacing {K : Type} [LinearOrderedField K] (PI : K)
    (cos acos : K → K) (amin amax : K) (Jmin Jmax : Int) (eps : K)
    (equiv periodic : String) (h1 : amin < amax) :
    (∀ a b, ScanIntegrParms PI cos acos
          ⟨some amin, some amax, some Jmin, some Jmax, some eps, some equiv, some periodic⟩
          false = Res.ok (a, b) →
        (∀ i, i < a.N → a.val i = Res.ok (amin + (i : K) * (amax - amin) / 2 ^ Jmax.toNat))
        ∧ (∀ i j x y, i < j → j < a.N → a.val i = Res.ok x → a.val j = Res.ok y → x < y)
        ∧ 0 < a.N ∧ a.val 0 = Res.ok amin
        ∧ (equiv = "false" → a.N = 2 ^ Jmax.toNat + 1 ∧ a.val (a.N - 1) = Res.ok amax)
        ∧ (equiv = "true" → a.N = 2 ^ Jmax.toNat
            ∧ a.val (a.N - 1) = Res.ok (amax - (amax - amin) / 2 ^ Jmax.toNat)))
    ∧ ((equiv = "true" ∨ equiv = "false") → (periodic = "true" ∨ periodic = "false") →
        Jmin ≤ Jmax → 1 ≤ Jmin → 0 ≤ eps → Jmax ≤ 30 →
        ∃ a b, ScanIntegrParms PI cos acos
          ⟨some amin, some amax, some Jmin, some Jmax, some eps, some equiv, some periodic⟩
          false = Res.ok (a, b))
    ∧ (∀ a b, ScanIntegrParms PI cos acos
          ⟨some amin, some amin, some Jmin, some Jmax, some eps, some equiv, some periodic⟩
          false = Res.ok (a, b) → a.N = 1 ∧ a.val 0 = Res.ok amin)
    ∧ ((equiv = "true" ∨ equiv = "false") → (periodic = "true" ∨ periodic = "false") →
        (INT_MIN ≤ Jmin ∧ Jmin ≤ INT_MAX) → (INT_MIN ≤ Jmax ∧ Jmax ≤ INT_MAX) →
        ∃ a b, ScanIntegrParms PI cos acos
          ⟨some amin, some amin, some Jmin, some Jmax, some eps, some equiv, some periodic⟩
          false = Res.ok (a, b)) := by
  refine ⟨fun a b hab => ?_, fun he hp h2 h3 h4 h5 => ?_, fun a b hab => ?_,
    fun he hp hJmin hJmax => ?_⟩
  · obtain ⟨he, hp, h2, h3, h4, h5⟩ := ScanIntegrParms_ok_valid PI cos acos amin amax Jmin
      Jmax eps equiv periodic false (a, b) h1 hab
    obtain ⟨a2, b2, hab2, hN, hval, hinc, h0, hf, ht⟩ := ScanIntegrParms_samples PI cos acos
      amin amax Jmin Jmax eps equiv periodic he hp h1 h2 h3 h4 h5
    rw [hab] at hab2
    have ha : a = a2 := congrArg Prod.fst (Res.ok.inj hab2)
    subst ha
    have hpowN : 0 < 2 ^ Jmax.toNat := by positivity
    have hNpos : 0 < a.N := by
      rw [hN]
      split_ifs <;> omega
    refine ⟨hval, fun i j x y hij hj hx hy => ?_, hNpos, h0, fun hfalse => ⟨?_, hf hfalse⟩,
      fun htrue => ⟨?_, ht htrue⟩⟩
    · rw [hval i (by omega)] at hx
      rw [hval j hj] at hy
      rw [← Res.ok.inj hx, ← Res.ok.inj hy]
      exact hinc i j hij hj
    · rw [hN, if_neg (by rw [hfalse]; decide)]
    · rw [hN, if_pos htrue]
  · obtain ⟨a, b, hab, _⟩ := ScanIntegrParms_samples PI cos acos amin amax Jmin Jmax eps
      equiv periodic he hp h1 h2 h3 h4 h5
    exact ⟨a, b, hab⟩
  · obtain ⟨hJmin, hJmax, he, hp⟩ := ScanIntegrParms_ok_words PI cos acos amin amin Jmin Jmax
      eps equiv periodic false (a, b) hab
    obtain ⟨a2, b2, hab2, hN, h0⟩ := ScanIntegrParms_single_sample PI cos acos amin Jmin Jmax
      eps equiv periodic he hp hJmin hJmax
    rw [hab] at hab2
    have ha : a = a2 := congrArg Prod.fst (Res.ok.inj hab2)
    subst ha
    exact ⟨hN, h0⟩
  · obtain ⟨a, b, hab, _⟩ := ScanIntegrParms_single_sample PI cos acos amin Jmin Jmax
      eps equiv periodic he hp hJmin hJmax
    exact ⟨a, b, hab⟩

/-- Witness of C21: the block `min = 0`, `max = 360`, `Jmin = 1`, `Jmax = 2`, `equiv=false`
is read, with five samples from 0 to 360. -/
theorem ScanIntegrParms_spacing_witness :
    (0 : ℚ) < 360
    ∧ ∃ a b, ScanIntegrParms (3 : ℚ) id id
          ⟨some 0, some 360, some 1, some 2, some 0, some "false", some "false"⟩ false
        = Res.ok (a, b)
      ∧ a.val 0 = Res.ok 0 ∧ a.N = 2 ^ (2 : Int).toNat + 1 ∧ a.val (a.N - 1) = Res.ok 360 := by
  have h := ScanIntegrParms_spacing (3 : ℚ) id id 0 360 1 2 0 "false" "false" (by norm_num)
  obtain ⟨a, b, hab⟩ := h.2.1 (Or.inr rfl) (Or.inr rfl) (by norm_num) (by norm_num)
    (le_refl 0) (by norm_num)
  obtain ⟨_, _, _, h0, hf, _⟩ := h.1 a b hab
  exact ⟨by norm_num, a, b, hab, h0, (hf rfl).1, (hf rfl).2⟩

/-- C26 at the failing input: with `Jmin = 1` and `Jmax = 31` the checks pass
(`31 < 8*sizeof(int) = 32`), and `(1 << 31) + 1` in 32-bit `int` is `-2147483647`: negative,
not `2^31 + 1`.  For `1 <= Jmax <= 30` the value is `2^Jmax + 1` and positive. -/
theorem ScanIntegrParms_guard_Jmax31 :
    ScanIntegrParms_fill (0 : ℚ) 360 1 31 0 false
      = Res.ok (18446744071562067969, -2147483647, 31)
    ∧ wrap32 (shl32 1 31 + 1) = -2147483647
    ∧ wrap32 (shl32 1 31 + 1) < 0
    ∧ wrap32 (shl32 1 31 + 1) ≠ 2 ^ 31 + 1
    ∧ ∀ J : Int, 1 ≤ J → J ≤ 30 →
        wrap32 (shl32 1 J + 1) = 2 ^ J.toNat + 1 ∧ 0 < wrap32 (shl32 1 J + 1) := by
  have g : wrap32 (shl32 1 31 + 1) = -2147483647 := by decide
  refine ⟨?_, g, by rw [g]; decide, by rw [g]; decide, fun J hJ1 hJ2 => ?_⟩
  · have := ScanIntegrParms_fill_Jmax31 (0 : ℚ) 360 1 0 false (by norm_num) (by norm_num)
      (by norm_num) (by norm_num)
    simpa using this
  · have e := grid_size_of_le_30 J (by omega) hJ2
    rw [e]
    have : (0 : Int) < 2 ^ J.toNat := by positivity
    exact ⟨rfl, by omega⟩

/-! ## The checks of the option -grid -/

theorem TestPositive_i_isError (val : Int) (name : String) (h : val ≤ 0) :
    (TestPositive_i val name).isError = true := by
  unfold TestPositive_i
  rw [if_pos h]
  rfl

theorem parse_grid_count {K : Type} (sscanf_i : String → Option Int) (Narg : Nat)
    (argv : Nat → String) (v : Vars K) (h : Narg ≠ 1 ∧ Narg ≠ 3) :
    (parse_grid sscanf_i Narg argv v).isError = true := by
  unfold parse_grid
  rw [if_pos h]
  rfl

theorem parse_grid_one_isError {K : Type} (sscanf_i : String → Option Int)
    (argv : Nat → String) (v : Vars K) :
    (parse_grid sscanf_i 1 argv v).isError = true
      ↔ (sscanf_i (argv 1) = none ∨ ∃ nx, sscanf_i (argv 1) = some nx ∧ nx ≤ 0) := by
  unfold parse_grid
  rw [if_neg (by decide)]
  cases h1 : sscanf_i (argv 1) with
  | none => simp [ScanfError, Res.bind, Res.isError]
  | some nx =>
    simp only [ScanfError_some, Res.bind_ok]
    by_cases hx : nx ≤ 0
    · have he := TestPositive_i_isError nx "gridX" hx
      constructor
      · exact fun _ => Or.inr ⟨nx, rfl, hx⟩
      · exact fun _ => (Res.isError_bind _ _).mpr (Or.inl he)
    · rw [TestPositive_i_eq_ok nx _ (by omega)]
      simp only [Res.bind_ok, if_neg (by decide : ¬ (1 = 3)), Res.isError]
      constructor
      · exact fun h => absurd h (by simp)
      · rintro (h | ⟨n, hn1, hn2⟩)
        · exact absurd h (by simp)
        · rw [Option.some.inj hn1] at hx
          exact absurd hn2 hx

theorem parse_grid_three_nonpositive {K : Type} (sscanf_i : String → Option Int)
    (argv : Nat → String) (v : Vars K) (nx ny : Int)
    (h1 : sscanf_i (argv 1) = some nx) (h2 : sscanf_i (argv 2) = some ny)
    (h : nx ≤ 0 ∨ ny ≤ 0) :
    (parse_grid sscanf_i 3 argv v).isError = true := by
  unfold parse_grid
  rw [if_neg (by decide)]
  simp only [h1, ScanfError_some, Res.bind_ok]
  by_cases hx : nx ≤ 0
  · exact (Res.isError_bind _ _).mpr (Or.inl (TestPositive_i_isError nx "gridX" hx))
  · rw [TestPositive_i_eq_ok nx _ (by omega)]
    have hy : ny ≤ 0 := by
      rcases h with h | h
      · exact absurd h hx
      · exact h
    simp only [Res.bind_ok, if_true, h2, ScanfError_some]
    exact (Res.isError_bind _ _).mpr (Or.inl (TestPositive_i_isError ny "gridY" hy))

/-- C25 at the failing input: `-grid 16 16 -4` is accepted and leaves `boxZ = -4`: after
`boxZ` is scanned it is `boxY` that is tested again.  The other checks are there: one
argument is accepted exactly when `nx` is a positive integer, with three arguments a
non-positive `nx` or `ny` is an error, and a number of arguments other than 1 or 3 is an
error. -/
theorem parse_grid_boxZ_unchecked :
    parse_grid (fun s : String => if s = "16" then some (16 : Int) else
        if s = "-4" then some (-4) else none) 3
        (fun j => if j = 3 then "-4" else "16") (InitVariables (3 : ℚ))
      = Res.ok { InitVariables (3 : ℚ) with boxX := 16, boxY := 16, boxZ := -4 }
    ∧ ¬ ((0 : Int) < -4)
    ∧ (∀ (sscanf_i : String → Option Int) (argv : Nat → String) (v : Vars ℚ),
        ((parse_grid sscanf_i 1 argv v).isError = true
          ↔ (sscanf_i (argv 1) = none ∨ ∃ nx, sscanf_i (argv 1) = some nx ∧ nx ≤ 0))
        ∧ (∀ nx ny, sscanf_i (argv 1) = some nx → sscanf_i (argv 2) = some ny →
            (nx ≤ 0 ∨ ny ≤ 0) → (parse_grid sscanf_i 3 argv v).isError = true)
        ∧ (∀ Narg, (Narg ≠ 1 ∧ Narg ≠ 3) →
            (parse_grid sscanf_i Narg argv v).isError = true)) := by
  refine ⟨?_, by decide, fun sscanf_i argv v => ⟨parse_grid_one_isError sscanf_i argv v,
    fun nx ny h1 h2 h => parse_grid_three_nonpositive sscanf_i argv v nx ny h1 h2 h,
    fun Narg h => parse_grid_count sscanf_i Narg argv v h⟩⟩
  exact parse_grid_three _ _ _ 16 16 (-4) (by simp) (by simp) (by simp) (by decide)
    (by decide)

/-! ## ScanAngleSet -/

theorem Frp_mat_jjj_eq (j : Nat) (hj : (3 * j : Int) ≤ INT_MAX) : Frp_mat_jjj j = 3 * j := by
  unfold INT_MAX at hj
  unfold Frp_mat_jjj
  have h1 : (3 * j) % 2 ^ 64 = 3 * j := Nat.mod_eq_of_lt (by omega)
  rw [h1]
  push_cast
  exact wrap32_of_bounds _ (by omega) (by omega)

theorem Frp_mat_index_eq (d0 j comp : Nat) (h : d0 ≤ j)
    (hj : (3 * j + comp : Int) ≤ INT_MAX) :
    Frp_mat_index d0 (Frp_mat_jjj j) comp = 3 * (j - d0) + comp := by
  have hj2 : (3 * j : Int) ≤ INT_MAX := by omega
  rw [Frp_mat_jjj_eq j hj2]
  unfold INT_MAX at hj
  have hs : to_size_t (3 * (j : Int)) = 3 * j := by
    have := to_size_t_of_nonneg (3 * (j : Int)) (by omega) hj2
    omega
  unfold Frp_mat_index
  rw [hs]
  omega

theorem Frp_mat_at_eq (j comp : Nat) (hj : (3 * j + comp : Int) ≤ INT_MAX) :
    Frp_mat_at (Frp_mat_jjj j) comp = 3 * j + comp := by
  have hj2 : (3 * j : Int) ≤ INT_MAX := by omega
  rw [Frp_mat_jjj_eq j hj2]
  unfold INT_MAX at hj
  have hs : to_size_t (3 * (j : Int)) = 3 * j := by
    have := to_size_t_of_nonneg (3 * (j : Int)) (by omega) hj2
    omega
  unfold Frp_mat_at
  rw [hs]
  omega

/-- C24 at the failing input: two processes, a grid of 2 x 2 cells per layer; the process
of rank 1 starts at the layer `local_z0 = 1`, and the process of rank 0 owns one occupied
dipole out of its four cells.  Then `local_d0 = 4` but `local_nvoid_d0 = 1`, and for the
first owned dipole `j = 1` the index `jjj-3*local_d0+comp` is `3 - 12` in `size_t`: it does
not lie in `[0, 3*local_nvoid_Ndip)` and is not `3*(j - local_nvoid_d0) + comp`.  In general
the index is `3*(j - local_d0) + comp`, the stated one only when `local_d0` equals
`local_nvoid_d0`. -/
theorem Frp_mat_index_offset :
    Frp_mat_local_d0 2 2 1 = 4
    ∧ Frp_mat_local_nvoid_d0 (fun i => if i = 0 then 1 else 4) 1 = 1
    ∧ Frp_mat_index (Frp_mat_local_d0 2 2 1) (Frp_mat_jjj 1) 0 = 18446744073709551607
    ∧ ¬ (Frp_mat_index (Frp_mat_local_d0 2 2 1) (Frp_mat_jjj 1) 0 < 3 * 4)
    ∧ Frp_mat_index (Frp_mat_local_d0 2 2 1) (Frp_mat_jjj 1) 0
        ≠ 3 * (1 - Frp_mat_local_nvoid_d0 (fun i => if i = 0 then 1 else 4) 1) + 0
    ∧ (∀ d0 j comp : Nat, d0 ≤ j → (3 * j + comp : Int) ≤ INT_MAX →
        Frp_mat_index d0 (Frp_mat_jjj j) comp = 3 * (j - d0) + comp) := by
  refine ⟨by decide, by decide, by decide, by decide, by decide, ?_⟩
  exact fun d0 j comp h hj => Frp_mat_index_eq d0 j comp h hj

/-! ## CalcAlldir -/

theorem storeComplex_pair {K : Type} (E : Int → K) (q : Int) (e1 e2 : doublecomplex K) :
    storeComplex (storeComplex E (2 * q) e1) (2 * q + 1) e2 (4 * q) = e1.RE
    ∧ storeComplex (storeComplex E (2 * q) e1) (2 * q + 1) e2 (4 * q + 1) = e1.IM
    ∧ storeComplex (storeComplex E (2 * q) e1) (2 * q + 1) e2 (4 * q + 2) = e2.RE
    ∧ storeComplex (storeComplex E (2 * q) e1) (2 * q + 1) e2 (4 * q + 3) = e2.IM
    ∧ ∀ k : Int, (k < 4 * q ∨ 4 * (q + 1) ≤ k) →
        storeComplex (storeComplex E (2 * q) e1) (2 * q + 1) e2 k = E k := by
  refine ⟨?_, ?_, ?_, ?_, fun k hk => ?_⟩
  · simp only [storeComplex]
    rw [if_neg (by omega), if_neg (by omega), if_pos (by omega)]
  · simp only [storeComplex]
    rw [if_neg (by omega), if_neg (by omega), if_neg (by omega), if_pos (by omega)]
  · simp only [storeComplex]
    rw [if_pos (by omega)]
  · simp only [storeComplex]
    rw [if_neg (by omega), if_pos (by omega)]
  · simp only [storeComplex]
    rw [if_neg (by omega), if_neg (by omega), if_neg (by omega), if_neg (by omega)]

section CalcAlldirProofs
variable {K : Type} [LinearOrderedField K] (PI : K) (cos sin : K → K)
  (ScatRelation : ScatRel) (anisotropy : Bool) (WaveNum kd : K) (Nmat : Nat)
  (ref_index : Nat → doublecomplex K) (local_nvoid_Ndip : Nat) (DipoleCoord : Nat → K)
  (material : Nat → Nat) (pvec : Nat → doublecomplex K) (prop incPolX incPolY : Nat → K)

theorem CalcAlldir_inner_spec (phi_int : angle_set K) (thv : K) (n P : Nat) (E : Int → K)
    (hb : 2 * ((P + n : Nat) : Int) ≤ INT_MAX + 1)
    (hphi : ∀ j, j < n → ∃ x e, phi_int.val j = Res.ok x
      ∧ CalcAlldir_direction PI cos sin ScatRelation anisotropy WaveNum kd Nmat ref_index
          local_nvoid_Ndip DipoleCoord material pvec prop incPolX incPolY thv x = Res.ok e) :
    ∃ F, CalcAlldir_inner PI cos sin ScatRelation anisotropy WaveNum kd Nmat ref_index
          local_nvoid_Ndip DipoleCoord material pvec prop incPolX incPolY phi_int thv n
          ((P : Int), E) = Res.ok (((P + n : Nat) : Int), F)
      ∧ (∀ j, j < n → ∃ x e, phi_int.val j = Res.ok x
          ∧ CalcAlldir_direction PI cos sin ScatRelation anisotropy WaveNum kd Nmat ref_index
              local_nvoid_Ndip DipoleCoord material pvec prop incPolX incPolY thv x = Res.ok e
          ∧ F (4 * ((P + j : Nat) : Int)) = e.1.RE
          ∧ F (4 * ((P + j : Nat) : Int) + 1) = e.1.IM
          ∧ F (4 * ((P + j : Nat) : Int) + 2) = e.2.RE
          ∧ F (4 * ((P + j : Nat) : Int) + 3) = e.2.IM)
      ∧ (∀ k : Int, (k < 4 * (P : Int) ∨ 4 * ((P + n : Nat) : Int) ≤ k) → F k = E k) := by
  induction n with
  | zero => exact ⟨E, rfl, fun j hj => absurd hj (Nat.not_lt_zero j), fun k _ => rfl⟩
  | succ n ih =>
    unfold INT_MAX at hb
    obtain ⟨F1, h1, h2, h3⟩ := ih (by unfold INT_MAX; push_cast at hb ⊢; omega)
      (fun j hj => hphi j (by omega))
    obtain ⟨x, e, hx, he⟩ := hphi n (by omega)
    have w1 : wrap32 (2 * ((P + n : Nat) : Int)) = 2 * ((P + n : Nat) : Int) :=
      wrap32_of_bounds _ (by push_cast at hb ⊢; omega) (by push_cast at hb ⊢; omega)
    have w2 : wrap32 (2 * ((P + n : Nat) : Int) + 1) = 2 * ((P + n : Nat) : Int) + 1 :=
      wrap32_of_bounds _ (by push_cast at hb ⊢; omega) (by push_cast at hb ⊢; omega)
    have w3 : wrap32 (((P + n : Nat) : Int) + 1) = ((P + (n + 1) : Nat) : Int) := by
      rw [wrap32_of_bounds _ (by push_cast at hb ⊢; omega) (by push_cast at hb ⊢; omega)]
      push_cast
      ring
    obtain ⟨s0, s1, s2, s3, s4⟩ := storeComplex_pair F1 ((P + n : Nat) : Int) e.1 e.2
    refine ⟨storeComplex (storeComplex F1 (2 * ((P + n : Nat) : Int)) e.1)
      (2 * ((P + n : Nat) : Int) + 1) e.2, ?_, ?_, ?_⟩
    · simp only [CalcAlldir_inner, h1, Res.bind_ok, hx, he, w1, w2, w3]
    · intro j hj
      by_cases hjn : j = n
      · subst hjn
        exact ⟨x, e, hx, he, s0, s1, s2, s3⟩
      · obtain ⟨y, f, hy, hf, g0, g1, g2, g3⟩ := h2 j (by omega)
        have hlt : (4 : Int) * ((P + j : Nat) : Int) + 3 < 4 * ((P + n : Nat) : Int) := by
          push_cast
          omega
        refine ⟨y, f, hy, hf, ?_, ?_, ?_, ?_⟩
        · rw [s4 _ (Or.inl (by omega)), g0]
        · rw [s4 _ (Or.inl (by omega)), g1]
        · rw [s4 _ (Or.inl (by omega)), g2]
        · rw [s4 _ (Or.inl (by omega)), g3]
    · intro k hk
      rw [s4 k (by push_cast at hk ⊢; omega)]
      exact h3 k (by push_cast at hk ⊢; omega)

theorem CalcAlldir_outer_spec (theta_int phi_int : angle_set K) (n : Nat) (E : Int → K)
    (hb : 2 * ((n * phi_int.N : Nat) : Int) ≤ INT_MAX + 1)
    (hdir : ∀ i j, i < n → j < phi_int.N → ∃ t x e, theta_int.val i = Res.ok t
      ∧ phi_int.val j = Res.ok x
      ∧ CalcAlldir_direction PI cos sin ScatRelation anisotropy WaveNum kd Nmat ref_index
          local_nvoid_Ndip DipoleCoord material pvec prop incPolX incPolY t x = Res.ok e)
    (htheta : ∀ i, i < n → ∃ t, theta_int.val i = Res.ok t) :
    ∃ F, CalcAlldir_outer PI cos sin ScatRelation anisotropy WaveNum kd Nmat ref_index
          local_nvoid_Ndip DipoleCoord material pvec prop incPolX incPolY theta_int phi_int n
          (0, E) = Res.ok (((n * phi_int.N : Nat) : Int), F)
      ∧ (∀ i j, i < n → j < phi_int.N → ∃ t x e, theta_int.val i = Res.ok t
          ∧ phi_int.val j = Res.ok x
          ∧ CalcAlldir_direction PI cos sin ScatRelation anisotropy WaveNum kd Nmat ref_index
              local_nvoid_Ndip DipoleCoord material pvec prop incPolX incPolY t x = Res.ok e
          ∧ F (4 * ((i * phi_int.N + j : Nat) : Int)) = e.1.RE
          ∧ F (4 * ((i * phi_int.N + j : Nat) : Int) + 1) = e.1.IM
          ∧ F (4 * ((i * phi_int.N + j : Nat) : Int) + 2) = e.2.RE
          ∧ F (4 * ((i * phi_int.N + j : Nat) : Int) + 3) = e.2.IM)
      ∧ (∀ k : Int, (k < 0 ∨ 4 * ((n * phi_int.N : Nat) : Int) ≤ k) → F k = E k) := by
  induction n with
  | zero =>
    refine ⟨E, ?_, fun i j hi => absurd hi (Nat.not_lt_zero i), fun k _ => rfl⟩
    simp [CalcAlldir_outer]
  | succ n ih =>
    have hmul : (n + 1) * phi_int.N = n * phi_int.N + phi_int.N := by ring
    obtain ⟨F1, h1, h2, h3⟩ := ih (by rw [hmul] at hb; push_cast at hb ⊢; omega)
      (fun i j hi hj => hdir i j (by omega) hj) (fun i hi => htheta i (by omega))
    obtain ⟨t, ht⟩ := htheta n (by omega)
    obtain ⟨F2, g1, g2, g3⟩ := CalcAlldir_inner_spec PI cos sin ScatRelation anisotropy WaveNum
      kd Nmat ref_index local_nvoid_Ndip DipoleCoord material pvec prop incPolX incPolY phi_int
      t phi_int.N (n * phi_int.N) F1 (by rw [hmul] at hb; exact hb) (fun j hj => by
        obtain ⟨t2, x, e, ht2, hx, he⟩ := hdir n j (by omega) hj
        rw [ht] at ht2
        rw [← Res.ok.inj ht2] at he
        exact ⟨x, e, hx, he⟩)
    refine ⟨F2, ?_, ?_, ?_⟩
    · simp only [CalcAlldir_outer, h1, Res.bind_ok, ht, g1, hmul]
    · intro i j hi hj
      by_cases hin : i = n
      · subst hin
        obtain ⟨x, e, hx, he, q0, q1, q2, q3⟩ := g2 j hj
        exact ⟨t, x, e, ht, hx, he, q0, q1, q2, q3⟩
      · obtain ⟨t2, x, e, ht2, hx, he, q0, q1, q2, q3⟩ := h2 i j (by omega) hj
        have hlt : i * phi_int.N + j < n * phi_int.N := by
          have : (i + 1) * phi_int.N ≤ n * phi_int.N :=
            Nat.mul_le_mul_right _ (by omega)
          have e1 : (i + 1) * phi_int.N = i * phi_int.N + phi_int.N := by ring
          omega
        have hlt2 : (4 : Int) * ((i * phi_int.N + j : Nat) : Int) + 3
            < 4 * ((n * phi_int.N : Nat) : Int) := by
          have : ((i * phi_int.N + j : Nat) : Int) < ((n * phi_int.N : Nat) : Int) := by
            exact_mod_cast hlt
          omega
        refine ⟨t2, x, e, ht2, hx, he, ?_, ?_, ?_, ?_⟩
        · rw [g3 _ (Or.inl (by omega)), q0]
        · rw [g3 _ (Or.inl (by omega)), q1]
        · rw [g3 _ (Or.inl (by omega)), q2]
        · rw [g3 _ (Or.inl (by omega)), q3]
    · intro k hk
      have hk2 : k < 4 * ((n * phi_int.N : Nat) : Int)
          ∨ 4 * ((n * phi_int.N + phi_int.N : Nat) : Int) ≤ k := by
        rcases hk with hk | hk
        · left
          have : (0 : Int) ≤ ((n * phi_int.N : Nat) : Int) := Int.ofNat_nonneg _
          omega
        · right
          rw [hmul] at hk
          exact hk
      rw [g3 k hk2]
      apply h3 k
      rcases hk with hk | hk
      · exact Or.inl hk
      · right
        rw [hmul] at hk
        push_cast at hk ⊢
        omega

end CalcAlldirProofs

theorem CalcAlldir_square_spec {K : Type} [LinearOrderedField K] (n : Nat) (A : Int → K)
    (hb : 2 * (n : Int) ≤ INT_MAX + 1) :
    (∀ p, p < n → CalcAlldir_square n A (p : Int)
        = cAbs2 ⟨A (4 * (p : Int)), A (4 * (p : Int) + 1)⟩
          + cAbs2 ⟨A (4 * (p : Int) + 2), A (4 * (p : Int) + 3)⟩)
    ∧ (∀ k : Int, (k < 0 ∨ (n : Int) ≤ k) → CalcAlldir_square n A k = A k) := by
  induction n with
  | zero => exact ⟨fun p hp => absurd hp (Nat.not_lt_zero p), fun k _ => rfl⟩
  | succ n ih =>
    unfold INT_MAX at hb
    obtain ⟨h1, h2⟩ := ih (by unfold INT_MAX; push_cast at hb ⊢; omega)
    have w1 : wrap32 (2 * (n : Int)) = 2 * (n : Int) :=
      wrap32_of_bounds _ (by push_cast at hb ⊢; omega) (by push_cast at hb ⊢; omega)
    have w2 : wrap32 (2 * (n : Int) + 1) = 2 * (n : Int) + 1 :=
      wrap32_of_bounds _ (by push_cast at hb ⊢; omega) (by push_cast at hb ⊢; omega)
    have hn0 : (0 : Int) ≤ (n : Int) := Int.ofNat_nonneg n
    refine ⟨fun p hp => ?_, fun k hk => ?_⟩
    · simp only [CalcAlldir_square, w1, w2]
      by_cases hpn : p = n
      · subst hpn
        rw [if_pos rfl, h2 _ (Or.inr (by omega)), h2 _ (Or.inr (by omega)),
          h2 _ (Or.inr (by omega)), h2 _ (Or.inr (by omega))]
        have e0 : (2 : Int) * (2 * (p : Int)) = 4 * (p : Int) := by ring
        have e1 : (2 : Int) * (2 * (p : Int) + 1) = 4 * (p : Int) + 2 := by ring
        have e2 : (4 : Int) * (p : Int) + 2 + 1 = 4 * (p : Int) + 3 := by ring
        rw [e0, e1, e2]
      · rw [if_neg (by
          intro hc
          exact hpn (by exact_mod_cast hc))]
        exact h1 p (by omega)
    · simp only [CalcAlldir_square]
      rw [if_neg (by push_cast at hk; omega)]
      exact h2 k (by push_cast at hk; omega)

theorem CalcAlldir_npoints_eq {K : Type} (theta_int phi_int : angle_set K)
    (h : ((theta_int.N * phi_int.N : Nat) : Int) ≤ INT_MAX) :
    CalcAlldir_npoints theta_int phi_int = ((theta_int.N * phi_int.N : Nat) : Int) := by
  unfold INT_MAX at h
  unfold CalcAlldir_npoints
  rw [Nat.mod_eq_of_lt (by omega)]
  exact wrap32_of_bounds _ (by omega) (by omega)

theorem CalcAlldir_direction_draine {K : Type} [LinearOrderedField K] (PI : K)
    (cos sin : K → K) (anisotropy : Bool) (WaveNum kd : K) (Nmat : Nat)
    (ref_index : Nat → doublecomplex K) (N : Nat) (DipoleCoord : Nat → K)
    (material : Nat → Nat) (pvec : Nat → doublecomplex K) (prop incPolX incPolY : Nat → K)
    (thv phv : K) :
    ∃ e, CalcAlldir_direction PI cos sin ScatRel.SQ_DRAINE anisotropy WaveNum kd Nmat ref_index
        N DipoleCoord material pvec prop incPolX incPolY thv phv = Res.ok e := by
  simp only [CalcAlldir_direction, CalcField_draine_ok, Res.bind_ok]
  exact ⟨_, rfl⟩

/-- C27, amended: `CalcAlldir` leaves `E2_alldir` in the layout the integrands read,
provided the number of directions `npoints = theta_int.N*phi_int.N` is at most `2^30`, so
that `npoints` and the indices `2*point`, `2*point+1` lie within `int`.  When the field is
computed for every direction, the first cycle ends with `point = npoints` and has stored
the two components of the direction `(theta_int.val[i], phi_int.val[j])` at the doubles
`4*point .. 4*point+3` with `point = i*phi_int.N + j = AlldirIndex(i,j)`; the count handed
to `Accumulate` is `4*npoints` as long as this lies within `int`; the final pass in place
leaves at `E2_alldir[AlldirIndex(i,j)]` the sum of the squared absolute values of the two
accumulated components, none of which it had overwritten before reading it; when
`Accumulate` leaves the array as it is (a single process) this is `|Eper|^2 + |Epar|^2`. -/
theorem CalcAlldir_layout {K : Type} [LinearOrderedField K] (PI : K) (cos sin : K → K)
    (ScatRelation : ScatRel) (anisotropy : Bool) (WaveNum kd : K) (Nmat : Nat)
    (ref_index : Nat → doublecomplex K) (local_nvoid_Ndip : Nat) (DipoleCoord : Nat → K)
    (material : Nat → Nat) (pvec : Nat → doublecomplex K) (prop incPolX incPolY : Nat → K)
    (theta_int phi_int : angle_set K) (Accumulate : (Int → K) → Int → (Int → K))
    (E2_alldir : Int → K)
    (hsize : 2 * ((theta_int.N * phi_int.N : Nat) : Int) ≤ INT_MAX + 1)
    (hdir : ∀ i j, i < theta_int.N → j < phi_int.N → ∃ t x e, theta_int.val i = Res.ok t
      ∧ phi_int.val j = Res.ok x
      ∧ CalcAlldir_direction PI cos sin ScatRelation anisotropy WaveNum kd Nmat ref_index
          local_nvoid_Ndip DipoleCoord material pvec prop incPolX incPolY t x = Res.ok e)
    (htheta : ∀ i, i < theta_int.N → ∃ t, theta_int.val i = Res.ok t) :
    ∃ S E,
      CalcAlldir_outer PI cos sin ScatRelation anisotropy WaveNum kd Nmat ref_index
          local_nvoid_Ndip DipoleCoord material pvec prop incPolX incPolY theta_int phi_int
          theta_int.N (0, E2_alldir)
        = Res.ok (CalcAlldir_npoints theta_int phi_int, S)
      ∧ CalcAlldir PI cos sin ScatRelation anisotropy WaveNum kd Nmat ref_index
          local_nvoid_Ndip DipoleCoord material pvec prop incPolX incPolY theta_int phi_int
          Accumulate E2_alldir = Res.ok E
      ∧ (4 * ((theta_int.N * phi_int.N : Nat) : Int) ≤ INT_MAX →
          wrap32 (4 * CalcAlldir_npoints theta_int phi_int)
            = 4 * ((theta_int.N * phi_int.N : Nat) : Int))
      ∧ ∀ i j : Nat, i < theta_int.N → j < phi_int.N →
          AlldirIndex phi_int.N i j = ((i * phi_int.N + j : Nat) : Int)
          ∧ ∃ t x e, theta_int.val i = Res.ok t ∧ phi_int.val j = Res.ok x
            ∧ CalcAlldir_direction PI cos sin ScatRelation anisotropy WaveNum kd Nmat
                ref_index local_nvoid_Ndip DipoleCoord material pvec prop incPolX incPolY t x
              = Res.ok e
            ∧ S (4 * AlldirIndex phi_int.N i j) = e.1.RE
            ∧ S (4 * AlldirIndex phi_int.N i j + 1) = e.1.IM
            ∧ S (4 * AlldirIndex phi_int.N i j + 2) = e.2.RE
            ∧ S (4 * AlldirIndex phi_int.N i j + 3) = e.2.IM
            ∧ E (AlldirIndex phi_int.N i j)
                = cAbs2 ⟨Accumulate S (wrap32 (4 * CalcAlldir_npoints theta_int phi_int))
                      (4 * AlldirIndex phi_int.N i j),
                    Accumulate S (wrap32 (4 * CalcAlldir_npoints theta_int phi_int))
                      (4 * AlldirIndex phi_int.N i j + 1)⟩
                  + cAbs2 ⟨Accumulate S (wrap32 (4 * CalcAlldir_npoints theta_int phi_int))
                      (4 * AlldirIndex phi_int.N i j + 2),
                    Accumulate S (wrap32 (4 * CalcAlldir_npoints theta_int phi_int))
                      (4 * AlldirIndex phi_int.N i j + 3)⟩
            ∧ (Accumulate S (wrap32 (4 * CalcAlldir_npoints theta_int phi_int)) = S →
                E (AlldirIndex phi_int.N i j) = cAbs2 e.1 + cAbs2 e.2) := by
  have hI := hsize
  unfold INT_MAX at hI
  have hnp := CalcAlldir_npoints_eq theta_int phi_int (by unfold INT_MAX; omega)
  obtain ⟨S, h1, h2, _⟩ := CalcAlldir_outer_spec PI cos sin ScatRelation anisotropy WaveNum kd
    Nmat ref_index local_nvoid_Ndip DipoleCoord material pvec prop incPolX incPolY theta_int
    phi_int theta_int.N E2_alldir (by unfold INT_MAX; omega) hdir htheta
  obtain ⟨q1, _⟩ := CalcAlldir_square_spec (theta_int.N * phi_int.N)
    (Accumulate S (wrap32 (4 * CalcAlldir_npoints theta_int phi_int)))
    (by unfold INT_MAX; omega)
  have htn : (CalcAlldir_npoints theta_int phi_int).toNat = theta_int.N * phi_int.N := by
    rw [hnp]
    exact Int.toNat_ofNat _
  have h1n : CalcAlldir_outer PI cos sin ScatRelation anisotropy WaveNum kd Nmat ref_index
        local_nvoid_Ndip DipoleCoord material pvec prop incPolX incPolY theta_int phi_int
        theta_int.N (0, E2_alldir)
      = Res.ok (CalcAlldir_npoints theta_int phi_int, S) := by
    rw [hnp]
    exact h1
  refine ⟨S, CalcAlldir_square (theta_int.N * phi_int.N)
      (Accumulate S (wrap32 (4 * CalcAlldir_npoints theta_int phi_int))), h1n, by
    simp only [CalcAlldir, h1n, Res.bind_ok, htn], fun h4 => by
    unfold INT_MAX at h4
    rw [hnp]
    exact wrap32_of_bounds _ (by omega) (by omega), fun i j hi hj => ?_⟩
  have hlt : i * phi_int.N + j < theta_int.N * phi_int.N := by
    have : (i + 1) * phi_int.N ≤ theta_int.N * phi_int.N :=
      Nat.mul_le_mul_right _ (by omega)
    have e1 : (i + 1) * phi_int.N = i * phi_int.N + phi_int.N := by ring
    omega
  have hle : i ≤ i * phi_int.N := Nat.le_mul_of_pos_right i (by omega)
  have hidx : AlldirIndex phi_int.N i j = ((i * phi_int.N + j : Nat) : Int) := by
    rw [AlldirIndex_eq phi_int.N i j (Int.ofNat_nonneg i) (Int.ofNat_nonneg j)
      (by unfold INT_MAX; omega) (by unfold INT_MAX; omega)
      (by unfold INT_MAX; push_cast at hI ⊢; omega)]
    push_cast
    ring
  obtain ⟨t, x, e, ht, hx, he, s0, s1, s2, s3⟩ := h2 i j hi hj
  have hE := q1 (i * phi_int.N + j) hlt
  rw [hidx]
  refine ⟨rfl, t, x, e, ht, hx, he, s0, s1, s2, s3, hE, fun hA => ?_⟩
  rw [hE, hA, s0, s1, s2, s3]

/-- Witness of C27, amended: one value of theta and two of phi, one dipole, a single
process: the entry of the direction `(0, 1)` is the sum of the two squares. -/
theorem CalcAlldir_layout_witness :
    ∃ (E : Int → ℚ) (e : doublecomplex ℚ × doublecomplex ℚ),
      CalcAlldir (3 : ℚ) id id ScatRel.SQ_DRAINE false 1 1 1 (fun _ => ⟨1, 0⟩) 1
          (fun _ => 0) (fun _ => 0) (fun _ => ⟨1, 2⟩) (vec3 0 0 1) (vec3 1 0 0) (vec3 0 1 0)
          ⟨0, 180, 1, fun _ => Res.ok 90⟩ ⟨0, 360, 2, fun _ => Res.ok 0⟩ (fun A _ => A)
          (fun _ => 0) = Res.ok E
      ∧ CalcAlldir_direction (3 : ℚ) id id ScatRel.SQ_DRAINE false 1 1 1 (fun _ => ⟨1, 0⟩) 1
          (fun _ => 0) (fun _ => 0) (fun _ => ⟨1, 2⟩) (vec3 0 0 1) (vec3 1 0 0) (vec3 0 1 0)
          90 0 = Res.ok e
      ∧ AlldirIndex 2 0 1 = 1
      ∧ E (AlldirIndex 2 0 1) = cAbs2 e.1 + cAbs2 e.2 := by
  obtain ⟨S, E, _, h2, _, h3⟩ := CalcAlldir_layout (3 : ℚ) id id ScatRel.SQ_DRAINE false 1 1 1
    (fun _ => ⟨1, 0⟩) 1 (fun _ => 0) (fun _ => 0) (fun _ => ⟨1, 2⟩) (vec3 0 0 1) (vec3 1 0 0)
    (vec3 0 1 0) ⟨0, 180, 1, fun _ => Res.ok 90⟩ ⟨0, 360, 2, fun _ => Res.ok 0⟩
    (fun A _ => A) (fun _ => 0) (by unfold INT_MAX; norm_num)
    (fun i j _ _ => by
      obtain ⟨e, he⟩ := CalcAlldir_direction_draine (3 : ℚ) id id false 1 1 1
        (fun _ => ⟨1, 0⟩) 1 (fun _ => 0) (fun _ => 0) (fun _ => ⟨1, 2⟩) (vec3 0 0 1)
        (vec3 1 0 0) (vec3 0 1 0) 90 0
      exact ⟨90, 0, e, rfl, rfl, he⟩)
    (fun i _ => ⟨90, rfl⟩)
  obtain ⟨hidx, t, x, e, ht, hx, he, _, _, _, _, _, hA⟩ := h3 0 1 (by norm_num) (by norm_num)
  have ht2 : (90 : ℚ) = t := Res.ok.inj ht
  have hx2 : (0 : ℚ) = x := Res.ok.inj hx
  subst ht2
  subst hx2
  exact ⟨E, e, h2, he, by simpa using hidx, hA rfl⟩

theorem wrap32_succ (P : Int) : wrap32 (wrap32 P + 1) = wrap32 (P + 1) := by
  unfold wrap32
  omega

theorem storeComplex_keep {K : Type} (G : Int → K) (Q : Nat) (e1 e2 : doublecomplex K)
    (hQ1 : 1 ≤ Q) (hQ2 : Q < 2 ^ 31) (k : Int) (hk0 : 0 ≤ k) (hk3 : k ≤ 3) :
    storeComplex (storeComplex G (wrap32 (2 * wrap32 (Q : Int))) e1)
        (wrap32 (wrap32 (2 * wrap32 (Q : Int)) + 1)) e2 k = G k := by
  have h1 : wrap32 (Q : Int) = Q := wrap32_of_bounds _ (by omega) (by omega)
  rw [h1]
  simp only [storeComplex, wrap32]
  rw [if_neg (by omega), if_neg (by omega), if_neg (by omega), if_neg (by omega)]

section CalcAlldirWrap
variable {K : Type} [LinearOrderedField K] (PI : K) (cos sin : K → K)
  (ScatRelation : ScatRel) (anisotropy : Bool) (WaveNum kd : K) (Nmat : Nat)
  (ref_index : Nat → doublecomplex K) (local_nvoid_Ndip : Nat) (DipoleCoord : Nat → K)
  (material : Nat → Nat) (pvec : Nat → doublecomplex K) (prop incPolX incPolY : Nat → K)

/-- The inner cycle of `CalcAlldir` while the counter `point` stays below `2^31`, with the
index `2*point` taken modulo `2^32`: the round with `point = 0` stores the two components
at the doubles 0 .. 3, and no later round writes there. -/
theorem CalcAlldir_inner_wrap (phi_int : angle_set K) (thv : K) (n P : Nat) (E : Int → K)
    (hb : P + n ≤ 2 ^ 31)
    (hphi : ∀ j, j < n → ∃ x e, phi_int.val j = Res.ok x
      ∧ CalcAlldir_direction PI cos sin ScatRelation anisotropy WaveNum kd Nmat ref_index
          local_nvoid_Ndip DipoleCoord material pvec prop incPolX incPolY thv x = Res.ok e) :
    ∃ F, CalcAlldir_inner PI cos sin ScatRelation anisotropy WaveNum kd Nmat ref_index
          local_nvoid_Ndip DipoleCoord material pvec prop incPolX incPolY phi_int thv n
          (wrap32 (P : Int), E) = Res.ok (wrap32 ((P + n : Nat) : Int), F)
      ∧ (1 ≤ P → ∀ k : Int, 0 ≤ k → k ≤ 3 → F k = E k)
      ∧ (P = 0 → 1 ≤ n → ∀ x e, phi_int.val 0 = Res.ok x →
          CalcAlldir_direction PI cos sin ScatRelation anisotropy WaveNum kd Nmat ref_index
            local_nvoid_Ndip DipoleCoord material pvec prop incPolX incPolY thv x = Res.ok e →
          F 0 = e.1.RE ∧ F 1 = e.1.IM ∧ F 2 = e.2.RE ∧ F 3 = e.2.IM) := by
  induction n with
  | zero =>
    exact ⟨E, rfl, fun _ k _ _ => rfl, fun _ h => absurd h (by omega)⟩
  | succ n ih =>
    obtain ⟨F1, h1, h2, h3⟩ := ih (by omega) (fun j hj => hphi j (by omega))
    obtain ⟨x, e, hx, he⟩ := hphi n (by omega)
    have w3 : wrap32 (wrap32 ((P + n : Nat) : Int) + 1) = wrap32 ((P + (n + 1) : Nat) : Int) := by
      rw [wrap32_succ]
      push_cast
      ring_nf
    refine ⟨storeComplex (storeComplex F1 (wrap32 (2 * wrap32 ((P + n : Nat) : Int))) e.1)
      (wrap32 (wrap32 (2 * wrap32 ((P + n : Nat) : Int)) + 1)) e.2, ?_, ?_, ?_⟩
    · simp only [CalcAlldir_inner, h1, Res.bind_ok, hx, he, w3]
    · intro hP k hk0 hk3
      rw [storeComplex_keep F1 (P + n) e.1 e.2 (by omega) (by omega) k hk0 hk3]
      exact h2 hP k hk0 hk3
    · intro hP0 _ x0 e0 hx0 he0
      subst hP0
      by_cases hn0 : n = 0
      · subst hn0
        rw [hx] at hx0
        have hxx : x = x0 := Res.ok.inj hx0
        subst hxx
        rw [he] at he0
        have hee : e = e0 := Res.ok.inj he0
        subst hee
        have z : wrap32 (2 * wrap32 (((0 + 0 : Nat) : Int))) = 2 * 0 := by decide
        have z1 : wrap32 (2 * 0 + 1) = 2 * 0 + 1 := by decide
        rw [z, z1]
        obtain ⟨s0, s1, s2, s3, _⟩ := storeComplex_pair F1 0 e.1 e.2
        exact ⟨by simpa using s0, by simpa using s1, by simpa using s2, by simpa using s3⟩
      · obtain ⟨g0, g1, g2, g3⟩ := h3 rfl (by omega) x0 e0 hx0 he0
        rw [storeComplex_keep F1 (0 + n) e.1 e.2 (by omega) (by omega) 0 (by norm_num)
            (by norm_num),
          storeComplex_keep F1 (0 + n) e.1 e.2 (by omega) (by omega) 1 (by norm_num)
            (by norm_num),
          storeComplex_keep F1 (0 + n) e.1 e.2 (by omega) (by omega) 2 (by norm_num)
            (by norm_num),
          storeComplex_keep F1 (0 + n) e.1 e.2 (by omega) (by omega) 3 (by norm_num)
            (by norm_num)]
        exact ⟨g0, g1, g2, g3⟩

/-- The first cycle of `CalcAlldir` for at most `2^31` directions: at its end the doubles
0 .. 3 hold the two components of the first direction. -/
theorem CalcAlldir_outer_wrap (theta_int phi_int : angle_set K) (n : Nat) (E : Int → K)
    (hN : 1 ≤ phi_int.N) (hn : 1 ≤ n) (hb : n * phi_int.N ≤ 2 ^ 31)
    (hdir : ∀ i j, i < n → j < phi_int.N → ∃ t x e, theta_int.val i = Res.ok t
      ∧ phi_int.val j = Res.ok x
      ∧ CalcAlldir_direction PI cos sin ScatRelation anisotropy WaveNum kd Nmat ref_index
          local_nvoid_Ndip DipoleCoord material pvec prop incPolX incPolY t x = Res.ok e)
    (t0 x0 : K) (e0 : doublecomplex K × doublecomplex K)
    (ht0 : theta_int.val 0 = Res.ok t0) (hx0 : phi_int.val 0 = Res.ok x0)
    (he0 : CalcAlldir_direction PI cos sin ScatRelation anisotropy WaveNum kd Nmat ref_index
          local_nvoid_Ndip DipoleCoord material pvec prop incPolX incPolY t0 x0 = Res.ok e0) :
    ∃ F, CalcAlldir_outer PI cos sin ScatRelation anisotropy WaveNum kd Nmat ref_index
          local_nvoid_Ndip DipoleCoord material pvec prop incPolX incPolY theta_int phi_int n
          (0, E) = Res.ok (wrap32 ((n * phi_int.N : Nat) : Int), F)
      ∧ F 0 = e0.1.RE ∧ F 1 = e0.1.IM ∧ F 2 = e0.2.RE ∧ F 3 = e0.2.IM := by
  induction n with
  | zero => omega
  | succ n ih =>
    have hmul : (n + 1) * phi_int.N = n * phi_int.N + phi_int.N := by ring
    have hinner : ∀ t, theta_int.val n = Res.ok t → ∀ j, j < phi_int.N → ∃ x e,
        phi_int.val j = Res.ok x
        ∧ CalcAlldir_direction PI cos sin ScatRelation anisotropy WaveNum kd Nmat ref_index
          local_nvoid_Ndip DipoleCoord material pvec prop incPolX incPolY t x = Res.ok e := by
      intro t ht j hj
      obtain ⟨t2, x, e, ht2, hx, he⟩ := hdir n j (by omega) hj
      rw [ht] at ht2
      rw [← Res.ok.inj ht2] at he
      exact ⟨x, e, hx, he⟩
    obtain ⟨t, _, _, ht, _, _⟩ := hdir n 0 (by omega) (by omega)
    by_cases hn0 : n = 0
    · subst hn0
      rw [ht0] at ht
      have htt : t0 = t := Res.ok.inj ht
      subst htt
      obtain ⟨F, g1, _, g3⟩ := CalcAlldir_inner_wrap PI cos sin ScatRelation anisotropy WaveNum
        kd Nmat ref_index local_nvoid_Ndip DipoleCoord material pvec prop incPolX incPolY
        phi_int t0 phi_int.N 0 E (by omega) (hinner t0 ht0)
      have z : wrap32 ((0 : Nat) : Int) = 0 := by decide
      rw [z] at g1
      refine ⟨F, ?_, g3 rfl hN x0 e0 hx0 he0⟩
      simp only [CalcAlldir_outer, Res.bind_ok, ht0, g1]
      simp
    · rw [hmul] at hb
      obtain ⟨F1, h1, f0, f1, f2, f3⟩ := ih (by omega) (by omega)
        (fun i j hi hj => hdir i j (by omega) hj)
      have hpos : 1 ≤ n * phi_int.N := Nat.mul_pos (by omega) hN
      obtain ⟨F, g1, g2, _⟩ := CalcAlldir_inner_wrap PI cos sin ScatRelation anisotropy WaveNum
        kd Nmat ref_index local_nvoid_Ndip DipoleCoord material pvec prop incPolX incPolY
        phi_int t phi_int.N (n * phi_int.N) F1 hb (hinner t ht)
      refine ⟨F, ?_, ?_, ?_, ?_, ?_⟩
      · simp only [CalcAlldir_outer, h1, Res.bind_ok, ht, g1, hmul]
      · rw [g2 hpos 0 (by norm_num) (by norm_num)]
        exact f0
      · rw [g2 hpos 1 (by norm_num) (by norm_num)]
        exact f1
      · rw [g2 hpos 2 (by norm_num) (by norm_num)]
        exact f2
      · rw [g2 hpos 3 (by norm_num) (by norm_num)]
        exact f3

end CalcAlldirWrap

/-- C27, counterexample: `theta_int.N = 65536` and `phi_int.N = 32768` (blocks with
`Jmax = 16` and `Jmax = 15`, `equiv=true`), one dipole at the origin with the moment
`(1, 2i, 0)`, wave number 1, a single process.  `npoints = theta_int.N*phi_int.N` is `2^31`,
which stored in an `int` is `-2147483648`, so the final pass `for (point=0;point<npoints;...)`
has no round; with the `int` arithmetic on `point` and `index` taken modulo `2^32`,
`E2_alldir[AlldirIndex(0,0)]` is left as the real part `-2` of the component along
`incPolper` of the direction `(0, 0)`, not `|Eper|^2 + |Epar|^2 = 5`. -/
theorem CalcAlldir_2pow31_directions :
    CalcAlldir_npoints
        (⟨0, 180, 65536, filled 65536 (fun i => 180 * (i : ℝ) / 65536)⟩ : angle_set ℝ)
        ⟨0, 360, 32768, filled 32768 (fun j => 360 * (j : ℝ) / 32768)⟩ = -2147483648
    ∧ (-2147483648 : Int).toNat = 0
    ∧ ∃ (E : Int → ℝ) (e : doublecomplex ℝ × doublecomplex ℝ),
        CalcAlldir Real.pi Real.cos Real.sin ScatRel.SQ_DRAINE false 1 1 1 (fun _ => ⟨1, 0⟩) 1
            (fun _ => 0) (fun _ => 0)
            (fun i => if i = 0 then ⟨1, 0⟩ else if i = 1 then ⟨0, 2⟩ else ⟨0, 0⟩)
            (vec3 0 0 1) (vec3 1 0 0) (vec3 0 1 0)
            ⟨0, 180, 65536, filled 65536 (fun i => 180 * (i : ℝ) / 65536)⟩
            ⟨0, 360, 32768, filled 32768 (fun j => 360 * (j : ℝ) / 32768)⟩
            (fun A _ => A) (fun _ => 0) = Res.ok E
        ∧ filled 65536 (fun i => 180 * (i : ℝ) / 65536) 0 = Res.ok 0
        ∧ filled 32768 (fun j => 360 * (j : ℝ) / 32768) 0 = Res.ok 0
        ∧ CalcAlldir_direction Real.pi Real.cos Real.sin ScatRel.SQ_DRAINE false 1 1 1
            (fun _ => ⟨1, 0⟩) 1 (fun _ => 0) (fun _ => 0)
            (fun i => if i = 0 then ⟨1, 0⟩ else if i = 1 then ⟨0, 2⟩ else ⟨0, 0⟩)
            (vec3 0 0 1) (vec3 1 0 0) (vec3 0 1 0) 0 0 = Res.ok e
        ∧ AlldirIndex 32768 0 0 = 0
        ∧ E (AlldirIndex 32768 0 0) = -2
        ∧ cAbs2 e.1 + cAbs2 e.2 = 5
        ∧ E (AlldirIndex 32768 0 0) ≠ cAbs2 e.1 + cAbs2 e.2 := by
  have hnp : CalcAlldir_npoints
        (⟨0, 180, 65536, filled 65536 (fun i => 180 * (i : ℝ) / 65536)⟩ : angle_set ℝ)
        ⟨0, 360, 32768, filled 32768 (fun j => 360 * (j : ℝ) / 32768)⟩ = -2147483648 := by
    simp only [CalcAlldir_npoints]
    decide
  have ht0 : filled 65536 (fun i => 180 * (i : ℝ) / 65536) 0 = Res.ok 0 := by
    simp [filled]
  have hx0 : filled 32768 (fun j => 360 * (j : ℝ) / 32768) 0 = Res.ok 0 := by
    simp [filled]
  have he0 : CalcAlldir_direction Real.pi Real.cos Real.sin ScatRel.SQ_DRAINE false 1 1 1
            (fun _ => ⟨1, 0⟩) 1 (fun _ => 0) (fun _ => 0)
            (fun i => if i = 0 then ⟨1, 0⟩ else if i = 1 then ⟨0, 2⟩ else ⟨0, 0⟩)
            (vec3 0 0 1) (vec3 1 0 0) (vec3 0 1 0) 0 0
        = Res.ok (⟨-2, 0⟩, ⟨0, -1⟩) := by
    simp only [CalcAlldir_direction, CalcField_draine_ok, Res.bind_ok]
    simp [CalcField_sumDraine, Deg2Rad, LinComb, vec3, crDotProd, DotProd]
  have hidx : AlldirIndex 32768 0 0 = 0 := by decide
  obtain ⟨F, h1, f0, _⟩ := CalcAlldir_outer_wrap Real.pi Real.cos Real.sin ScatRel.SQ_DRAINE
    false 1 1 1 (fun _ => ⟨1, 0⟩) 1 (fun _ => 0) (fun _ => 0)
    (fun i => if i = 0 then ⟨1, 0⟩ else if i = 1 then ⟨0, 2⟩ else ⟨0, 0⟩)
    (vec3 0 0 1) (vec3 1 0 0) (vec3 0 1 0)
    (⟨0, 180, 65536, filled 65536 (fun i => 180 * (i : ℝ) / 65536)⟩ : angle_set ℝ)
    ⟨0, 360, 32768, filled 32768 (fun j => 360 * (j : ℝ) / 32768)⟩ 65536 (fun _ => 0)
    (by norm_num) (by norm_num) (by norm_num)
    (fun i j hi hj => by
      obtain ⟨e, he⟩ := CalcAlldir_direction_draine Real.pi Real.cos Real.sin false 1 1 1
        (fun _ => ⟨1, 0⟩) 1 (fun _ => 0) (fun _ => 0)
        (fun i => if i = 0 then ⟨1, 0⟩ else if i = 1 then ⟨0, 2⟩ else ⟨0, 0⟩)
        (vec3 0 0 1) (vec3 1 0 0) (vec3 0 1 0) (180 * (i : ℝ) / 65536) (360 * (j : ℝ) / 32768)
      refine ⟨_, _, e, ?_, ?_, he⟩
      · simp only [filled]
        rw [if_pos hi]
      · simp only [filled]
        rw [if_pos hj])
    0 0 (⟨-2, 0⟩, ⟨0, -1⟩) ht0 hx0 he0
  refine ⟨hnp, by decide, F, (⟨-2, 0⟩, ⟨0, -1⟩), ?_, ht0, hx0, he0, hidx, ?_, ?_, ?_⟩
  · unfold CalcAlldir
    simp only [h1, Res.bind_ok, hnp]
    rfl
  · rw [hidx]
    exact f0
  · simp [cAbs2]
    norm_num
  · rw [hidx, f0]
    simp [cAbs2]
    norm_num

/-! ## Frp_mat on a single process -/

theorem Frp_mat_dummy_IM {K : Type} [LinearOrderedField K] (pvec Einc : Nat → doublecomplex K)
    (j : Nat) :
    (Frp_mat_dummy pvec Einc j 3).IM
      = ∑ c in Finset.range 3, ((pvec (3 * j + c)).IM * (Einc (3 * j + c)).RE
          - (pvec (3 * j + c)).RE * (Einc (3 * j + c)).IM) := by
  simp only [Frp_mat_dummy, cAdd, cMult, Finset.sum_range_succ, Finset.sum_range_zero]
  ring

theorem Frp_mat_inc_spec {K : Type} [LinearOrderedField K] (WaveNum : K)
    (pvec Einc : Nat → doublecomplex K) (J : Nat) (s : (Nat → K) × K) :
    (∀ j, j < J → (Frp_mat_inc WaveNum pvec Einc J s).1 (3 * j + 2)
        = WaveNum * (Frp_mat_dummy pvec Einc j 3).IM / 2)
    ∧ (∀ k, (∀ j, j < J → k ≠ 3 * j + 2) → (Frp_mat_inc WaveNum pvec Einc J s).1 k = s.1 k)
    ∧ (Frp_mat_inc WaveNum pvec Einc J s).2
        = s.2 + ∑ j in Finset.range J, WaveNum * (Frp_mat_dummy pvec Einc j 3).IM / 2 := by
  induction J with
  | zero => exact ⟨fun j hj => absurd hj (Nat.not_lt_zero j), fun k _ => rfl, by simp [Frp_mat_inc]⟩
  | succ J ih =>
    obtain ⟨h1, h2, h3⟩ := ih
    refine ⟨fun j hj => ?_, fun k hk => ?_, ?_⟩
    · simp only [Frp_mat_inc]
      by_cases hjJ : j = J
      · subst hjJ
        rw [if_pos rfl]
      · rw [if_neg (by omega)]
        exact h1 j (by omega)
    · simp only [Frp_mat_inc]
      rw [if_neg (hk J (by omega))]
      exact h2 k (fun j hj => hk j (by omega))
    · simp only [Frp_mat_inc, if_true]
      rw [h3, Finset.sum_range_succ, add_assoc]

theorem Frp_mat_lcycle_spec {K : Type} [LinearOrderedField K] (sqrt cos sin : K → K)
    (WaveNum : K) (rdipT : Nat → K) (pT : Nat → doublecomplex K) (j L : Nat) (F : Nat → K)
    (hj : (3 * j + 2 : Int) ≤ INT_MAX) :
    (∀ c, c < 3 →
      Frp_mat_lcycle sqrt cos sin WaveNum rdipT pT 0 j L F (3 * j + c)
        = F (3 * j + c) + ∑ l in Finset.range L,
            if l ≠ j then
              Frp_mat_pair sqrt cos sin WaveNum rdipT pT (Frp_mat_jjj j) ((3 * l) % 2 ^ 64) c
            else 0)
    ∧ (∀ k, (k < 3 * j ∨ 3 * j + 3 ≤ k) →
        Frp_mat_lcycle sqrt cos sin WaveNum rdipT pT 0 j L F k = F k) := by
  have i0 : Frp_mat_index 0 (Frp_mat_jjj j) 0 = 3 * j + 0 := by
    simpa using Frp_mat_index_eq 0 j 0 (Nat.zero_le j) (by push_cast; omega)
  have i1 : Frp_mat_index 0 (Frp_mat_jjj j) 1 = 3 * j + 1 := by
    simpa using Frp_mat_index_eq 0 j 1 (Nat.zero_le j) (by push_cast; omega)
  have i2 : Frp_mat_index 0 (Frp_mat_jjj j) 2 = 3 * j + 2 := by
    simpa using Frp_mat_index_eq 0 j 2 (Nat.zero_le j) (by push_cast; omega)
  induction L with
  | zero => exact ⟨fun c _ => by simp [Frp_mat_lcycle], fun k _ => rfl⟩
  | succ L ih =>
    obtain ⟨h1, h2⟩ := ih
    by_cases hjl : j = L
    · have hnot : ¬ (j ≠ L) := not_not.mpr hjl
      refine ⟨fun c hc => ?_, fun k hk => ?_⟩
      · simp only [Frp_mat_lcycle, if_neg hnot]
        rw [h1 c hc, Finset.sum_range_succ, if_neg (fun h => h hjl.symm), add_zero]
      · simp only [Frp_mat_lcycle, if_neg hnot]
        exact h2 k hk
    · have hlj : L ≠ j := fun h => hjl h.symm
      refine ⟨fun c hc => ?_, fun k hk => ?_⟩
      · simp only [Frp_mat_lcycle, if_pos hjl, i0, i1, i2]
        rw [Finset.sum_range_succ, if_pos hlj, ← add_assoc, ← h1 c hc]
        have hc3 : c = 0 ∨ c = 1 ∨ c = 2 := by omega
        rcases hc3 with rfl | rfl | rfl
        · rw [if_neg (by omega), if_neg (by omega), if_pos rfl]
        · rw [if_neg (by omega), if_pos rfl, if_neg (by omega)]
        · rw [if_pos rfl, if_neg (by omega), if_neg (by omega)]
      · simp only [Frp_mat_lcycle, if_pos hjl, i0, i1, i2]
        rw [if_neg (by omega), if_neg (by omega), if_neg (by omega)]
        exact h2 k hk

theorem Frp_mat_conclude3 {K : Type} [LinearOrderedField K] (Finc : Nat → K) (b : Nat)
    (s : FrpState K) :
    (Frp_mat_conclude Finc (b + 2) 2 (Frp_mat_conclude Finc (b + 1) 1
        (Frp_mat_conclude Finc (b + 0) 0 s))).Fsca = s.Fsca
    ∧ (∀ c, c < 3 →
        (Frp_mat_conclude Finc (b + 2) 2 (Frp_mat_conclude Finc (b + 1) 1
          (Frp_mat_conclude Finc (b + 0) 0 s))).Frp (b + c) = Finc (b + c) + s.Fsca (b + c)
        ∧ (Frp_mat_conclude Finc (b + 2) 2 (Frp_mat_conclude Finc (b + 1) 1
          (Frp_mat_conclude Finc (b + 0) 0 s))).Fsca_tot c = s.Fsca_tot c + s.Fsca (b + c)
        ∧ (Frp_mat_conclude Finc (b + 2) 2 (Frp_mat_conclude Finc (b + 1) 1
          (Frp_mat_conclude Finc (b + 0) 0 s))).Frp_tot c
            = s.Frp_tot c + (Finc (b + c) + s.Fsca (b + c)))
    ∧ (∀ k, (k < b ∨ b + 3 ≤ k) →
        (Frp_mat_conclude Finc (b + 2) 2 (Frp_mat_conclude Finc (b + 1) 1
          (Frp_mat_conclude Finc (b + 0) 0 s))).Frp k = s.Frp k) := by
  refine ⟨rfl, fun c hc => ?_, fun k hk => ?_⟩
  · have hc3 : c = 0 ∨ c = 1 ∨ c = 2 := by omega
    rcases hc3 with rfl | rfl | rfl <;> simp [Frp_mat_conclude]
  · simp only [Frp_mat_conclude]
    rw [if_neg (by omega), if_neg (by omega), if_neg (by omega)]

theorem Frp_mat_jcycle_spec {K : Type} [LinearOrderedField K] (sqrt cos sin : K → K)
    (WaveNum : K) (rdipT : Nat → K) (pT : Nat → doublecomplex K) (n : Nat) (Finc : Nat → K)
    (M : Nat) (s0 : FrpState K) (hb : (3 * M : Int) ≤ INT_MAX) :
    (∀ j c, j < M → c < 3 →
        (Frp_mat_jcycle sqrt cos sin WaveNum rdipT pT 0 0 n Finc M s0).Fsca (3 * j + c)
          = s0.Fsca (3 * j + c) + ∑ l in Finset.range n,
              if l ≠ j then
                Frp_mat_pair sqrt cos sin WaveNum rdipT pT (Frp_mat_jjj j) ((3 * l) % 2 ^ 64) c
              else 0)
    ∧ (∀ k, 3 * M ≤ k →
        (Frp_mat_jcycle sqrt cos sin WaveNum rdipT pT 0 0 n Finc M s0).Fsca k = s0.Fsca k)
    ∧ (∀ j c, j < M → c < 3 →
        (Frp_mat_jcycle sqrt cos sin WaveNum rdipT pT 0 0 n Finc M s0).Frp (3 * j + c)
          = Finc (3 * j + c)
            + (Frp_mat_jcycle sqrt cos sin WaveNum rdipT pT 0 0 n Finc M s0).Fsca (3 * j + c))
    ∧ (∀ c, c < 3 →
        (Frp_mat_jcycle sqrt cos sin WaveNum rdipT pT 0 0 n Finc M s0).Fsca_tot c
          = s0.Fsca_tot c + ∑ j in Finset.range M,
              (Frp_mat_jcycle sqrt cos sin WaveNum rdipT pT 0 0 n Finc M s0).Fsca (3 * j + c))
    ∧ (∀ c, c < 3 →
        (Frp_mat_jcycle sqrt cos sin WaveNum rdipT pT 0 0 n Finc M s0).Frp_tot c
          = s0.Frp_tot c + ∑ j in Finset.range M,
              (Frp_mat_jcycle sqrt cos sin WaveNum rdipT pT 0 0 n Finc M s0).Frp (3 * j + c)) := by
  induction M with
  | zero =>
    exact ⟨fun j c hj => absurd hj (Nat.not_lt_zero j), fun k _ => rfl,
      fun j c hj => absurd hj (Nat.not_lt_zero j), fun c _ => by simp [Frp_mat_jcycle],
      fun c _ => by simp [Frp_mat_jcycle]⟩
  | succ M ih =>
    unfold INT_MAX at hb
    obtain ⟨h1, h2, h3, h4, h5⟩ := ih (by unfold INT_MAX; push_cast at hb ⊢; omega)
    have hM : (3 * M + 2 : Int) ≤ INT_MAX := by
      unfold INT_MAX
      push_cast at hb ⊢
      omega
    have i0 : Frp_mat_index 0 (Frp_mat_jjj M) 0 = 3 * M + 0 := by
      simpa using Frp_mat_index_eq 0 M 0 (Nat.zero_le M) (by push_cast; omega)
    have i1 : Frp_mat_index 0 (Frp_mat_jjj M) 1 = 3 * M + 1 := by
      simpa using Frp_mat_index_eq 0 M 1 (Nat.zero_le M) (by push_cast; omega)
    have i2 : Frp_mat_index 0 (Frp_mat_jjj M) 2 = 3 * M + 2 := by
      simpa using Frp_mat_index_eq 0 M 2 (Nat.zero_le M) (by push_cast; omega)
    obtain ⟨l1, l2⟩ := Frp_mat_lcycle_spec sqrt cos sin WaveNum rdipT pT M n
      (Frp_mat_jcycle sqrt cos sin WaveNum rdipT pT 0 0 n Finc M s0).Fsca hM
    obtain ⟨c1, c2, c3⟩ := Frp_mat_conclude3 Finc (3 * M)
      { Frp_mat_jcycle sqrt cos sin WaveNum rdipT pT 0 0 n Finc M s0 with
        Fsca := Frp_mat_lcycle sqrt cos sin WaveNum rdipT pT 0 M n
          (Frp_mat_jcycle sqrt cos sin WaveNum rdipT pT 0 0 n Finc M s0).Fsca }
    have hstep : Frp_mat_jcycle sqrt cos sin WaveNum rdipT pT 0 0 n Finc (M + 1) s0
        = Frp_mat_conclude Finc (3 * M + 2) 2 (Frp_mat_conclude Finc (3 * M + 1) 1
            (Frp_mat_conclude Finc (3 * M + 0) 0
              { Frp_mat_jcycle sqrt cos sin WaveNum rdipT pT 0 0 n Finc M s0 with
                Fsca := Frp_mat_lcycle sqrt cos sin WaveNum rdipT pT 0 M n
                  (Frp_mat_jcycle sqrt cos sin WaveNum rdipT pT 0 0 n Finc M s0).Fsca })) := by
      simp only [Frp_mat_jcycle, Nat.zero_add, i0, i1, i2]
    rw [hstep]
    have hF : ∀ j c, j < M + 1 → c < 3 →
        Frp_mat_lcycle sqrt cos sin WaveNum rdipT pT 0 M n
          (Frp_mat_jcycle sqrt cos sin WaveNum rdipT pT 0 0 n Finc M s0).Fsca (3 * j + c)
        = s0.Fsca (3 * j + c) + ∑ l in Finset.range n,
              if l ≠ j then
                Frp_mat_pair sqrt cos sin WaveNum rdipT pT (Frp_mat_jjj j) ((3 * l) % 2 ^ 64) c
              else 0 := by
      intro j c hj hc
      by_cases hjM : j = M
      · subst hjM
        rw [l1 c hc, h2 _ (by omega)]
      · rw [l2 _ (Or.inl (by omega))]
        exact h1 j c (by omega) hc
    have hold : ∀ j c, j < M → c < 3 →
        Frp_mat_lcycle sqrt cos sin WaveNum rdipT pT 0 M n
          (Frp_mat_jcycle sqrt cos sin WaveNum rdipT pT 0 0 n Finc M s0).Fsca (3 * j + c)
        = (Frp_mat_jcycle sqrt cos sin WaveNum rdipT pT 0 0 n Finc M s0).Fsca (3 * j + c) :=
      fun j c hj hc => l2 _ (Or.inl (by omega))
    refine ⟨fun j c hj hc => ?_, fun k hk => ?_, fun j c hj hc => ?_, fun c hc => ?_,
      fun c hc => ?_⟩
    · rw [c1]
      exact hF j c hj hc
    · rw [c1]
      show Frp_mat_lcycle sqrt cos sin WaveNum rdipT pT 0 M n
          (Frp_mat_jcycle sqrt cos sin WaveNum rdipT pT 0 0 n Finc M s0).Fsca k = s0.Fsca k
      rw [l2 _ (Or.inr (by omega))]
      exact h2 k (by omega)
    · rw [c1]
      by_cases hjM : j = M
      · subst hjM
        exact (c2 c hc).1
      · rw [c3 _ (Or.inl (by omega))]
        show (Frp_mat_jcycle sqrt cos sin WaveNum rdipT pT 0 0 n Finc M s0).Frp (3 * j + c)
          = Finc (3 * j + c) + Frp_mat_lcycle sqrt cos sin WaveNum rdipT pT 0 M n
            (Frp_mat_jcycle sqrt cos sin WaveNum rdipT pT 0 0 n Finc M s0).Fsca (3 * j + c)
        rw [hold j c (by omega) hc]
        exact h3 j c (by omega) hc
    · rw [(c2 c hc).2.1, c1, Finset.sum_range_succ]
      show (Frp_mat_jcycle sqrt cos sin WaveNum rdipT pT 0 0 n Finc M s0).Fsca_tot c
          + Frp_mat_lcycle sqrt cos sin WaveNum rdipT pT 0 M n
            (Frp_mat_jcycle sqrt cos sin WaveNum rdipT pT 0 0 n Finc M s0).Fsca (3 * M + c)
        = s0.Fsca_tot c + (∑ j in Finset.range M,
            Frp_mat_lcycle sqrt cos sin WaveNum rdipT pT 0 M n
              (Frp_mat_jcycle sqrt cos sin WaveNum rdipT pT 0 0 n Finc M s0).Fsca (3 * j + c)
          + Frp_mat_lcycle sqrt cos sin WaveNum rdipT pT 0 M n
            (Frp_mat_jcycle sqrt cos sin WaveNum rdipT pT 0 0 n Finc M s0).Fsca (3 * M + c))
      rw [h4 c hc, Finset.sum_congr rfl (fun j hj =>
        hold j c (Finset.mem_range.mp hj) hc), add_assoc]
    · rw [(c2 c hc).2.2, Finset.sum_range_succ, (c2 c hc).1]
      show (Frp_mat_jcycle sqrt cos sin WaveNum rdipT pT 0 0 n Finc M s0).Frp_tot c
          + (Finc (3 * M + c) + Frp_mat_lcycle sqrt cos sin WaveNum rdipT pT 0 M n
            (Frp_mat_jcycle sqrt cos sin WaveNum rdipT pT 0 0 n Finc M s0).Fsca (3 * M + c))
        = s0.Frp_tot c + (∑ j in Finset.range M,
            (Frp_mat_conclude Finc (3 * M + 2) 2 (Frp_mat_conclude Finc (3 * M + 1) 1
              (Frp_mat_conclude Finc (3 * M + 0) 0
                { Frp_mat_jcycle sqrt cos sin WaveNum rdipT pT 0 0 n Finc M s0 with
                  Fsca := Frp_mat_lcycle sqrt cos sin WaveNum rdipT pT 0 M n
                    (Frp_mat_jcycle sqrt cos sin WaveNum rdipT pT 0 0 n Finc M s0).Fsca }))).Frp
              (3 * j + c)
          + (Finc (3 * M + c) + Frp_mat_lcycle sqrt cos sin WaveNum rdipT pT 0 M n
            (Frp_mat_jcycle sqrt cos sin WaveNum rdipT pT 0 0 n Finc M s0).Fsca (3 * M + c)))
      rw [h5 c hc, Finset.sum_congr rfl (fun j hj =>
        c3 (3 * j + c) (Or.inl (by have := Finset.mem_range.mp hj; omega))), add_assoc]

theorem Frp_mat_r2_congr {K : Type} [LinearOrderedField K] (rdipT rdipT2 : Nat → K)
    (n j l : Nat) (hn : (3 * n : Int) ≤ INT_MAX) (hj : j < n) (hl : l < n)
    (hr : ∀ k, k < 3 * n → rdipT k = rdipT2 k) :
    Frp_mat_r2 rdipT (Frp_mat_jjj j) ((3 * l) % 2 ^ 64)
      = (rdipT2 (3 * j + 0) - rdipT2 (3 * l + 0)) * (rdipT2 (3 * j + 0) - rdipT2 (3 * l + 0))
        + (rdipT2 (3 * j + 1) - rdipT2 (3 * l + 1)) * (rdipT2 (3 * j + 1) - rdipT2 (3 * l + 1))
        + (rdipT2 (3 * j + 2) - rdipT2 (3 * l + 2))
            * (rdipT2 (3 * j + 2) - rdipT2 (3 * l + 2)) := by
  have hI := hn
  unfold INT_MAX at hI
  have a0 := Frp_mat_at_eq j 0 (by unfold INT_MAX; push_cast; omega)
  have a1 := Frp_mat_at_eq j 1 (by unfold INT_MAX; push_cast; omega)
  have a2 := Frp_mat_at_eq j 2 (by unfold INT_MAX; push_cast; omega)
  have b0 : ((3 * l) % 2 ^ 64 + 0) % 2 ^ 64 = 3 * l + 0 := by omega
  have b1 : ((3 * l) % 2 ^ 64 + 1) % 2 ^ 64 = 3 * l + 1 := by omega
  have b2 : ((3 * l) % 2 ^ 64 + 2) % 2 ^ 64 = 3 * l + 2 := by omega
  simp only [Frp_mat_r2, a0, a1, a2, b0, b1, b2, hr (3 * j + 0) (by omega),
    hr (3 * j + 1) (by omega), hr (3 * j + 2) (by omega), hr (3 * l + 0) (by omega),
    hr (3 * l + 1) (by omega), hr (3 * l + 2) (by omega), zero_add]

theorem Frp_mat_pair_congr {K : Type} [LinearOrderedField K] (sqrt cos sin : K → K)
    (WaveNum : K) (rdipT rdipT2 : Nat → K) (pT pT2 : Nat → doublecomplex K)
    (n j l c : Nat) (hn : (3 * n : Int) ≤ INT_MAX) (hj : j < n) (hl : l < n) (hc : c < 3)
    (hr : ∀ k, k < 3 * n → rdipT k = rdipT2 k) (hp : ∀ k, k < 3 * n → pT k = pT2 k) :
    Frp_mat_pair sqrt cos sin WaveNum rdipT pT (Frp_mat_jjj j) ((3 * l) % 2 ^ 64) c
      = Frp_mat_pair sqrt cos sin WaveNum rdipT2 pT2 (Frp_mat_jjj j) ((3 * l) % 2 ^ 64) c := by
  have hI := hn
  unfold INT_MAX at hI
  have a0 := Frp_mat_at_eq j 0 (by unfold INT_MAX; push_cast; omega)
  have a1 := Frp_mat_at_eq j 1 (by unfold INT_MAX; push_cast; omega)
  have a2 := Frp_mat_at_eq j 2 (by unfold INT_MAX; push_cast; omega)
  have b0 : ((3 * l) % 2 ^ 64 + 0) % 2 ^ 64 = 3 * l + 0 := by omega
  have b1 : ((3 * l) % 2 ^ 64 + 1) % 2 ^ 64 = 3 * l + 1 := by omega
  have b2 : ((3 * l) % 2 ^ 64 + 2) % 2 ^ 64 = 3 * l + 2 := by omega
  have e1 := Frp_mat_r2_congr rdipT rdipT2 n j l hn hj hl hr
  have e2 := Frp_mat_r2_congr rdipT2 rdipT2 n j l hn hj hl (fun _ _ => rfl)
  have hc3 : c = 0 ∨ c = 1 ∨ c = 2 := by omega
  rcases hc3 with rfl | rfl | rfl <;>
    simp only [Frp_mat_pair, e1, e2, a0, a1, a2, b0, b1, b2, hr (3 * j + 0) (by omega),
      hr (3 * j + 1) (by omega), hr (3 * j + 2) (by omega), hr (3 * l + 0) (by omega),
      hr (3 * l + 1) (by omega), hr (3 * l + 2) (by omega), hp (3 * j + 0) (by omega),
      hp (3 * j + 1) (by omega), hp (3 * j + 2) (by omega), hp (3 * l + 0) (by omega),
      hp (3 * l + 1) (by omega), hp (3 * l + 2) (by omega)]

theorem Frp_mat_r2_pos (rdipT : Nat → ℝ) (n j l : Nat) (hn : (3 * n : Int) ≤ INT_MAX)
    (hj : j < n) (hl : l < n)
    (hd : ∃ c, c < 3 ∧ rdipT (3 * j + c) ≠ rdipT (3 * l + c)) :
    0 < Frp_mat_r2 rdipT (Frp_mat_jjj j) ((3 * l) % 2 ^ 64) := by
  rw [Frp_mat_r2_congr rdipT rdipT n j l hn hj hl (fun _ _ => rfl)]
  obtain ⟨c, hc, hne⟩ := hd
  have h0 := mul_self_nonneg (rdipT (3 * j + 0) - rdipT (3 * l + 0))
  have h1 := mul_self_nonneg (rdipT (3 * j + 1) - rdipT (3 * l + 1))
  have h2 := mul_self_nonneg (rdipT (3 * j + 2) - rdipT (3 * l + 2))
  have hpos : 0 < (rdipT (3 * j + c) - rdipT (3 * l + c))
      * (rdipT (3 * j + c) - rdipT (3 * l + c)) :=
    mul_self_pos.mpr (sub_ne_zero.mpr hne)
  have hc3 : c = 0 ∨ c = 1 ∨ c = 2 := by omega
  rcases hc3 with rfl | rfl | rfl <;> linarith

theorem toComplex_cMult (a b : doublecomplex ℝ) :
    (cMult a b).toComplex = a.toComplex * b.toComplex := by
  apply Complex.ext <;> simp [cMult, doublecomplex.toComplex]
  ring

theorem toComplex_cMultSelf (a b : doublecomplex ℝ) :
    (cMultSelf a b).toComplex = a.toComplex * b.toComplex := by
  apply Complex.ext <;> simp [cMultSelf, doublecomplex.toComplex]
  ring

theorem toComplex_cAdd (a b : doublecomplex ℝ) :
    (cAdd a b).toComplex = a.toComplex + b.toComplex := by
  apply Complex.ext <;> simp [cAdd, doublecomplex.toComplex]

theorem toComplex_real (x : ℝ) : (⟨x, 0⟩ : doublecomplex ℝ).toComplex = (x : ℂ) := by
  apply Complex.ext <;> simp [doublecomplex.toComplex]

theorem toComplex_conj (p : doublecomplex ℝ) :
    (⟨p.RE, -p.IM⟩ : doublecomplex ℝ).toComplex = (starRingEnd ℂ) p.toComplex := by
  apply Complex.ext <;> simp [doublecomplex.toComplex]

theorem toComplex_scale (t : doublecomplex ℝ) (m : ℝ) :
    (⟨t.RE * m, t.IM * m⟩ : doublecomplex ℝ).toComplex = (m : ℂ) * t.toComplex := by
  apply Complex.ext <;> simp [doublecomplex.toComplex] <;> ring

theorem toComplex_mk (x y : ℝ) :
    (⟨x, y⟩ : doublecomplex ℝ).toComplex = (x : ℂ) + (y : ℂ) * Complex.I := by
  apply Complex.ext <;> simp [doublecomplex.toComplex]

theorem toComplex_cos_sin (t : ℝ) :
    (⟨Real.cos t, Real.sin t⟩ : doublecomplex ℝ).toComplex = Complex.exp (Complex.I * t) := by
  have := toComplex_imExp t
  rw [mul_comm]
  exact this

theorem toComplex_re_add (a b : doublecomplex ℝ) :
    a.RE + b.RE = (a.toComplex + b.toComplex).re := by
  simp [doublecomplex.toComplex]

theorem Frp_mat_ab1 (k r r2 : ℝ) (h : r2 = r * r) (hr : r ≠ 0) :
    ((3 / (r2 * r2) - k * k / r2 : ℝ) : ℂ) + ((-3 * k / (r * r2) : ℝ) : ℂ) * Complex.I
      = 3 / (r : ℂ) ^ 4 - (k : ℂ) ^ 2 / (r : ℂ) ^ 2 - 3 * Complex.I * k / (r : ℂ) ^ 3 := by
  have hrC : (r : ℂ) ≠ 0 := by exact_mod_cast hr
  rw [h]
  push_cast
  ring

theorem Frp_mat_ab2 (k r r2 : ℝ) (h : r2 = r * r) (hr : r ≠ 0) :
    ((-k * k / r2 : ℝ) : ℂ) + ((k * k * k / r : ℝ) : ℂ) * Complex.I
      = -((k : ℂ) ^ 2) / (r : ℂ) ^ 2 + Complex.I * (k : ℂ) ^ 3 / (r : ℂ) := by
  have hrC : (r : ℂ) ≠ 0 := by exact_mod_cast hr
  rw [h]
  push_cast
  ring

/-- The pair term that `Frp_mat` adds for the dipoles `j` and `l` at a positive distance is
half the real part of the pair term in complex notation. -/
theorem Frp_mat_pair_spec (WaveNum : ℝ) (D : Nat → ℝ) (P : Nat → doublecomplex ℝ)
    (n j l c : Nat) (hn : (3 * n : Int) ≤ INT_MAX) (hj : j < n) (hl : l < n) (hc : c < 3)
    (hpos : 0 < spec_dist2 D j l) :
    Frp_mat_pair Real.sqrt Real.cos Real.sin WaveNum D P (Frp_mat_jjj j) ((3 * l) % 2 ^ 64) c
      = (spec_FscaPair Complex.I
            (Complex.exp (Complex.I * WaveNum * Real.sqrt (spec_dist2 D j l)))
            (WaveNum : ℂ) (Real.sqrt (spec_dist2 D j l) : ℂ)
            (fun c => (((D (3 * j + c) - D (3 * l + c)) / Real.sqrt (spec_dist2 D j l) : ℝ) : ℂ))
            (fun c => (starRingEnd ℂ) (P (3 * j + c)).toComplex)
            (fun c => (P (3 * l + c)).toComplex) c).re / 2 := by
  have hI := hn
  unfold INT_MAX at hI
  have a0 := Frp_mat_at_eq j 0 (by unfold INT_MAX; push_cast; omega)
  have a1 := Frp_mat_at_eq j 1 (by unfold INT_MAX; push_cast; omega)
  have a2 := Frp_mat_at_eq j 2 (by unfold INT_MAX; push_cast; omega)
  have b0 : ((3 * l) % 2 ^ 64 + 0) % 2 ^ 64 = 3 * l + 0 := by omega
  have b1 : ((3 * l) % 2 ^ 64 + 1) % 2 ^ 64 = 3 * l + 1 := by omega
  have b2 : ((3 * l) % 2 ^ 64 + 2) % 2 ^ 64 = 3 * l + 2 := by omega
  have e2 : Frp_mat_r2 D (Frp_mat_jjj j) ((3 * l) % 2 ^ 64) = spec_dist2 D j l := by
    rw [Frp_mat_r2_congr D D n j l hn hj hl (fun _ _ => rfl)]
    simp only [spec_dist2]
    ring
  obtain ⟨r2, hr2⟩ : ∃ r2, r2 = spec_dist2 D j l := ⟨_, rfl⟩
  rw [← hr2] at e2 hpos ⊢
  obtain ⟨r, hr⟩ : ∃ r, r = Real.sqrt r2 := ⟨_, rfl⟩
  have hrr : r2 = r * r := by
    rw [hr]
    exact (Real.mul_self_sqrt (le_of_lt hpos)).symm
  have hr0 : r ≠ 0 := by
    rw [hr]
    exact (Real.sqrt_pos.mpr hpos).ne'
  have hc3 : c = 0 ∨ c = 1 ∨ c = 2 := by omega
  have hE : Complex.exp (Complex.I * ((WaveNum * r : ℝ) : ℂ))
      = Complex.exp (Complex.I * (WaveNum : ℂ) * (r : ℂ)) := by
    push_cast
    rw [mul_assoc]
  simp only [spec_FscaPair]
  rw [← hr]
  rcases hc3 with rfl | rfl | rfl
  all_goals
    simp only [Frp_mat_pair, e2, a0, a1, a2, b0, b1, b2]
    rw [← hr]
    rw [toComplex_re_add]
    refine congrArg (fun z : ℂ => z.re / 2) ?_
    simp only [toComplex_cMultSelf, toComplex_cAdd, toComplex_cMult, toComplex_real,
      toComplex_conj, toComplex_scale, toComplex_cos_sin]
    simp only [toComplex_mk]
    rw [Frp_mat_ab1 WaveNum r r2 hrr hr0, Frp_mat_ab2 WaveNum r r2 hrr hr0, hE]
    generalize (((D (3 * j + 0) - D (3 * l + 0)) / r : ℝ) : ℂ) = n0
    generalize (((D (3 * j + 1) - D (3 * l + 1)) / r : ℝ) : ℂ) = n1
    generalize (((D (3 * j + 2) - D (3 * l + 2)) / r : ℝ) : ℂ) = n2
    generalize (starRingEnd ℂ) (P (3 * j + 0)).toComplex = x0
    generalize (starRingEnd ℂ) (P (3 * j + 1)).toComplex = x1
    generalize (starRingEnd ℂ) (P (3 * j + 2)).toComplex = x2
    generalize (P (3 * l + 0)).toComplex = p0
    generalize (P (3 * l + 1)).toComplex = p1
    generalize (P (3 * l + 2)).toComplex = p2
    generalize Complex.exp (Complex.I * (WaveNum : ℂ) * (r : ℂ)) = E
    push_cast
    ring


theorem spec_dist2_pos (D : Nat → ℝ) (j l : Nat)
    (hd : ∃ c, c < 3 ∧ D (3 * j + c) ≠ D (3 * l + c)) : 0 < spec_dist2 D j l := by
  obtain ⟨c, hc, hne⟩ := hd
  have h0 := sq_nonneg (D (3 * j + 0) - D (3 * l + 0))
  have h1 := sq_nonneg (D (3 * j + 1) - D (3 * l + 1))
  have h2 := sq_nonneg (D (3 * j + 2) - D (3 * l + 2))
  have hpos : 0 < (D (3 * j + c) - D (3 * l + c)) ^ 2 :=
    lt_of_le_of_ne (sq_nonneg _) (Ne.symm (pow_ne_zero 2 (sub_ne_zero.mpr hne)))
  have hc3 : c = 0 ∨ c = 1 ∨ c = 2 := by omega
  unfold spec_dist2
  rcases hc3 with rfl | rfl | rfl <;> linarith

/-- C23: `Frp_mat` on a single process (`local_z0 = 0`, rank 0, the gathered arrays are the
copies of `DipoleCoord` and `pvec`), with `Finc` and `Fsca` zero on entry and pairwise
distinct dipole positions, in exact real arithmetic: it returns; for every dipole `j` the
incident force has only a z component, `Finc[3j+2] = k * Im(sum_c pvec[3j+c]*conj(Einc[3j+c]))/2`;
the distance `r` of two different dipoles, by which the code divides, is positive;
`Fsca[3j+c]` is the sum over all dipoles `l != j` of the pair term, half the real part of
`spec_FscaPair` for the wave number `k`, the distance `r`, the unit vector from `l` to `j`,
`exp(ikr)`, the conjugate moment of `j` and the moment of `l`;
`Frp[3j+c] = Finc[3j+c] + Fsca[3j+c]`; the totals are the sums over the dipoles, with
`Frp_tot[c] = Finc_tot[c] + Fsca_tot[c]` and `Finc_tot[0] = Finc_tot[1] = 0`. -/
theorem Frp_mat_single_process (WaveNum : ℝ) (n boxX boxY : Nat) (nvoid_array : Nat → Nat)
    (pvec Einc : Nat → doublecomplex ℝ) (DipoleCoord rdipT : Nat → ℝ)
    (pT : Nat → doublecomplex ℝ) (Fsca Finc Frp : Nat → ℝ)
    (hn : (3 * n : Int) ≤ INT_MAX)
    (hrd : ∀ k, k < 3 * n → rdipT k = DipoleCoord k)
    (hpT : ∀ k, k < 3 * n → pT k = pvec k)
    (hFinc : ∀ k, Finc k = 0) (hFsca : ∀ k, Fsca k = 0)
    (hdist : ∀ j l, j < n → l < n → j ≠ l →
      ∃ c, c < 3 ∧ DipoleCoord (3 * j + c) ≠ DipoleCoord (3 * l + c)) :
    ∃ out, Frp_mat Real.sqrt Real.cos Real.sin WaveNum (Frp_mat_local_d0 boxX boxY 0)
          (Frp_mat_local_nvoid_d0 nvoid_array 0) n n pvec Einc rdipT pT Fsca Finc Frp
        = Res.ok out
      ∧ (∀ j, j < n →
          out.Finc (3 * j + 2)
            = WaveNum * (∑ c in Finset.range 3, ((pvec (3 * j + c)).IM * (Einc (3 * j + c)).RE
                - (pvec (3 * j + c)).RE * (Einc (3 * j + c)).IM)) / 2
          ∧ out.Finc (3 * j + 2)
            = WaveNum * (∑ c in Finset.range 3, (pvec (3 * j + c)).toComplex
                * (starRingEnd ℂ) (Einc (3 * j + c)).toComplex).im / 2
          ∧ out.Finc (3 * j) = 0 ∧ out.Finc (3 * j + 1) = 0)
      ∧ (∀ j l, j < n → l < n → j ≠ l →
          Frp_mat_r2 rdipT (Frp_mat_jjj j) ((3 * l) % 2 ^ 64) = spec_dist2 DipoleCoord j l
          ∧ 0 < Real.sqrt (spec_dist2 DipoleCoord j l))
      ∧ (∀ j c, j < n → c < 3 →
          out.Fsca (3 * j + c)
            = ∑ l in (Finset.range n).filter (fun l => l ≠ j),
                (spec_FscaPair Complex.I
                  (Complex.exp (Complex.I * WaveNum * Real.sqrt (spec_dist2 DipoleCoord j l)))
                  (WaveNum : ℂ) (Real.sqrt (spec_dist2 DipoleCoord j l) : ℂ)
                  (fun c => (((DipoleCoord (3 * j + c) - DipoleCoord (3 * l + c))
                    / Real.sqrt (spec_dist2 DipoleCoord j l) : ℝ) : ℂ))
                  (fun c => (starRingEnd ℂ) (pvec (3 * j + c)).toComplex)
                  (fun c => (pvec (3 * l + c)).toComplex) c).re / 2)
      ∧ (∀ j c, j < n → c < 3 →
          out.Frp (3 * j + c) = out.Finc (3 * j + c) + out.Fsca (3 * j + c))
      ∧ (∀ c, c < 3 → out.Frp_tot c = out.Finc_tot c + out.Fsca_tot c)
      ∧ out.Finc_tot 0 = 0 ∧ out.Finc_tot 1 = 0
      ∧ out.Finc_tot 2 = ∑ j in Finset.range n, out.Finc (3 * j + 2)
      ∧ (∀ c, c < 3 → out.Fsca_tot c = ∑ j in Finset.range n, out.Fsca (3 * j + c))
      ∧ (∀ c, c < 3 → out.Frp_tot c = ∑ j in Finset.range n, out.Frp (3 * j + c)) := by
  have hI := hn
  unfold INT_MAX at hI
  have hd0 : Frp_mat_local_d0 boxX boxY 0 = 0 := by simp [Frp_mat_local_d0]
  have hnd0 : Frp_mat_local_nvoid_d0 nvoid_array 0 = 0 := rfl
  have hchk : CheckOverflow ((3 * n) % 2 ^ 64) "Frp_mat()" = Res.ok () := by
    unfold CheckOverflow
    rw [Nat.mod_eq_of_lt (by omega), if_neg (by unfold INT_MAX; push_cast; omega)]
  obtain ⟨a1, a2, a3⟩ := Frp_mat_inc_spec WaveNum pvec Einc n (Finc, 0)
  obtain ⟨b1, _, b3, b4, b5⟩ := Frp_mat_jcycle_spec Real.sqrt Real.cos Real.sin WaveNum rdipT pT
    n (Frp_mat_inc WaveNum pvec Einc n (Finc, 0)).1 n ⟨Fsca, Frp, fun _ => 0, fun _ => 0⟩ hn
  have hinc0 : ∀ j c, j < n → c < 2 →
      (Frp_mat_inc WaveNum pvec Einc n (Finc, 0)).1 (3 * j + c) = 0 := by
    intro j c _ hc
    rw [a2 _ (fun j2 _ => by omega)]
    exact hFinc _
  refine ⟨_, by simp only [Frp_mat, hchk, Res.bind_ok, hd0, hnd0]; rfl,
    fun j hj => ⟨?_, ?_, ?_, ?_⟩,
    fun j l hj hl hjl => ⟨?_, ?_⟩, fun j c hj hc => ?_, fun j c hj hc => b3 j c hj hc,
    fun c hc => ?_, rfl, rfl, ?_, fun c hc => ?_, fun c hc => ?_⟩
  · show (Frp_mat_inc WaveNum pvec Einc n (Finc, 0)).1 (3 * j + 2) = _
    rw [a1 j hj, Frp_mat_dummy_IM]
  · show (Frp_mat_inc WaveNum pvec Einc n (Finc, 0)).1 (3 * j + 2) = _
    rw [a1 j hj, Frp_mat_dummy_IM]
    simp only [Finset.sum_range_succ, Finset.sum_range_zero, Complex.add_im, Complex.mul_im,
      Complex.conj_re, Complex.conj_im, doublecomplex.toComplex, Complex.zero_im]
    ring
  · exact hinc0 j 0 hj (by norm_num)
  · exact hinc0 j 1 hj (by norm_num)
  · rw [Frp_mat_r2_congr rdipT DipoleCoord n j l hn hj hl hrd]
    simp only [spec_dist2]
    ring
  · exact Real.sqrt_pos.mpr (spec_dist2_pos DipoleCoord j l (hdist j l hj hl hjl))
  · show (Frp_mat_jcycle Real.sqrt Real.cos Real.sin WaveNum rdipT pT 0 0 n
        (Frp_mat_inc WaveNum pvec Einc n (Finc, 0)).1 n
        ⟨Fsca, Frp, fun _ => 0, fun _ => 0⟩).Fsca (3 * j + c) = _
    rw [b1 j c hj hc, Finset.sum_filter]
    simp only [hFsca, zero_add]
    exact Finset.sum_congr rfl (fun l hl => by
      by_cases hlj : l ≠ j
      · rw [if_pos hlj, if_pos hlj,
          Frp_mat_pair_congr Real.sqrt Real.cos Real.sin WaveNum rdipT DipoleCoord pT pvec
            n j l c hn hj (Finset.mem_range.mp hl) hc hrd hpT]
        exact Frp_mat_pair_spec WaveNum DipoleCoord pvec n j l c hn hj (Finset.mem_range.mp hl)
          hc (spec_dist2_pos DipoleCoord j l
            (hdist j l hj (Finset.mem_range.mp hl) (fun h => hlj h.symm)))
      · rw [if_neg hlj, if_neg hlj])
  · show (Frp_mat_jcycle Real.sqrt Real.cos Real.sin WaveNum rdipT pT 0 0 n
        (Frp_mat_inc WaveNum pvec Einc n (Finc, 0)).1 n
        ⟨Fsca, Frp, fun _ => 0, fun _ => 0⟩).Frp_tot c
      = (if c = 2 then (Frp_mat_inc WaveNum pvec Einc n (Finc, 0)).2 else 0)
        + (Frp_mat_jcycle Real.sqrt Real.cos Real.sin WaveNum rdipT pT 0 0 n
          (Frp_mat_inc WaveNum pvec Einc n (Finc, 0)).1 n
          ⟨Fsca, Frp, fun _ => 0, fun _ => 0⟩).Fsca_tot c
    rw [b5 c hc, b4 c hc, Finset.sum_congr rfl (fun j hj =>
      b3 j c (Finset.mem_range.mp hj) hc), Finset.sum_add_distrib]
    simp only [zero_add]
    congr 1
    by_cases hc2 : c = 2
    · subst hc2
      rw [if_pos rfl, a3]
      simp only [zero_add]
      exact Finset.sum_congr rfl (fun j hj => a1 j (Finset.mem_range.mp hj))
    · rw [if_neg hc2]
      exact Finset.sum_eq_zero (fun j hj =>
        hinc0 j c (Finset.mem_range.mp hj) (by omega))
  · show (Frp_mat_inc WaveNum pvec Einc n (Finc, 0)).2
      = ∑ j in Finset.range n, (Frp_mat_inc WaveNum pvec Einc n (Finc, 0)).1 (3 * j + 2)
    rw [a3]
    simp only [zero_add]
    exact Finset.sum_congr rfl (fun j hj => (a1 j (Finset.mem_range.mp hj)).symm)
  · show (Frp_mat_jcycle Real.sqrt Real.cos Real.sin WaveNum rdipT pT 0 0 n
        (Frp_mat_inc WaveNum pvec Einc n (Finc, 0)).1 n
        ⟨Fsca, Frp, fun _ => 0, fun _ => 0⟩).Fsca_tot c = _
    rw [b4 c hc]
    simp only [zero_add]
  · show (Frp_mat_jcycle Real.sqrt Real.cos Real.sin WaveNum rdipT pT 0 0 n
        (Frp_mat_inc WaveNum pvec Einc n (Finc, 0)).1 n
        ⟨Fsca, Frp, fun _ => 0, fun _ => 0⟩).Frp_tot c = _
    rw [b5 c hc]
    simp only [zero_add]

/-- Witness of C23: two dipoles with the moment `(1,0,0)` at `(0,0,0)` and `(1,0,0)`, wave
number 1, zero arrays on entry: the x component of the scattering force on the first dipole
is `2 cos 1 + 3 sin 1`. -/
theorem Frp_mat_single_process_witness :
    ∃ out, Frp_mat Real.sqrt Real.cos Real.sin 1 (Frp_mat_local_d0 2 2 0)
          (Frp_mat_local_nvoid_d0 (fun _ => 2) 0) 2 2
          (fun k => if k % 3 = 0 then ⟨1, 0⟩ else ⟨0, 0⟩) (fun _ => ⟨0, 1⟩)
          (fun k => if k = 3 then 1 else 0) (fun k => if k % 3 = 0 then ⟨1, 0⟩ else ⟨0, 0⟩)
          (fun _ => 0) (fun _ => 0) (fun _ => 0)
        = Res.ok out
      ∧ out.Fsca 0 = 2 * Real.cos 1 + 3 * Real.sin 1
      ∧ out.Finc_tot 0 = 0
      ∧ out.Frp_tot 2 = out.Finc_tot 2 + out.Fsca_tot 2 := by
  obtain ⟨out, h1, _, _, h4, _, h5, h6, _⟩ := Frp_mat_single_process 1 2 2 2 (fun _ => 2)
    (fun k => if k % 3 = 0 then ⟨1, 0⟩ else ⟨0, 0⟩) (fun _ => ⟨0, 1⟩)
    (fun k => if k = 3 then 1 else 0) (fun k => if k = 3 then 1 else 0)
    (fun k => if k % 3 = 0 then ⟨1, 0⟩ else ⟨0, 0⟩) (fun _ => 0) (fun _ => 0) (fun _ => 0)
    (by unfold INT_MAX; norm_num) (fun _ _ => rfl) (fun _ _ => rfl) (fun _ => rfl)
    (fun _ => rfl)
    (fun j l hj hl hjl => ⟨0, by norm_num, by
      interval_cases j <;> interval_cases l <;> simp at hjl ⊢⟩)
  refine ⟨out, h1, ?_, h6, h5 2 (by norm_num)⟩
  have h := h4 0 0 (by norm_num) (by norm_num)
  have hd : spec_dist2 (fun k : Nat => if k = 3 then (1 : ℝ) else 0) 0 1 = 1 := by
    simp [spec_dist2]
  have hf : (Finset.range 2).filter (fun l => l ≠ 0) = {1} := by decide
  rw [hf, Finset.sum_singleton, hd, Real.sqrt_one] at h
  simp only [Nat.mul_zero, Nat.zero_add] at h
  rw [h]
  simp [spec_FscaPair, doublecomplex.toComplex, Complex.exp_re, Complex.exp_im]
  ring

end ADDA
